import Mathlib

/-! # Zenqua: the cross-service order workflow

A shallow embedding of the Go services of the repository.

* `Zenqua.OrderService`  : `OrderService/internal/{models,repo,service,handlers,middleware}`
* `Zenqua.ProductService`: `ProductService/internal/{models,repo,service,handlers,middleware}`
  and the route table of `ProductService/cmd/main.go`
* `Zenqua.Composed`      : the order service talking to the product service over HTTP
* `Zenqua.Jwt`           : the token library as the services use it
* `Zenqua.AuthService`   : `AuthService/{config,utils,middleware}`
* `Zenqua.ApiGateway`    : `ApiGateway/internal/{utils,middleware,proxy,routes}`
* `Zenqua.Go`            : the functions of Go's `strings` package used by the gates

Conventions.  Go `uint` identifiers are `Nat` (no arithmetic is done on them), Go `int`
quantities are `Int` and the one subtraction the code performs on them is wrapped to 64 bits
(`wrapInt64`).  `float64` is an abstract carrier `F` together with the operations the code
uses (`Float64Ops`), so every statement holds for IEEE arithmetic as well as for exact
arithmetic.  `time.Time` is a `Nat` tick count.  Stateful code is written in state-passing
style; outbound HTTP calls go through an `Upstream` record whose replies are arbitrary.
-/

namespace Zenqua

/-- The `float64` operations used by the services: the product `a * b`, the conversion
`float64(n)` of an `int`, and the zero value of the type. -/
structure Float64Ops (F : Type) where
  mul : F → F → F
  ofInt : Int → F
  zero : F

/-- Two's-complement wrap of a mathematical integer into the range of Go's 64-bit `int`. -/
def wrapInt64 (x : Int) : Int := (x + 2 ^ 63) % 2 ^ 64 - 2 ^ 63

/-- The values of Go's 64-bit `int`. -/
def IsInt64 (x : Int) : Prop := -(2 ^ 63) ≤ x ∧ x < 2 ^ 63

instance (x : Int) : Decidable (IsInt64 x) := by unfold IsInt64; infer_instance

/-- The key/value pairs the auth middleware leaves in the gin context (`c.Set("user_id", _)`,
`c.Set("role", _)`); `none` is an absent key. -/
structure Context where
  user_id : Option Nat
  role : Option String
deriving DecidableEq, Repr

/-- The message of one go-playground/validator field failure, as `err.Error()` prints it. -/
def validationMessage (struct field tag : String) : String :=
  "Key: \x27" ++ struct ++ "." ++ field ++ "\x27 Error:Field validation for \x27" ++ field ++
    "\x27 failed on the \x27" ++ tag ++ "\x27 tag"

namespace Go

/-! ## The functions of Go's `strings` package that the gates and the proxy use

A string is handled as its list of characters.  The texts the code compares against
(`Bearer `, `bearer`, a space, a route group such as `/auth`) are ASCII, so working on
characters gives the same result as Go's work on bytes. -/

/-- Go's `strings.HasPrefix(s, pfx)`. -/
def HasPrefix (s pfx : String) : Bool := pfx.data.isPrefixOf s.data

/-- The slice `s[n:]`. -/
def sliceFrom (s : String) (n : Nat) : String := ⟨s.data.drop n⟩

/-- Go's `strings.TrimPrefix(s, pfx)`. -/
def TrimPrefix (s pfx : String) : String :=
  if HasPrefix s pfx then sliceFrom s pfx.data.length else s

/-- Go's `strings.ToLower(s)`, on the ASCII letters.  No character outside ASCII has one of
the letters of `bearer` as its lower case, so comparisons with that word are exact. -/
def ToLower (s : String) : String := ⟨s.data.map Char.toLower⟩

/-- Go's `strings.Split(s, sep)` for a separator of one character. -/
def Split (s : String) (sep : Char) : List String := (s.data.splitOn sep).map String.mk

/-- The white space of Go's `unicode.IsSpace`. -/
def isSpace (c : Char) : Bool :=
  (9 ≤ c.toNat ∧ c.toNat ≤ 13) ∨ c.toNat = 32 ∨ c.toNat = 133 ∨ c.toNat = 160 ∨
  c.toNat = 5760 ∨ (8192 ≤ c.toNat ∧ c.toNat ≤ 8202) ∨ c.toNat = 8232 ∨ c.toNat = 8233 ∨
  c.toNat = 8239 ∨ c.toNat = 8287 ∨ c.toNat = 12288

/-- Go's `strings.TrimSpace(s)`. -/
def TrimSpace (s : String) : String :=
  ⟨((s.data.dropWhile isSpace).reverse.dropWhile isSpace).reverse⟩

end Go

namespace OrderService

/-! ## `OrderService/internal/models/order.go` -/

def StatusPending : String := "Pending"
def StatusCompleted : String := "Completed"
def StatusCancelled : String := "Cancelled"

def PaymentCOD : String := "COD"
def PaymentOnline : String := "Online"

/-- An order row (`models.Order`). -/
structure Order (F : Type) where
  ID : Nat
  UserID : Nat
  ProductID : Nat
  Quantity : Int
  TotalAmount : F
  PaymentMethod : String
  Status : String
  CreatedAt : Nat
  UpdatedAt : Nat
deriving DecidableEq, Repr

/-- The body of `POST /orders` (`models.CreateOrderRequest`). -/
structure CreateOrderRequest where
  ProductID : Nat
  Quantity : Int
  PaymentMethod : String
deriving DecidableEq, Repr

/-- The body of `PATCH /orders/:id/status` (`models.UpdateOrderStatusRequest`). -/
structure UpdateOrderStatusRequest where
  Status : String
deriving DecidableEq, Repr

/-- The order service's view of a catalog product (`models.Product`). -/
structure Product (F : Type) where
  ID : Nat
  Name : String
  Price : F
  Quantity : Int
  SellerID : Nat
deriving DecidableEq, Repr

/-! ## Errors

Go `error` values, kept structured; `Err.Error` is the text `err.Error()` returns. -/

/-- The errors the order service builds or passes on. -/
inductive Err where
  /-- Built by `fmt.Errorf("product service unreachable: %w", err)` -/
  | unreachable (cause : String)
  /-- Built by `fmt.Errorf("product service returned status %d", resp.StatusCode)` -/
  | badStatus (status : Nat)
  /-- Built by `fmt.Errorf("failed to decode product response: %w", err)` -/
  | decode (cause : String)
  /-- the error of `http.NewRequest`, returned as it is -/
  | newRequest (cause : String)
  /-- Built by `fmt.Errorf("failed to update product quantity: %w", err)` -/
  | patchFailed (cause : String)
  /-- Built by `fmt.Errorf("failed to fetch product: %w", err)` -/
  | fetch (inner : Err)
  /-- Built by `errors.New("product not found")` -/
  | productNotFound
  /-- Built by `fmt.Errorf("insufficient stock: available=%d, requested=%d", ..)` -/
  | insufficientStock (available requested : Int)
  /-- an error of the repository (GORM), returned as it is -/
  | repo (msg : String)
  /-- Built by `errors.New("order not found")` -/
  | orderNotFound
deriving DecidableEq, Repr

/-- The message of an error (`err.Error()`). -/
def Err.Error : Err → String
  | .unreachable cause => "product service unreachable: " ++ cause
  | .badStatus status => "product service returned status " ++ toString status
  | .decode cause => "failed to decode product response: " ++ cause
  | .newRequest cause => cause
  | .patchFailed cause => "failed to update product quantity: " ++ cause
  | .fetch inner => "failed to fetch product: " ++ inner.Error
  | .productNotFound => "product not found"
  | .insufficientStock available requested =>
      "insufficient stock: available=" ++ toString available ++ ", requested=" ++
        toString requested
  | .repo msg => msg
  | .orderNotFound => "order not found"

/-- An insufficient-stock error, whatever its counts. -/
def Err.isInsufficientStock : Err → Bool
  | .insufficientStock _ _ => true
  | _ => false

/-! ## `OrderService/internal/repo/order_repo.go`

The `orders` table behind GORM. -/

/-- The `orders` table: its rows in insertion order, the highest key the autoincrement
column has handed out, and the condition of the connection (`some e`: every statement
fails with `e`). -/
structure OrderStore (F : Type) where
  rows : List (Order F)
  lastID : Nat
  fault : Option String
deriving DecidableEq, Repr

/-- The ordering of `ORDER BY created_at DESC`: `a` may stand before `b`. -/
def newerFirst {F : Type} (a b : Order F) : Prop := b.CreatedAt ≤ a.CreatedAt

instance {F : Type} : DecidableRel (newerFirst : Order F → Order F → Prop) :=
  fun a b => inferInstanceAs (Decidable (b.CreatedAt ≤ a.CreatedAt))

instance {F : Type} : IsTotal (Order F) newerFirst :=
  ⟨fun a b => Nat.le_total b.CreatedAt a.CreatedAt⟩

instance {F : Type} : IsTrans (Order F) newerFirst :=
  ⟨fun _ _ _ hab hbc => Nat.le_trans hbc hab⟩

/-- Inserts an order (`r.db.Create(order)`).  A zero `ID` is filled from the autoincrement
column; a non-zero `ID` is kept and must be free.  The order with its key is handed back,
as GORM writes the key into the struct it was given. -/
def orderRepo.Create {F : Type} (s : OrderStore F) (order : Order F) :
    Except String (Order F) × OrderStore F :=
  match s.fault with
  | some e => (.error e, s)
  | none =>
    if order.ID = 0 then
      let o := { order with ID := s.lastID + 1 }
      (.ok o, { s with rows := s.rows ++ [o], lastID := s.lastID + 1 })
    else if s.rows.any (fun r => r.ID == order.ID) then
      (.error "UNIQUE constraint failed: orders.id", s)
    else
      (.ok order, { s with rows := s.rows ++ [order], lastID := max s.lastID order.ID })

/-- All orders, newest first (`r.db.Order("created_at DESC").Find(&orders)`).  Rows with the
same `created_at` keep their insertion order. -/
def orderRepo.FindAll {F : Type} (s : OrderStore F) : Except String (List (Order F)) :=
  match s.fault with
  | some e => .error e
  | none => .ok (s.rows.insertionSort newerFirst)

/-- The order with the given key, `none` when there is none (`gorm.ErrRecordNotFound`). -/
def orderRepo.FindByID {F : Type} (s : OrderStore F) (id : Nat) :
    Except String (Option (Order F)) :=
  match s.fault with
  | some e => .error e
  | none => .ok (s.rows.find? (fun r => r.ID == id))

/-- The orders of one user, newest first
(`r.db.Where("user_id = ?", userID).Order("created_at DESC").Find(&orders)`). -/
def orderRepo.FindByUserID {F : Type} (s : OrderStore F) (userID : Nat) :
    Except String (List (Order F)) :=
  match s.fault with
  | some e => .error e
  | none => .ok ((s.rows.filter (fun r => r.UserID == userID)).insertionSort newerFirst)

/-- Sets the status of the rows with the given key
(`r.db.Model(&models.Order{}).Where("id = ?", id).Update("status", status)`); GORM also
stamps `updated_at`.  No matching row is not an error. -/
def orderRepo.UpdateStatus {F : Type} (s : OrderStore F) (id : Nat) (status : String)
    (now : Nat) : Option String × OrderStore F :=
  match s.fault with
  | some e => (some e, s)
  | none =>
    (none, { s with rows := s.rows.map (fun r =>
      if r.ID = id then { r with Status := status, UpdatedAt := now } else r) })

/-! ## `OrderService/internal/service/order_service.go` -/

/-- What `http.Get(url)` gives `getProductFromService`: a transport error, or a response with
its status code and the result `json.NewDecoder(resp.Body).Decode(&result)` has on its body
(the decoded `product` member, or the decoder's error). -/
inductive GetReply (F : Type) where
  | transportErr (cause : String)
  | response (status : Nat) (body : Except String (Product F))

/-- What `client.Do(req)` gives `deductProductQuantity`: a transport error or the status
code of the response. -/
inductive PatchReply where
  | transportErr (cause : String)
  | response (status : Nat)
deriving DecidableEq, Repr

/-- The product service as seen from the order service, over a state `W` that the order
service cannot inspect.  `get w id` answers `GET <url>/products/<id>`; `patch w id n` answers
`PATCH <url>/products/<id>/stock` with the JSON body of the single member `quantity = n` and
the single header `Content-Type: application/json`; `newRequestErr id` is the error of
`http.NewRequest` for that URL, if it has one. -/
structure Upstream (W F : Type) where
  get : W → Nat → GetReply F × W
  newRequestErr : Nat → Option String
  patch : W → Nat → Int → PatchReply × W

/-- The effects of the order service, in the order they happen. -/
inductive Call (F : Type) where
  /-- The call `s.repo.Create(order)` -/
  | repoCreate (order : Order F)
  /-- The call `http.Get` on `/products/<id>` -/
  | httpGet (productID : Nat)
  /-- The call `client.Do` of the `PATCH` on `/products/<id>/stock` carrying `quantity` -/
  | httpPatch (productID : Nat) (quantity : Int)
  /-- the `fmt.Printf("Warning: failed to deduct product quantity: ..")` line -/
  | warn (err : Err)
deriving DecidableEq, Repr

def Call.isRepoCreate {F : Type} : Call F → Bool
  | .repoCreate _ => true
  | _ => false

def Call.isHttpPatch {F : Type} : Call F → Bool
  | .httpPatch _ _ => true
  | _ => false

/-- Everything an order-service request can read or change: its own table, the state of the
product service, and the record of the effects so far (oldest first). -/
structure St (W F : Type) where
  db : OrderStore F
  net : W
  log : List (Call F)

/-- Fetches a product from the product service.  `.ok none` is Go's `(nil, nil)`. -/
def getProductFromService {W F : Type} (up : Upstream W F) (productID : Nat) (st : St W F) :
    Except Err (Option (Product F)) × St W F :=
  match up.get st.net productID with
  | (reply, net) =>
    let st1 : St W F := { st with net := net, log := st.log ++ [Call.httpGet productID] }
    match reply with
    | .transportErr cause => (.error (.unreachable cause), st1)
    | .response status body =>
      if status = 404 then (.ok none, st1)
      else if status ≠ 200 then (.error (.badStatus status), st1)
      else
        match body with
        | .error cause => (.error (.decode cause), st1)
        | .ok product => (.ok (some product), st1)

/-- The quantity `deductProductQuantity` writes back (its lines 163 to 166): the re-read
quantity minus the ordered quantity in 64-bit arithmetic, raised to zero when negative. -/
def newQuantity (current quantity : Int) : Int :=
  let newQuantity := wrapInt64 (current - quantity)
  if newQuantity < 0 then 0 else newQuantity

/-- The second half of `deductProductQuantity` (its lines 168 to 189): build the `PATCH`
request, send it, and judge the reply. -/
def sendStockPatch {W F : Type} (up : Upstream W F) (productID : Nat) (newQuantity : Int)
    (st : St W F) : Option Err × St W F :=
  match up.newRequestErr productID with
  | some cause => (some (.newRequest cause), st)
  | none =>
    match up.patch st.net productID newQuantity with
    | (.transportErr cause, net) =>
      (some (.patchFailed cause),
        { st with net := net, log := st.log ++ [Call.httpPatch productID newQuantity] })
    | (.response status, net) =>
      if status ≠ 200 then
        (some (.badStatus status),
          { st with net := net, log := st.log ++ [Call.httpPatch productID newQuantity] })
      else
        (none, { st with net := net, log := st.log ++ [Call.httpPatch productID newQuantity] })

/-- Calls the product service to reduce stock (`orderService.deductProductQuantity`).  The
result is the returned `error`, `none` for `nil`. -/
def deductProductQuantity {W F : Type} (up : Upstream W F) (productID : Nat) (quantity : Int)
    (st : St W F) : Option Err × St W F :=
  match getProductFromService up productID st with
  | (.error err, st1) => (some err, st1)
  | (.ok none, st1) => (none, st1)
  | (.ok (some product), st1) =>
    sendStockPatch up productID (newQuantity product.Quantity quantity) st1

/-- The caller's treatment of the decrement's result: an error is printed and dropped. -/
def warn {W F : Type} : Option Err × St W F → St W F
  | (some err, st) => { st with log := st.log ++ [Call.warn err] }
  | (none, st) => st

/-- Step 5 of `CreateOrder`: `s.repo.Create(order)`, recorded in the log. -/
def repoCreate {W F : Type} (order : Order F) (st : St W F) :
    Except String (Order F) × St W F :=
  match orderRepo.Create st.db order with
  | (r, db) => (r, { st with db := db, log := st.log ++ [Call.repoCreate order] })

/-- Steps 3 to 5 of `CreateOrder` up to the write: the order record built from the fetched
product.  `now1` and `now2` are the two readings of `time.Now()`. -/
def newOrder {F : Type} (fl : Float64Ops F) (userID : Nat) (req : CreateOrderRequest)
    (product : Product F) (now1 now2 : Nat) : Order F :=
  let totalAmount := fl.mul product.Price (fl.ofInt req.Quantity)
  let status := if req.PaymentMethod = PaymentOnline then StatusCompleted else StatusPending
  { ID := 0
    UserID := userID
    ProductID := req.ProductID
    Quantity := req.Quantity
    TotalAmount := totalAmount
    PaymentMethod := req.PaymentMethod
    Status := status
    CreatedAt := now1
    UpdatedAt := now2 }

/-- Step 6 of `CreateOrder`: the decrement, whose error is printed and dropped. -/
def deductAndWarn {W F : Type} (up : Upstream W F) (productID : Nat) (quantity : Int)
    (st : St W F) : St W F :=
  warn (deductProductQuantity up productID quantity st)

/-- Creates a new order with product validation and quantity deduction
(`orderService.CreateOrder`). -/
def CreateOrder {W F : Type} (fl : Float64Ops F) (up : Upstream W F) (userID : Nat)
    (req : CreateOrderRequest) (now1 now2 : Nat) (st : St W F) :
    Except Err (Order F) × St W F :=
  -- 1. Validate product availability from Product Service
  match getProductFromService up req.ProductID st with
  | (.error err, st1) => (.error (.fetch err), st1)
  | (.ok none, st1) => (.error .productNotFound, st1)
  | (.ok (some product), st1) =>
    -- 2. Check stock availability
    if product.Quantity < req.Quantity then
      (.error (.insufficientStock product.Quantity req.Quantity), st1)
    else
      -- 3. - 5. Total amount, status, create order
      match repoCreate (newOrder fl userID req product now1 now2) st1 with
      | (.error e, st2) => (.error (.repo e), st2)
      | (.ok order, st2) =>
        -- 6. Deduct product quantity (call Product Service)
        (.ok order, deductAndWarn up req.ProductID req.Quantity st2)

/-- All orders (`orderService.GetAllOrders`). -/
def GetAllOrders {F : Type} (db : OrderStore F) : Except Err (List (Order F)) :=
  (orderRepo.FindAll db).mapError Err.repo

/-- The orders of one user (`orderService.GetOrdersByUserID`). -/
def GetOrdersByUserID {F : Type} (db : OrderStore F) (userID : Nat) :
    Except Err (List (Order F)) :=
  (orderRepo.FindByUserID db userID).mapError Err.repo

/-- A single order by key (`orderService.GetOrderByID`). -/
def GetOrderByID {F : Type} (db : OrderStore F) (id : Nat) : Except Err (Order F) :=
  match orderRepo.FindByID db id with
  | .error e => .error (.repo e)
  | .ok none => .error .orderNotFound
  | .ok (some order) => .ok order

/-- Updates the status of an order (`orderService.UpdateOrderStatus`); the result is the
returned `error`, `none` for `nil`. -/
def UpdateOrderStatus {F : Type} (db : OrderStore F) (id : Nat) (status : String)
    (now : Nat) : Option Err × OrderStore F :=
  match orderRepo.FindByID db id with
  | .error e => (some (.repo e), db)
  | .ok none => (some .orderNotFound, db)
  | .ok (some _) =>
    match orderRepo.UpdateStatus db id status now with
    | (some e, db1) => (some (.repo e), db1)
    | (none, db1) => (none, db1)

/-! ## `OrderService/internal/middleware/auth.go` (context accessors) -/

/-- Reads `user_id` from the context (`middleware.GetUserID`). -/
def GetUserID (c : Context) : Except String Nat :=
  match c.user_id with
  | none => .error "user_id not found in context"
  | some id => .ok id

/-- Reads `role` from the context (`middleware.GetRole`). -/
def GetRole (c : Context) : Except String String :=
  match c.role with
  | none => .error "role not found in context"
  | some role => .ok role

/-! ## `OrderService/internal/handlers/order_handler.go` -/

/-- The JSON bodies the handlers send (`gin.H`). -/
inductive Body (F : Type) where
  /-- the single member `error` -/
  | error (msg : String)
  /-- the members `message` and `order` -/
  | created (message : String) (order : Order F)
  /-- the members `total` and `orders` -/
  | list (total : Nat) (orders : List (Order F))
  /-- the single member `order` -/
  | order (order : Order F)
  /-- the single member `message` -/
  | message (msg : String)
deriving DecidableEq, Repr

/-- An HTTP response: status code and body. -/
structure Response (F : Type) where
  status : Nat
  body : Body F
deriving DecidableEq, Repr

/-- The field checks of the `binding` tags of `CreateOrderRequest`, in field order: the
`(field, tag)` pairs that fail. -/
def CreateOrderRequest.failures (req : CreateOrderRequest) : List (String × String) :=
  (if req.ProductID = 0 then [("ProductID", "required")] else []) ++
  (if req.Quantity = 0 then [("Quantity", "required")]
   else if ¬ 0 < req.Quantity then [("Quantity", "gt")] else []) ++
  (if req.PaymentMethod = "" then [("PaymentMethod", "required")]
   else if ¬ (req.PaymentMethod = "COD" ∨ req.PaymentMethod = "Online") then
     [("PaymentMethod", "oneof")] else [])

/-- Binding of the body of `POST /orders` (`c.ShouldBindJSON(&req)`): `decoded` is the result
of the JSON decoder (absent members are zero), which the validator then checks. -/
def bindCreateOrderRequest (decoded : Except String CreateOrderRequest) :
    Except String CreateOrderRequest :=
  match decoded with
  | .error e => .error e
  | .ok req =>
    match req.failures with
    | [] => .ok req
    | fs => .error ("\n".intercalate
              (fs.map (fun ft => validationMessage "CreateOrderRequest" ft.1 ft.2)))

/-- The handler of `POST /orders` (`OrderHandler.CreateOrder`). -/
def OrderHandler.CreateOrder {W F : Type} (fl : Float64Ops F) (up : Upstream W F)
    (c : Context) (decoded : Except String CreateOrderRequest) (now1 now2 : Nat)
    (st : St W F) : Response F × St W F :=
  match bindCreateOrderRequest decoded with
  | .error e => (⟨400, .error e⟩, st)
  | .ok req =>
    match GetUserID c with
    | .error _ => (⟨401, .error "unauthorized"⟩, st)
    | .ok userID =>
      match OrderService.CreateOrder fl up userID req now1 now2 st with
      | (.error err, st1) => (⟨400, .error err.Error⟩, st1)
      | (.ok order, st1) => (⟨201, .created "order created successfully" order⟩, st1)

/-- The handler of `GET /orders` (`OrderHandler.GetOrders`). -/
def OrderHandler.GetOrders {F : Type} (c : Context) (db : OrderStore F) : Response F :=
  match GetRole c with
  | .error _ => ⟨403, .error "role not found"⟩
  | .ok role =>
    if role = "saler" ∨ role = "superadmin" then
      match GetAllOrders db with
      | .error _ => ⟨500, .error "failed to fetch orders"⟩
      | .ok orders => ⟨200, .list orders.length orders⟩
    else
      match GetUserID c with
      | .error _ => ⟨401, .error "unauthorized"⟩
      | .ok userID =>
        match GetOrdersByUserID db userID with
        | .error _ => ⟨500, .error "failed to fetch your orders"⟩
        | .ok orders => ⟨200, .list orders.length orders⟩

/-- The path parameter `:id` after `strconv.ParseUint(idParam, 10, 32)`.  The parameter is
given as the number its decimal text spells, `none` for text that is not a decimal numeral;
the parse fails for numbers that need more than 32 bits. -/
def parseID (idParam : Option Nat) : Option Nat :=
  match idParam with
  | none => none
  | some n => if n < 2 ^ 32 then some n else none

/-- The handler of `GET /orders/:id` (`OrderHandler.GetOrder`).  The two context reads drop
their errors, which leaves the zero values `0` and the empty role. -/
def OrderHandler.GetOrder {F : Type} (c : Context) (idParam : Option Nat) (db : OrderStore F) :
    Response F :=
  match parseID idParam with
  | none => ⟨400, .error "invalid order id"⟩
  | some id =>
    match GetOrderByID db id with
    | .error err => ⟨404, .error err.Error⟩
    | .ok order =>
      let userID := match GetUserID c with
        | .ok userID => userID
        | .error _ => 0
      let role := match GetRole c with
        | .ok role => role
        | .error _ => ""
      if role ≠ "saler" ∧ role ≠ "superadmin" ∧ order.UserID ≠ userID then
        ⟨403, .error "you can only view your own orders"⟩
      else ⟨200, .order order⟩

/-- The field check of the `binding` tag of `UpdateOrderStatusRequest`
(`required,oneof=Pending Completed Cancelled`). -/
def UpdateOrderStatusRequest.failures (req : UpdateOrderStatusRequest) : List (String × String) :=
  if req.Status = "" then [("Status", "required")]
  else if ¬ (req.Status = "Pending" ∨ req.Status = "Completed" ∨ req.Status = "Cancelled") then
    [("Status", "oneof")]
  else []

/-- Binding of the body of `PATCH /orders/:id/status` (`c.ShouldBindJSON(&req)`). -/
def bindUpdateOrderStatusRequest (decoded : Except String UpdateOrderStatusRequest) :
    Except String UpdateOrderStatusRequest :=
  match decoded with
  | .error e => .error e
  | .ok req =>
    match req.failures with
    | [] => .ok req
    | fs => .error ("\n".intercalate
              (fs.map (fun ft => validationMessage "UpdateOrderStatusRequest" ft.1 ft.2)))

/-- The handler of `PATCH /orders/:id/status` (`OrderHandler.UpdateOrderStatus`).  `now` is
the time GORM writes to `updated_at`. -/
def OrderHandler.UpdateOrderStatus {F : Type} (idParam : Option Nat)
    (decoded : Except String UpdateOrderStatusRequest) (now : Nat) (db : OrderStore F) :
    Response F × OrderStore F :=
  match parseID idParam with
  | none => (⟨400, .error "invalid order id"⟩, db)
  | some id =>
    match bindUpdateOrderStatusRequest decoded with
    | .error e => (⟨400, .error e⟩, db)
    | .ok req =>
      match OrderService.UpdateOrderStatus db id req.Status now with
      | (some err, db1) => (⟨404, .error err.Error⟩, db1)
      | (none, db1) => (⟨200, .message "order status updated successfully"⟩, db1)

/-- A request that reaches one of the two handlers that write to the order table. -/
inductive HandlerCall where
  /-- the request `POST /orders` with its context, decoded body and clock readings -/
  | createOrder (c : Context) (decoded : Except String CreateOrderRequest) (now1 now2 : Nat)
  /-- the request `PATCH /orders/:id/status` with its parameter, decoded body and clock -/
  | updateOrderStatus (idParam : Option Nat)
      (decoded : Except String UpdateOrderStatusRequest) (now : Nat)

/-- The state after a handler has served a request. -/
def HandlerCall.run {W F : Type} (fl : Float64Ops F) (up : Upstream W F) :
    HandlerCall → St W F → St W F
  | .createOrder c decoded now1 now2, st =>
    (OrderHandler.CreateOrder fl up c decoded now1 now2 st).2
  | .updateOrderStatus idParam decoded now, st =>
    { st with db := (OrderHandler.UpdateOrderStatus idParam decoded now st.db).2 }

/-- The state after the handlers have served a sequence of requests, one after the other. -/
def serve {W F : Type} (fl : Float64Ops F) (up : Upstream W F) (calls : List HandlerCall)
    (st : St W F) : St W F :=
  calls.foldl (fun st call => call.run fl up st) st

/-- The constraints of the data model on an order: a positive quantity, a payment method
of `COD` or `Online`, and a status of `Pending`, `Completed` or `Cancelled`. -/
def Order.WellFormed {F : Type} (o : Order F) : Prop :=
  0 < o.Quantity ∧ (o.PaymentMethod = "COD" ∨ o.PaymentMethod = "Online") ∧
  (o.Status = "Pending" ∨ o.Status = "Completed" ∨ o.Status = "Cancelled")

/-! ## One `CreateOrder` run as a sequence of atomic steps

Between two calls that leave the process (the two `GET`s, the insert, the `PATCH`) another
request may run.  `Run` is the control point of one invocation between such calls and
`Run.step` executes the code up to and including the next call. -/

/-- The arguments of one `CreateOrder` invocation, with its two clock readings. -/
structure Invocation where
  userID : Nat
  req : CreateOrderRequest
  now1 : Nat
  now2 : Nat
deriving DecidableEq, Repr

/-- The control point of one `CreateOrder` invocation. -/
inductive Run (F : Type) where
  /-- before step 1 -/
  | start
  /-- steps 1 and 2 passed with this product; the insert is next -/
  | checked (product : Product F)
  /-- step 5 wrote this order; the re-read of step 6 is next -/
  | created (order : Order F)
  /-- the re-read of step 6 gave this product; the `PATCH` is next -/
  | reread (order : Order F) (product : Product F)
  /-- after `CreateOrder` has returned -/
  | done (result : Except Err (Order F))

/-- Runs one invocation up to and including its next outbound call. -/
def Run.step {W F : Type} (fl : Float64Ops F) (up : Upstream W F) (inv : Invocation) :
    Run F × St W F → Run F × St W F
  | (.start, st) =>
    match getProductFromService up inv.req.ProductID st with
    | (.error err, st1) => (.done (.error (.fetch err)), st1)
    | (.ok none, st1) => (.done (.error .productNotFound), st1)
    | (.ok (some product), st1) =>
      if product.Quantity < inv.req.Quantity then
        (.done (.error (.insufficientStock product.Quantity inv.req.Quantity)), st1)
      else (.checked product, st1)
  | (.checked product, st) =>
    match repoCreate (newOrder fl inv.userID inv.req product inv.now1 inv.now2) st with
    | (.error e, st1) => (.done (.error (.repo e)), st1)
    | (.ok order, st1) => (.created order, st1)
  | (.created order, st) =>
    match getProductFromService up inv.req.ProductID st with
    | (.error err, st1) => (.done (.ok order), warn (some err, st1))
    | (.ok none, st1) => (.done (.ok order), st1)
    | (.ok (some product), st1) => (.reread order product, st1)
  | (.reread order product, st) =>
    (.done (.ok order),
      warn (sendStockPatch up inv.req.ProductID
        (newQuantity product.Quantity inv.req.Quantity) st))
  | (.done result, st) => (.done result, st)

/-- Two invocations in flight against the same table and the same product service. -/
structure Sys (W F : Type) where
  runA : Run F
  runB : Run F
  st : St W F

/-- One scheduling decision: `true` lets the first invocation take its next step, `false`
the second. -/
def Sys.step {W F : Type} (fl : Float64Ops F) (up : Upstream W F) (a b : Invocation)
    (s : Sys W F) (first : Bool) : Sys W F :=
  if first then
    match Run.step fl up a (s.runA, s.st) with
    | (run, st) => { s with runA := run, st := st }
  else
    match Run.step fl up b (s.runB, s.st) with
    | (run, st) => { s with runB := run, st := st }

/-- Runs a schedule from the state in which neither invocation has started. -/
def Sys.exec {W F : Type} (fl : Float64Ops F) (up : Upstream W F) (a b : Invocation)
    (st : St W F) (schedule : List Bool) : Sys W F :=
  schedule.foldl (Sys.step fl up a b) { runA := .start, runB := .start, st := st }

/-- The interleaving of the oversell race: both step-1 reads first, then the first
invocation to its end, then the second. -/
def raceSchedule : List Bool := [true, false, true, true, true, false, false, false]

/-- A reply of the product service that `CreateOrder` does not get a product from: the call
fails in transport, or the status is not 200 (404 included), or the body does not decode. -/
def GetReply.yieldsNoProduct {F : Type} : GetReply F → Prop
  | .transportErr _ => True
  | .response status body => status ≠ 200 ∨ ∃ cause, body = .error cause

end OrderService

namespace ProductService

/-! ## `ProductService/internal/models/product.go` -/

/-- A product row (`models.Product`). -/
structure Product (F : Type) where
  ID : Nat
  Name : String
  Description : String
  Price : F
  SellerID : Nat
  Quantity : Int
  CreatedAt : Nat
  UpdatedAt : Nat
deriving DecidableEq, Repr

/-- The body of `PATCH /products/:id/stock` (`models.UpdateStockRequest`). -/
structure UpdateStockRequest where
  Quantity : Int
deriving DecidableEq, Repr

/-! ## `ProductService/internal/repo/product_repo.go` -/

/-- The `products` table: rows in insertion order, the highest key handed out, and the
condition of the connection (`some e`: every statement fails with `e`). -/
structure ProductStore (F : Type) where
  rows : List (Product F)
  lastID : Nat
  fault : Option String
deriving DecidableEq, Repr

/-- The product with the given key, `none` when there is none. -/
def productRepo.FindByID {F : Type} (s : ProductStore F) (id : Nat) :
    Except String (Option (Product F)) :=
  match s.fault with
  | some e => .error e
  | none => .ok (s.rows.find? (fun r => r.ID == id))

/-- Saves all fields of a product (`r.db.Save(product)`): the row with its key is replaced,
and a product whose key has no row is inserted.  `stamp` is the time GORM writes to
`updated_at`. -/
def productRepo.Update {F : Type} (s : ProductStore F) (product : Product F) (stamp : Nat) :
    Except String (Product F) × ProductStore F :=
  match s.fault with
  | some e => (.error e, s)
  | none =>
    let saved := { product with UpdatedAt := stamp }
    if s.rows.any (fun r => r.ID == product.ID) then
      (.ok saved, { s with rows := s.rows.map (fun r => if r.ID = product.ID then saved else r) })
    else
      (.ok saved, { s with rows := s.rows ++ [saved], lastID := max s.lastID product.ID })

/-! ## `ProductService/internal/service/product_service.go` -/

/-- A single product by key (`productService.GetProductByID`); errors are messages. -/
def GetProductByID {F : Type} (s : ProductStore F) (id : Nat) : Except String (Product F) :=
  match productRepo.FindByID s id with
  | .error e => .error e
  | .ok none => .error "product not found"
  | .ok (some product) => .ok product

/-- Sets only the stock quantity of a product (`productService.UpdateStock`).  `now` is the
service's `time.Now()`, `stamp` the time GORM writes on save. -/
def UpdateStock {F : Type} (s : ProductStore F) (id : Nat) (quantity : Int) (now stamp : Nat) :
    Except String (Product F) × ProductStore F :=
  match productRepo.FindByID s id with
  | .error e => (.error e, s)
  | .ok none => (.error "product not found", s)
  | .ok (some product) =>
    let product := { product with Quantity := quantity, UpdatedAt := now }
    productRepo.Update s product stamp

/-! ## `ProductService/internal/middleware/auth.go` -/

/-- The claims of a token (`middleware.Claims`). -/
structure Claims where
  UserID : Nat
  Role : String
deriving DecidableEq, Repr

/-- The JSON bodies the product handlers and middleware send (`gin.H`). -/
inductive Body (F : Type) where
  /-- the single member `error` -/
  | error (msg : String)
  /-- the single member `product` -/
  | product (product : Product F)
  /-- the members `message` and `product` -/
  | withMessage (message : String) (product : Product F)
  /-- the single member `message` -/
  | message (msg : String)
deriving DecidableEq, Repr

/-- An HTTP response: status code and body. -/
structure Response (F : Type) where
  status : Nat
  body : Body F
deriving DecidableEq, Repr

/-- The middleware `JWTAuth(jwtSecret)`.  `authHeader` is `c.GetHeader("Authorization")`
(empty when the header is absent); `parse token` is `jwt.ParseWithClaims` under the
configured secret, `some claims` exactly when it returns no error and a valid token.
The result is the context passed on, or the response the request is aborted with. -/
def JWTAuth {F : Type} (parse : String → Option Claims) (authHeader : String) :
    Except (Response F) Context :=
  if authHeader = "" then .error ⟨401, .error "missing authorization header"⟩
  else
    match Go.Split authHeader ' ' with
    | [scheme, tokenString] =>
      if Go.ToLower scheme ≠ "bearer" then .error ⟨401, .error "invalid authorization format"⟩
      else
        match parse tokenString with
        | none => .error ⟨401, .error "invalid or expired token"⟩
        | some claims => .ok { user_id := some claims.UserID, role := some claims.Role }
    | _ => .error ⟨401, .error "invalid authorization format"⟩

/-- The middleware `AdminOnly()`: the response the request is aborted with, `none` when it
passes. -/
def AdminOnly {F : Type} (c : Context) : Option (Response F) :=
  match c.role with
  | none => some ⟨403, .error "role not found in token"⟩
  | some roleStr =>
    if roleStr ≠ "saler" ∧ roleStr ≠ "superadmin" then
      some ⟨403, .error "admin access required"⟩
    else none

/-- Reads `user_id` from the context (`middleware.GetUserID`). -/
def GetUserID (c : Context) : Except String Nat :=
  match c.user_id with
  | none => .error "user ID not found in context"
  | some id => .ok id

/-! ## `ProductService/internal/handlers/producthandler.go` -/

/-- The path parameter `:id` after `strconv.ParseUint(idParam, 10, 32)`.  The parameter is
given as the number its decimal text spells, `none` for text that is not a decimal numeral;
the parse fails for numbers that need more than 32 bits. -/
def parseID (idParam : Option Nat) : Option Nat :=
  match idParam with
  | none => none
  | some n => if n < 2 ^ 32 then some n else none

/-- The field checks of the `binding` tag of `UpdateStockRequest` (`required,gte=0`). -/
def UpdateStockRequest.failures (req : UpdateStockRequest) : List (String × String) :=
  if req.Quantity = 0 then [("Quantity", "required")]
  else if ¬ 0 ≤ req.Quantity then [("Quantity", "gte")] else []

/-- Binding of the body of `PATCH /products/:id/stock` (`c.ShouldBindJSON(&req)`). -/
def bindUpdateStockRequest (decoded : Except String UpdateStockRequest) :
    Except String UpdateStockRequest :=
  match decoded with
  | .error e => .error e
  | .ok req =>
    match req.failures with
    | [] => .ok req
    | fs => .error ("\n".intercalate
              (fs.map (fun ft => validationMessage "UpdateStockRequest" ft.1 ft.2)))

/-- The handler of `GET /products/:id` (`ProductHandler.GetProduct`). -/
def ProductHandler.GetProduct {F : Type} (idParam : Option Nat) (s : ProductStore F) :
    Response F :=
  match parseID idParam with
  | none => ⟨400, .error "invalid product id"⟩
  | some id =>
    match GetProductByID s id with
    | .error e => ⟨404, .error e⟩
    | .ok product => ⟨200, .product product⟩

/-- The handler of `PATCH /products/:id/stock` (`ProductHandler.UpdateStock`). -/
def ProductHandler.UpdateStock {F : Type} (c : Context) (idParam : Option Nat)
    (decoded : Except String UpdateStockRequest) (now stamp : Nat) (s : ProductStore F) :
    Response F × ProductStore F :=
  match parseID idParam with
  | none => (⟨400, .error "invalid product id"⟩, s)
  | some id =>
    match GetUserID c with
    | .error _ => (⟨401, .error "unauthorized"⟩, s)
    | .ok sellerID =>
      match GetProductByID s id with
      | .error _ => (⟨404, .error "product not found"⟩, s)
      | .ok existingProduct =>
        if existingProduct.SellerID ≠ sellerID then
          (⟨403, .error "Product Id is incorrect"⟩, s)
        else
          match bindUpdateStockRequest decoded with
          | .error e => (⟨400, .error e⟩, s)
          | .ok req =>
            match ProductService.UpdateStock s id req.Quantity now stamp with
            | (.error e, s1) => (⟨404, .error e⟩, s1)
            | (.ok product, s1) => (⟨200, .withMessage "stock updated successfully" product⟩, s1)

/-! ## `ProductService/cmd/main.go`: the routes used by the order service -/

/-- The public route `GET /products/:id`. -/
def routeGetProduct {F : Type} (idParam : Option Nat) (s : ProductStore F) : Response F :=
  ProductHandler.GetProduct idParam s

/-- The route `PATCH /products/:id/stock` of the group guarded by
`JWTAuth(jwtSecret), AdminOnly()`. -/
def routePatchStock {F : Type} (parse : String → Option Claims) (authHeader : String)
    (idParam : Option Nat) (decoded : Except String UpdateStockRequest) (now stamp : Nat)
    (s : ProductStore F) : Response F × ProductStore F :=
  match JWTAuth parse authHeader with
  | .error resp => (resp, s)
  | .ok c =>
    match AdminOnly c with
    | some resp => (resp, s)
    | none => ProductHandler.UpdateStock c idParam decoded now stamp s

end ProductService

namespace Composed

/-! ## The order service wired to the product service

`PRODUCT_SERVICE_URL` points at the product service; the network delivers every request
and every response. -/

/-- What the order service decodes from a product-service body: the `product` member when
there is one, the zero struct otherwise. -/
def decodeProduct {F : Type} (fl : Float64Ops F) : ProductService.Body F → OrderService.Product F
  | .product p | .withMessage _ p =>
    { ID := p.ID, Name := p.Name, Price := p.Price, Quantity := p.Quantity,
      SellerID := p.SellerID }
  | _ => { ID := 0, Name := "", Price := fl.zero, Quantity := 0, SellerID := 0 }

/-- The product service behind the order service's HTTP client.  The `GET` carries no
headers; the `PATCH` carries `Content-Type` only, hence an empty `Authorization`.  `parse`
is the token check of the product service, `now` and `stamp` its clock readings during a
stock update. -/
def upstream {F : Type} (fl : Float64Ops F) (parse : String → Option ProductService.Claims)
    (now stamp : Nat) : OrderService.Upstream (ProductService.ProductStore F) F where
  get s productID :=
    let resp := ProductService.routeGetProduct (some productID) s
    (.response resp.status (.ok (decodeProduct fl resp.body)), s)
  newRequestErr _ := none
  patch s productID quantity :=
    let (resp, s1) :=
      ProductService.routePatchStock parse "" (some productID) (.ok ⟨quantity⟩) now stamp s
    (.response resp.status, s1)

/-- The stored quantity of a product, `none` when the product does not exist. -/
def quantityOf {F : Type} (s : ProductService.ProductStore F) (productID : Nat) : Option Int :=
  (s.rows.find? (fun r => r.ID == productID)).map (fun p => p.Quantity)

end Composed

/-- A response whose JSON body is the single member `error`, as every gate sends it. -/
structure ErrorResponse where
  status : Nat
  error : String
deriving DecidableEq, Repr

namespace Jwt

/-! ## The token library `github.com/golang-jwt/jwt/v5`

The services sign and verify tokens through this library.  Its behaviour is described here
as far as the services use it: the signing methods it registers, the order of the checks of
`ParseWithClaims`, and the default claim validation.  Base64 and JSON coding and the HMAC
functions are left abstract in a `Lib` record.  Times are nanoseconds since the epoch. -/

/-- The signing methods the library registers.  `HS256`, `HS384` and `HS512` are the three
values of type `*SigningMethodHMAC`; `asymmetric` stands for the RSA, RSA-PSS, ECDSA and
EdDSA methods. -/
inductive Method where
  | HS256
  | HS384
  | HS512
  | none
  | asymmetric (alg : String)
deriving DecidableEq, Repr

/-- The type assertion `token.Method.(*jwt.SigningMethodHMAC)`. -/
def Method.isHMAC : Method → Bool
  | .HS256 | .HS384 | .HS512 => true
  | _ => false

/-- The library's `GetSigningMethod(alg)`: the method registered under a name. -/
def GetSigningMethod (alg : String) : Option Method :=
  if alg = "HS256" then some .HS256
  else if alg = "HS384" then some .HS384
  else if alg = "HS512" then some .HS512
  else if alg = "none" then some .none
  else if alg ∈ ["RS256", "RS384", "RS512", "PS256", "PS384", "PS512",
      "ES256", "ES384", "ES512", "EdDSA"] then some (.asymmetric alg)
  else none

/-- The claims struct every service declares: `user_id`, `role` and the registered claims
`exp`, `iat` and `nbf`. -/
structure Claims where
  UserID : Nat
  Role : String
  ExpiresAt : Option Int
  IssuedAt : Option Int
  NotBefore : Option Int
deriving DecidableEq, Repr

/-- A token string that splits into three segments which decode: the `alg` member of the
header (when it is a string), the claims, and the signature. -/
structure Token (Sig : Type) where
  alg : Option String
  claims : Claims
  signature : Sig

/-- The reasons for which `ParseWithClaims` fails. -/
inductive Err where
  /-- not three segments, or a segment that does not decode -/
  | malformed
  /-- the header has no string `alg` -/
  | unspecifiedMethod
  /-- no method is registered under the header's `alg` -/
  | unavailableMethod
  /-- the key function returned this error -/
  | unverifiable (keyErr : String)
  /-- the method's `Verify` failed -/
  | signatureInvalid
  /-- the claim `exp` is not after the current time -/
  | expired
  /-- the claim `nbf` is after the current time -/
  | notValidYet
deriving DecidableEq, Repr

/-- The parts of the library that are not described further: the coding of a token to and
from its string, the HMAC of a signing input (header and claims) under a method and a key,
and the message of an error. -/
structure Lib (Sig : Type) where
  decode : String → Option (Token Sig)
  encode : Token Sig → String
  hmac : Method → String → Option String × Claims → Sig
  describe : Err → String

/-- The time of `jwt.NewNumericDate(t)`: `t` cut to the full second. -/
def truncSec (t : Int) : Int := t - t % 1000000000

/-- The method's `Verify` for a key of type `[]byte`.  The HMAC methods recompute the
signature; `none` and the asymmetric methods refuse such a key. -/
def Verify {Sig : Type} [DecidableEq Sig] (lib : Lib Sig) (method : Method) (key : String)
    (token : Token Sig) : Bool :=
  match method with
  | .HS256 | .HS384 | .HS512 => token.signature = lib.hmac method key (token.alg, token.claims)
  | .none => false
  | .asymmetric _ => false

/-- The default claim validation at time `now`: `exp`, when present, must be after `now`,
and `nbf`, when present, must not be after `now`; `iat` is not checked. -/
def validate (claims : Claims) (now : Int) : Option Err :=
  match claims.ExpiresAt with
  | some exp => if ¬ now < exp then some .expired else
      match claims.NotBefore with
      | some nbf => if now < nbf then some .notValidYet else none
      | none => none
  | none =>
      match claims.NotBefore with
      | some nbf => if now < nbf then some .notValidYet else none
      | none => none

/-- The library's `ParseWithClaims(tokenString, &Claims{}, keyFunc)` at time `now`; the
result is `.ok` exactly when the library returns no error and a token with `Valid` set.
The key function sees the method and the header's `alg`. -/
def ParseWithClaims {Sig : Type} [DecidableEq Sig] (lib : Lib Sig) (tokenString : String)
    (keyFunc : Method → String → Except String String) (now : Int) : Except Err Claims :=
  match lib.decode tokenString with
  | none => .error .malformed
  | some token =>
    match token.alg with
    | none => .error .unspecifiedMethod
    | some alg =>
      match GetSigningMethod alg with
      | none => .error .unavailableMethod
      | some method =>
        match keyFunc method alg with
        | .error keyErr => .error (.unverifiable keyErr)
        | .ok key =>
          if ¬ Verify lib method key token then .error .signatureInvalid
          else
            match validate token.claims now with
            | some e => .error e
            | none => .ok token.claims

/-- The library's `NewWithClaims(method, claims)` followed by `SignedString(key)` for an HMAC
method and a `[]byte` key, which cannot fail. -/
def SignedString {Sig : Type} (lib : Lib Sig) (method : Method) (alg : String)
    (claims : Claims) (key : String) : String :=
  lib.encode { alg := some alg, claims := claims,
               signature := lib.hmac method key (some alg, claims) }

end Jwt

namespace AuthService

/-! ## `AuthService/config/config.go`, `utils/jwt.go`, `middleware/auth.go` -/

/-- The part of `config.Config` the token functions read; `JWTExpiry` is a duration in
nanoseconds. -/
structure Config where
  JWTSecret : String
  JWTExpiry : Int
deriving DecidableEq, Repr

/-- The claims of a new token (`utils.GenerateToken`, the struct literal).  `now1` and `now2`
are the two readings of `time.Now()`. -/
def newClaims (c : Config) (userID : Nat) (role : String) (now1 now2 : Int) : Jwt.Claims :=
  { UserID := userID
    Role := role
    ExpiresAt := some (Jwt.truncSec (now1 + c.JWTExpiry))
    IssuedAt := some (Jwt.truncSec now2)
    NotBefore := none }

/-- Creates a JWT for the given user id and role (`utils.GenerateToken`). -/
def GenerateToken {Sig : Type} (lib : Jwt.Lib Sig) (c : Config) (userID : Nat) (role : String)
    (now1 now2 : Int) : String :=
  Jwt.SignedString lib .HS256 "HS256" (newClaims c userID role now1 now2) c.JWTSecret

/-- Validates a token string and returns the claims if valid (`utils.ParseToken`). -/
def ParseToken {Sig : Type} [DecidableEq Sig] (lib : Jwt.Lib Sig) (c : Config)
    (tokenStr : String) (now : Int) : Except String Jwt.Claims :=
  match Jwt.ParseWithClaims lib tokenStr (fun _ _ => .ok c.JWTSecret) now with
  | .error e => .error (lib.describe e)
  | .ok claims => .ok claims

/-- The middleware `AuthMiddleware()`; `parseToken` is `utils.ParseToken`.  The result is
the context passed on, or the response the request is aborted with. -/
def AuthMiddleware (parseToken : String → Except String Jwt.Claims) (auth : String) :
    Except ErrorResponse Context :=
  if auth = "" ∨ ¬ Go.HasPrefix (Go.ToLower auth) "bearer " then
    .error ⟨401, "missing or invalid authorization header"⟩
  else
    let tokenStr := Go.TrimSpace (Go.sliceFrom auth "Bearer ".length)
    match parseToken tokenStr with
    | .error err => .error ⟨401, "invalid token: " ++ err⟩
    | .ok claims => .ok { user_id := some claims.UserID, role := some claims.Role }

/-- The middleware `RequireRoles(roles...)`: the response the request is aborted with,
`none` when it passes. -/
def RequireRoles (roles : List String) (c : Context) : Option ErrorResponse :=
  match c.role with
  | none => some ⟨403, "role not found in context"⟩
  | some role => if role ∈ roles then none else some ⟨403, "insufficient role"⟩

end AuthService

namespace ApiGateway

/-! ## `ApiGateway/internal/utils/jwt.go` and `internal/middleware/auth_middleware.go` -/

/-- The key function of the gateway and of the order service: an HMAC method gets the
secret, any other method an error. -/
def hmacOnly (jwtSecret : String) (method : Jwt.Method) (alg : String) : Except String String :=
  if method.isHMAC then .ok jwtSecret else .error ("unexpected signing method: " ++ alg)

/-- Validates a JWT token string and returns the claims (`utils.ValidateToken`);
`jwtSecret` is the environment variable `JWT_SECRET`. -/
def ValidateToken {Sig : Type} [DecidableEq Sig] (lib : Jwt.Lib Sig) (jwtSecret : String)
    (tokenString : String) (now : Int) : Except String Jwt.Claims :=
  if jwtSecret = "" then .error "JWT_SECRET not configured"
  else
    match Jwt.ParseWithClaims lib tokenString (hmacOnly jwtSecret) now with
    | .error e => .error ("failed to parse token: " ++ lib.describe e)
    | .ok claims => .ok claims

/-- What the gateway's `AuthMiddleware` hands on: the context keys and the two headers it
sets on the request. -/
structure Passed where
  ctx : Context
  xUserID : String
  xUserRole : String
deriving DecidableEq, Repr

/-- The gateway's middleware `AuthMiddleware()`; `validate` is `utils.ValidateToken`. -/
def AuthMiddleware (validate : String → Except String Jwt.Claims) (authHeader : String) :
    Except ErrorResponse Passed :=
  if authHeader = "" then .error ⟨401, "authorization header required"⟩
  else
    let tokenString := Go.TrimPrefix authHeader "Bearer "
    if tokenString = authHeader then
      .error ⟨401, "invalid authorization format, use: Bearer <token>"⟩
    else
      match validate tokenString with
      | .error err => .error ⟨401, "invalid token: " ++ err⟩
      | .ok claims =>
        .ok { ctx := { user_id := some claims.UserID, role := some claims.Role }
              xUserID := toString claims.UserID
              xUserRole := claims.Role }

/-- The gateway's middleware `AdminOnlyMiddleware()`: the response the request is aborted
with, `none` when it passes. -/
def AdminOnlyMiddleware (c : Context) : Option ErrorResponse :=
  match c.role with
  | none => some ⟨403, "role not found in context"⟩
  | some roleStr =>
    if roleStr ≠ "saler" ∧ roleStr ≠ "superadmin" then some ⟨403, "admin access required"⟩
    else none

/-! ## `ApiGateway/internal/proxy/reverse_proxy.go`: the target URL -/

/-- The URL that `ProxyHandler(targetURL)` forwards a request to (its lines 16 to 23), from
the request's `URL.Path` and `URL.RawQuery`. -/
def ProxyHandler.fullURL (targetURL path rawQuery : String) : String :=
  let fullURL := targetURL ++ path
  if rawQuery ≠ "" then fullURL ++ ("?" ++ rawQuery) else fullURL

/-- The URL that `StripPrefixProxy(pfx, targetURL)` forwards a request to (its lines 75 to
86). -/
def StripPrefixProxy.fullURL (pfx targetURL path rawQuery : String) : String :=
  let path := if Go.HasPrefix path pfx then Go.TrimPrefix path pfx else path
  let fullURL := targetURL ++ path
  if rawQuery ≠ "" then fullURL ++ ("?" ++ rawQuery) else fullURL

/-! ## `ApiGateway/internal/routes/setup_routes.go` -/

/-- The backend origins `SetupRoutes` reads from the environment, defaults applied. -/
structure Backends where
  authServiceURL : String
  productServiceURL : String
  orderServiceURL : String
deriving DecidableEq, Repr

/-- A segment of a gin route pattern: fixed text, a parameter such as `:id`, or the
catch-all `*path`. -/
inductive Seg where
  | lit (s : String)
  | param
  | catchAll
deriving DecidableEq, Repr

/-- The middleware a route group puts before its handler. -/
inductive Gate where
  /-- the middleware `AuthMiddleware()` -/
  | auth
  /-- the middleware `AdminOnlyMiddleware()` -/
  | adminOnly
deriving DecidableEq, Repr

/-- The handler of a route. -/
inductive Forward where
  /-- the inline handler of `/Check` -/
  | check
  /-- the handler `proxy.ProxyHandler(targetURL)` -/
  | keep (targetURL : String)
  /-- the handler `proxy.StripPrefixProxy(pfx, targetURL)` -/
  | strip (pfx targetURL : String)
deriving DecidableEq, Repr

/-- A registered route: its method (`none` for `Any`), its pattern split at `/`, the gates
of its groups in order, and its handler. -/
structure Route where
  method : Option String
  pattern : List Seg
  gates : List Gate
  handler : Forward
deriving DecidableEq, Repr

/-- The methods gin registers for `Any`. -/
def anyMethods : List String :=
  ["GET", "POST", "PUT", "PATCH", "HEAD", "OPTIONS", "DELETE", "CONNECT", "TRACE"]

/-- The routes `SetupRoutes` registers.  They stand in the order of the source, except that
the fixed route `/products/allProducts` stands before `/products/:id`, because gin prefers
fixed text to a parameter.  The CORS and logging middleware of the router do not choose
the route and are not listed. -/
def SetupRoutes (b : Backends) : List Route :=
  [ ⟨some "GET", [.lit "", .lit "Check"], [], .check⟩,
    ⟨none, [.lit "", .lit "auth", .catchAll], [], .strip "/auth" b.authServiceURL⟩,
    ⟨none, [.lit "", .lit "admin", .catchAll], [.auth, .adminOnly],
      .strip "/admin" b.authServiceURL⟩,
    ⟨none, [.lit "", .lit "notifications", .catchAll], [.auth], .keep b.authServiceURL⟩,
    ⟨some "GET", [.lit "", .lit "products"], [], .keep b.productServiceURL⟩,
    ⟨some "GET", [.lit "", .lit "products", .lit "allProducts"], [.auth, .adminOnly],
      .strip "/products" b.productServiceURL⟩,
    ⟨some "GET", [.lit "", .lit "products", .param], [], .keep b.productServiceURL⟩,
    ⟨some "POST", [.lit "", .lit "products"], [.auth, .adminOnly],
      .keep b.productServiceURL⟩,
    ⟨some "PATCH", [.lit "", .lit "products", .param], [.auth, .adminOnly],
      .keep b.productServiceURL⟩,
    ⟨some "PATCH", [.lit "", .lit "products", .param, .lit "stock"], [.auth, .adminOnly],
      .keep b.productServiceURL⟩,
    ⟨some "DELETE", [.lit "", .lit "products", .param], [.auth, .adminOnly],
      .keep b.productServiceURL⟩,
    ⟨some "POST", [.lit "", .lit "orders"], [.auth], .keep b.orderServiceURL⟩,
    ⟨some "GET", [.lit "", .lit "orders"], [.auth], .keep b.orderServiceURL⟩,
    ⟨some "GET", [.lit "", .lit "orders", .param], [.auth], .keep b.orderServiceURL⟩,
    ⟨some "PATCH", [.lit "", .lit "orders", .param, .lit "status"], [.auth, .adminOnly],
      .keep b.orderServiceURL⟩ ]

/-- Whether a pattern matches the segments of a path: fixed text matches itself, a
parameter matches a non-empty segment, the catch-all matches whatever follows its
slash. -/
def matchSegs : List Seg → List String → Bool
  | [], [] => true
  | .lit s :: ps, x :: xs => x == s && matchSegs ps xs
  | .param :: ps, x :: xs => x != "" && matchSegs ps xs
  | [.catchAll], _ :: _ => true
  | _, _ => false

/-- Whether a route is registered for a method. -/
def Route.allows (r : Route) (method : String) : Bool :=
  match r.method with
  | none => method ∈ anyMethods
  | some m => method == m

/-- The route that serves a request, if any. -/
def dispatch (b : Backends) (method path : String) : Option Route :=
  (SetupRoutes b).find? (fun r => r.allows method && matchSegs r.pattern (Go.Split path '/'))

/-- The URL a route's handler forwards a request to; `none` for the `/Check` handler, which
forwards nothing. -/
def Forward.fullURL (h : Forward) (path rawQuery : String) : Option String :=
  match h with
  | .check => none
  | .keep targetURL => some (ProxyHandler.fullURL targetURL path rawQuery)
  | .strip pfx targetURL => some (StripPrefixProxy.fullURL pfx targetURL path rawQuery)

end ApiGateway

namespace OrderService

/-! ## `OrderService/internal/middleware/auth.go` (the two gates) -/

/-- The token check inside `AuthMiddleware`: `jwt.ParseWithClaims` with the HMAC-only key
function under the environment's `JWT_SECRET`, `some claims` exactly when it returns no
error and a valid token. -/
def AuthMiddleware.parse {Sig : Type} [DecidableEq Sig] (lib : Jwt.Lib Sig)
    (jwtSecret : String) (now : Int) (tokenString : String) : Option Jwt.Claims :=
  match Jwt.ParseWithClaims lib tokenString (ApiGateway.hmacOnly jwtSecret) now with
  | .error _ => none
  | .ok claims => some claims

/-- The middleware `AuthMiddleware()` of the order service. -/
def AuthMiddleware {F : Type} (parse : String → Option Jwt.Claims) (authHeader : String) :
    Except (Response F) Context :=
  if authHeader = "" then .error ⟨401, .error "authorization header required"⟩
  else
    let tokenString := Go.TrimPrefix authHeader "Bearer "
    if tokenString = authHeader then .error ⟨401, .error "invalid authorization format"⟩
    else
      match parse tokenString with
      | none => .error ⟨401, .error "invalid or expired token"⟩
      | some claims => .ok { user_id := some claims.UserID, role := some claims.Role }

/-- The middleware `AdminOnlyMiddleware()` of the order service: the response the request is
aborted with, `none` when it passes. -/
def AdminOnlyMiddleware {F : Type} (c : Context) : Option (Response F) :=
  match GetRole c with
  | .error _ => some ⟨403, .error "role not found"⟩
  | .ok role =>
    if role ≠ "saler" ∧ role ≠ "superadmin" then some ⟨403, .error "admin access required"⟩
    else none

end OrderService

namespace ProductService

/-! ## `ProductService/internal/middleware/auth.go` (the token checks) -/

/-- The token check inside `JWTAuth(jwtSecret)`: `jwt.ParseWithClaims` with a key function
that returns the secret for every method, `some claims` exactly when it returns no error
and a valid token. -/
def JWTAuth.parse {Sig : Type} [DecidableEq Sig] (lib : Jwt.Lib Sig) (jwtSecret : String)
    (now : Int) (tokenString : String) : Option Claims :=
  match Jwt.ParseWithClaims lib tokenString (fun _ _ => .ok jwtSecret) now with
  | .error _ => none
  | .ok claims => some { UserID := claims.UserID, Role := claims.Role }

/-- Parses and validates a JWT token string (`middleware.ParseToken`). -/
def ParseToken {Sig : Type} [DecidableEq Sig] (lib : Jwt.Lib Sig) (tokenString : String)
    (jwtSecret : String) (now : Int) : Except String Claims :=
  match Jwt.ParseWithClaims lib tokenString (fun _ _ => .ok jwtSecret) now with
  | .error e => .error (lib.describe e)
  | .ok claims => .ok { UserID := claims.UserID, Role := claims.Role }

end ProductService

namespace ProductService

/-! ## `ProductService`: creating, updating and deleting products -/

/-- The body of `POST /products` (`models.CreateProductRequest`).  `SellerID` has no JSON
tag, so a body member named `SellerID` fills it. -/
structure CreateProductRequest (F : Type) where
  Name : String
  Description : String
  Price : F
  SellerID : Nat
  Quantity : Int
deriving DecidableEq, Repr

/-- The body of `PATCH /products/:id` (`models.UpdateProductRequest`); `none` is a nil
pointer, that is, a member the body does not carry. -/
structure UpdateProductRequest (F : Type) where
  Name : Option String
  Description : Option String
  Price : Option F
  SellerID : Option Nat
  Quantity : Option Int
deriving DecidableEq, Repr

/-- The two tests the validator makes on a `float64` price: whether it is the zero value
(tag `required`) and whether it is greater than zero (tag `gt=0`). -/
structure PriceChecks (F : Type) where
  isZero : F → Bool
  gt0 : F → Bool

/-- Inserts a product (`r.db.Create(product)`).  A zero `ID` is filled from the
autoincrement column; a non-zero `ID` is kept and must be free. -/
def productRepo.Create {F : Type} (s : ProductStore F) (product : Product F) :
    Except String (Product F) × ProductStore F :=
  match s.fault with
  | some e => (.error e, s)
  | none =>
    if product.ID = 0 then
      let p := { product with ID := s.lastID + 1 }
      (.ok p, { s with rows := s.rows ++ [p], lastID := s.lastID + 1 })
    else if s.rows.any (fun r => r.ID == product.ID) then
      (.error "UNIQUE constraint failed: products.id", s)
    else
      (.ok product, { s with rows := s.rows ++ [product], lastID := max s.lastID product.ID })

/-- Removes the rows with the given key (`r.db.Delete(&models.Product{}, id)`); the result is
the returned `error`, `none` for `nil`. -/
def productRepo.Delete {F : Type} (s : ProductStore F) (id : Nat) :
    Option String × ProductStore F :=
  match s.fault with
  | some e => (some e, s)
  | none => (none, { s with rows := s.rows.filter (fun r => r.ID != id) })

/-- Creates a new product in the system (`productService.CreateProduct`).  `now1` and `now2`
are the two readings of `time.Now()`. -/
def CreateProduct {F : Type} (s : ProductStore F) (req : CreateProductRequest F)
    (now1 now2 : Nat) : Except String (Product F) × ProductStore F :=
  productRepo.Create s
    { ID := 0
      Name := req.Name
      Description := req.Description
      Price := req.Price
      SellerID := req.SellerID
      Quantity := req.Quantity
      CreatedAt := now1
      UpdatedAt := now2 }

/-- The fields of a product after the assignments of `productService.UpdateProduct`: only
the members the request carries are written, then `UpdatedAt`. -/
def applyUpdate {F : Type} (product : Product F) (req : UpdateProductRequest F) (now : Nat) :
    Product F :=
  let product := match req.Name with
    | some name => { product with Name := name }
    | none => product
  let product := match req.Description with
    | some description => { product with Description := description }
    | none => product
  let product := match req.Price with
    | some price => { product with Price := price }
    | none => product
  let product := match req.Quantity with
    | some quantity => { product with Quantity := quantity }
    | none => product
  { product with UpdatedAt := now }

/-- Updates product information (`productService.UpdateProduct`).  `now` is the service's
`time.Now()`, `stamp` the time GORM writes on save. -/
def UpdateProduct {F : Type} (s : ProductStore F) (id : Nat) (req : UpdateProductRequest F)
    (now stamp : Nat) : Except String (Product F) × ProductStore F :=
  match productRepo.FindByID s id with
  | .error e => (.error e, s)
  | .ok none => (.error "product not found", s)
  | .ok (some product) => productRepo.Update s (applyUpdate product req now) stamp

/-- Removes a product from the system (`productService.DeleteProduct`); the result is the
returned `error`, `none` for `nil`. -/
def DeleteProduct {F : Type} (s : ProductStore F) (id : Nat) : Option String × ProductStore F :=
  match productRepo.FindByID s id with
  | .error e => (some e, s)
  | .ok none => (some "product not found", s)
  | .ok (some _) => productRepo.Delete s id

/-- The field checks of the `binding` tags of `CreateProductRequest`, in field order. -/
def CreateProductRequest.failures {F : Type} (pc : PriceChecks F) (req : CreateProductRequest F) :
    List (String × String) :=
  (if req.Name = "" then [("Name", "required")]
   else if req.Name.length < 1 then [("Name", "min")] else []) ++
  (if pc.isZero req.Price then [("Price", "required")]
   else if ¬ pc.gt0 req.Price then [("Price", "gt")] else []) ++
  (if ¬ 0 ≤ req.Quantity then [("Quantity", "gte")] else [])

/-- Binding of the body of `POST /products` (`c.ShouldBindJSON(&req)`). -/
def bindCreateProductRequest {F : Type} (pc : PriceChecks F)
    (decoded : Except String (CreateProductRequest F)) :
    Except String (CreateProductRequest F) :=
  match decoded with
  | .error e => .error e
  | .ok req =>
    match req.failures pc with
    | [] => .ok req
    | fs => .error ("\n".intercalate
              (fs.map (fun ft => validationMessage "CreateProductRequest" ft.1 ft.2)))

/-- The field checks of the `binding` tags of `UpdateProductRequest`: `omitempty` lets a nil
pointer pass and checks the value behind any other pointer. -/
def UpdateProductRequest.failures {F : Type} (pc : PriceChecks F) (req : UpdateProductRequest F) :
    List (String × String) :=
  (match req.Price with
    | some price => if ¬ pc.gt0 price then [("Price", "gt")] else []
    | none => []) ++
  (match req.Quantity with
    | some quantity => if ¬ 0 ≤ quantity then [("Quantity", "gte")] else []
    | none => [])

/-- Binding of the body of `PATCH /products/:id` (`c.ShouldBindJSON(&req)`). -/
def bindUpdateProductRequest {F : Type} (pc : PriceChecks F)
    (decoded : Except String (UpdateProductRequest F)) :
    Except String (UpdateProductRequest F) :=
  match decoded with
  | .error e => .error e
  | .ok req =>
    match req.failures pc with
    | [] => .ok req
    | fs => .error ("\n".intercalate
              (fs.map (fun ft => validationMessage "UpdateProductRequest" ft.1 ft.2)))

/-- The handler of `POST /products` (`ProductHandler.CreateProduct`). -/
def ProductHandler.CreateProduct {F : Type} (pc : PriceChecks F) (c : Context)
    (decoded : Except String (CreateProductRequest F)) (now1 now2 : Nat) (s : ProductStore F) :
    Response F × ProductStore F :=
  match bindCreateProductRequest pc decoded with
  | .error e => (⟨400, .error e⟩, s)
  | .ok req =>
    match GetUserID c with
    | .error _ => (⟨401, .error "unauthorized"⟩, s)
    | .ok sellerID =>
      let req := { req with SellerID := sellerID }
      match ProductService.CreateProduct s req now1 now2 with
      | (.error _, s1) => (⟨500, .error "failed to create product"⟩, s1)
      | (.ok product, s1) => (⟨201, .withMessage "product created successfully" product⟩, s1)

/-- The handler of `PATCH /products/:id` (`ProductHandler.UpdateProduct`). -/
def ProductHandler.UpdateProduct {F : Type} (pc : PriceChecks F) (c : Context)
    (idParam : Option Nat) (decoded : Except String (UpdateProductRequest F))
    (now stamp : Nat) (s : ProductStore F) : Response F × ProductStore F :=
  match parseID idParam with
  | none => (⟨400, .error "invalid product id"⟩, s)
  | some id =>
    match GetUserID c with
    | .error _ => (⟨401, .error "unauthorized"⟩, s)
    | .ok sellerID =>
      match GetProductByID s id with
      | .error _ => (⟨404, .error "product not found"⟩, s)
      | .ok existingProduct =>
        if existingProduct.SellerID ≠ sellerID then (⟨403, .error "Wrong Product ID"⟩, s)
        else
          match bindUpdateProductRequest pc decoded with
          | .error e => (⟨400, .error e⟩, s)
          | .ok req =>
            match ProductService.UpdateProduct s id req now stamp with
            | (.error e, s1) => (⟨404, .error e⟩, s1)
            | (.ok product, s1) =>
              (⟨200, .withMessage "product updated successfully" product⟩, s1)

/-- The handler of `DELETE /products/:id` (`ProductHandler.DeleteProduct`). -/
def ProductHandler.DeleteProduct {F : Type} (c : Context) (idParam : Option Nat)
    (s : ProductStore F) : Response F × ProductStore F :=
  match parseID idParam with
  | none => (⟨400, .error "invalid product id"⟩, s)
  | some id =>
    match GetUserID c with
    | .error _ => (⟨401, .error "unauthorized"⟩, s)
    | .ok sellerID =>
      match GetProductByID s id with
      | .error _ => (⟨404, .error "product not found"⟩, s)
      | .ok existingProduct =>
        if existingProduct.SellerID ≠ sellerID then
          (⟨403, .error "you can only delete your own products"⟩, s)
        else
          match ProductService.DeleteProduct s id with
          | (some e, s1) => (⟨404, .error e⟩, s1)
          | (none, s1) => (⟨200, .message "product deleted successfully"⟩, s1)

/-- A request that reaches one of the two handlers that update a product. -/
inductive UpdateCall (F : Type) where
  /-- the request `PATCH /products/:id` -/
  | updateProduct (c : Context) (idParam : Option Nat)
      (decoded : Except String (UpdateProductRequest F)) (now stamp : Nat)
  /-- the request `PATCH /products/:id/stock` -/
  | updateStock (c : Context) (idParam : Option Nat)
      (decoded : Except String UpdateStockRequest) (now stamp : Nat)

/-- The table after a handler has served an update request. -/
def UpdateCall.run {F : Type} (pc : PriceChecks F) : UpdateCall F → ProductStore F → ProductStore F
  | .updateProduct c idParam decoded now stamp, s =>
    (ProductHandler.UpdateProduct pc c idParam decoded now stamp s).2
  | .updateStock c idParam decoded now stamp, s =>
    (ProductHandler.UpdateStock c idParam decoded now stamp s).2

/-- The table after the handlers have served a sequence of update requests. -/
def serveUpdates {F : Type} (pc : PriceChecks F) (calls : List (UpdateCall F))
    (s : ProductStore F) : ProductStore F :=
  calls.foldl (fun s call => call.run pc s) s

end ProductService

namespace Go

/-! ## Go's `net/http.Header`

A header is Go's `map[string][]string`, written as the list of its entries; a key stands
once in a map, and the statements about headers do not depend on the order of the entries,
which is the order of Go's `range`. -/

/-- Go's `http.Header`. -/
abbrev Header := List (String × List String)

/-- The bytes allowed in a header field name (`validHeaderFieldByte`): the token characters
of RFC 7230. -/
def validHeaderFieldByte (c : Char) : Bool :=
  c.isAlphanum || "!#$%&\x27*+-.^_\x60|~".data.contains c

/-- The loop of `canonicalMIMEHeaderKey`: upper case for the first letter and for a letter
after a hyphen, lower case for the other letters. -/
def canonicalBytes : Bool → List Char → List Char
  | _, [] => []
  | upper, c :: cs =>
    let c := if upper && c.isLower then c.toUpper
             else if !upper && c.isUpper then c.toLower else c
    c :: canonicalBytes (c == '-') cs

/-- Go's `textproto.CanonicalMIMEHeaderKey(s)`: a key with a byte that is not allowed in a
field name is returned unchanged. -/
def CanonicalMIMEHeaderKey (s : String) : String :=
  if s.data.all validHeaderFieldByte then ⟨canonicalBytes true s.data⟩ else s

/-- The map read `h[key]`: the values under exactly this key, none when the key is absent. -/
def Header.values (h : Header) (key : String) : List String :=
  (h.lookup key).getD []

/-- The map write `h[key] = vs`. -/
def Header.put : Header → String → List String → Header
  | [], key, vs => [(key, vs)]
  | (k, v) :: rest, key, vs =>
    if k = key then (key, vs) :: rest else (k, v) :: Header.put rest key vs

/-- Go's `h.Add(key, value)`: appends to the values under the canonical form of the key. -/
def Header.Add (h : Header) (key value : String) : Header :=
  h.put (CanonicalMIMEHeaderKey key) (h.values (CanonicalMIMEHeaderKey key) ++ [value])

/-- Go's `h.Set(key, value)`: replaces the values under the canonical form of the key. -/
def Header.Set (h : Header) (key value : String) : Header :=
  h.put (CanonicalMIMEHeaderKey key) [value]

/-- Go's `h.Get(key)`: the first value under the canonical form of the key, or the empty
string. -/
def Header.Get (h : Header) (key : String) : String :=
  match h.values (CanonicalMIMEHeaderKey key) with
  | [] => ""
  | v :: _ => v

/-- A header as Go's HTTP server and client build it from the wire: every key stands once
and in canonical form. -/
def Header.WF (h : Header) : Prop :=
  (h.map (fun kv => kv.1)).Nodup ∧ ∀ kv ∈ h, CanonicalMIMEHeaderKey kv.1 = kv.1

instance (h : Header) : Decidable (Header.WF h) := by unfold Header.WF; infer_instance

/-- The values of all entries whose key has the canonical form `key`, in the order of the
entries. -/
def Header.collected : Header → String → List String
  | [], _ => []
  | kv :: rest, key =>
    (if CanonicalMIMEHeaderKey kv.1 = key then kv.2 else []) ++ Header.collected rest key

end Go

namespace ApiGateway

/-! ## `ApiGateway/internal/proxy/reverse_proxy.go`: the forwarded request and the answer -/

/-- The parts of the inbound `c.Request` the gateway reads; `host` is `c.Request.Host`. -/
structure Request where
  method : String
  host : String
  path : String
  rawQuery : String
  header : Go.Header
  body : String
deriving DecidableEq, Repr

/-- The request `client.Do` sends to a backend. -/
structure OutboundRequest where
  method : String
  url : String
  header : Go.Header
  body : String
deriving DecidableEq, Repr

/-- The response of a backend. -/
structure BackendResponse where
  status : Nat
  header : Go.Header
  body : String
deriving DecidableEq, Repr

/-- The body the gateway writes to the client. -/
inductive Payload where
  /-- the JSON object with the single member `error` -/
  | error (msg : String)
  /-- the JSON object of the `/Check` handler -/
  | check (b : Backends)
  /-- the bytes of the backend response, copied by `io.Copy` -/
  | raw (body : String)
deriving DecidableEq, Repr

/-- The response the gateway writes to the client. -/
structure ClientResponse where
  status : Nat
  header : Go.Header
  body : Payload
deriving DecidableEq, Repr

/-- The network as the proxy handlers use it: whether `http.NewRequest(method, url, body)`
returns an error, and the outcome of `client.Do` (`none`: an error). -/
structure Net where
  newRequestErr : String → String → Bool
  Do : OutboundRequest → Option BackendResponse

/-- The two loops that copy a header map (`for key, values := range src`, then
`for _, value := range values`, then `dst.Add(key, value)`). -/
def copyHeaders (src dst : Go.Header) : Go.Header :=
  src.foldl (fun dst kv => kv.2.foldl (fun dst value => dst.Add kv.1 value) dst) dst

/-- The header of a response written by `c.JSON`: the content type is set unless one is
there (`writeContentType`). -/
def jsonHeader (writer : Go.Header) : Go.Header :=
  if writer.values "Content-Type" = [] then
    writer.put "Content-Type" ["application/json; charset=utf-8"]
  else writer

/-- The body both proxy handlers share once `fullURL` is built (lines 28 to 68 and 88 to
128): the request sent to the backend, if one is sent, and the response written to the
client.  `writer` is the header the response writer holds when the handler starts. -/
def forward (net : Net) (fullURL : String) (req : Request) (writer : Go.Header) :
    Option OutboundRequest × ClientResponse :=
  if net.newRequestErr req.method fullURL then
    (none, ⟨500, jsonHeader writer, .error "failed to create proxy request"⟩)
  else
    let out : OutboundRequest :=
      { method := req.method, url := fullURL, header := copyHeaders req.header [],
        body := req.body }
    match net.Do out with
    | none => (some out, ⟨502, jsonHeader writer, .error "service unavailable"⟩)
    | some resp => (some out, ⟨resp.status, copyHeaders resp.header writer, .raw resp.body⟩)

/-- The gates of a route, run in order on the request (`c.Next()` hands the request on,
`c.Abort()` ends it).  `AuthMiddleware` fills the context and sets the headers
`X-User-ID` and `X-User-Role` on the request. -/
def runGates (validate : String → Except String Jwt.Claims) :
    List Gate → Request → Context → Except ErrorResponse (Request × Context)
  | [], req, c => .ok (req, c)
  | .auth :: gs, req, _ =>
    match AuthMiddleware validate (req.header.Get "Authorization") with
    | .error e => .error e
    | .ok p =>
      runGates validate gs
        { req with header := (req.header.Set "X-User-ID" p.xUserID).Set "X-User-Role" p.xUserRole }
        p.ctx
  | .adminOnly :: gs, req, c =>
    match AdminOnlyMiddleware c with
    | some e => .error e
    | none => runGates validate gs req c

/-- Whether the CORS middleware that `SetupRoutes` puts before every route answers the
request by itself (`gin-contrib/cors` with every origin allowed): a preflight, that is, an
`OPTIONS` request whose `Origin` header is set and names another origin than the request's
own host, is ended with 204.  Every other request is handed on. -/
def corsPreflight (req : Request) : Bool :=
  let origin := req.header.Get "Origin"
  decide (origin ≠ "" ∧ origin ≠ "http://" ++ req.host ∧ origin ≠ "https://" ++ req.host ∧
    req.method = "OPTIONS")

/-- The gateway on one request that a route of `SetupRoutes` serves: the request sent to a
backend, if one is sent, and the response written to the client.  The result is `none` when
no route matches and gin answers by itself.  The CORS middleware runs first and answers a
preflight by itself; `writer` is the header it has left on the response writer.  The logging
middleware changes nothing. -/
def handle (b : Backends) (validate : String → Except String Jwt.Claims) (net : Net)
    (writer : Go.Header) (req : Request) : Option (Option OutboundRequest × ClientResponse) :=
  match dispatch b req.method req.path with
  | none => none
  | some r =>
    if corsPreflight req then some (none, ⟨204, writer, .raw ""⟩)
    else
      match runGates validate r.gates req ⟨none, none⟩ with
      | .error e => some (none, ⟨e.status, jsonHeader writer, .error e.error⟩)
      | .ok (req1, _) =>
        match r.handler.fullURL req1.path req1.rawQuery with
        | none => some (none, ⟨200, jsonHeader writer, .check b⟩)
        | some fullURL => some (forward net fullURL req1 writer)

end ApiGateway

namespace AuthService

/-! ## `AuthService/models`, `utils/password.go` and the database -/

/-- The role `models.RoleSuperAdmin`. -/
def RoleSuperAdmin : String := "superadmin"

/-- The role `models.RoleAdmin`, the sellers. -/
def RoleAdmin : String := "saler"

/-- The role `models.RoleUser`. -/
def RoleUser : String := "user"

/-- A row of the `users` table (`models.User`). -/
structure User where
  ID : Nat
  Name : String
  Email : String
  PasswordHash : String
  Role : String
  IsApproved : Bool
  CreatedAt : Nat
  GSTNum : String
deriving DecidableEq, Repr

/-- A row of the `notifications` table (`models.Notification`). -/
structure Notification where
  ID : Nat
  UserID : Nat
  Message : String
  IsRead : Bool
  CreatedAt : Nat
deriving DecidableEq, Repr

/-- The database of the auth service: both tables in key order, the highest keys handed
out, and the condition of the connection (`some e`: every statement fails with `e`). -/
structure AuthStore where
  users : List User
  lastUserID : Nat
  notifications : List Notification
  lastNotifID : Nat
  fault : Option String
deriving DecidableEq, Repr

/-- The errors of a GORM statement: `gorm.ErrRecordNotFound` or any other. -/
inductive DBError where
  | recordNotFound
  | other (msg : String)
deriving DecidableEq, Repr

/-- The text of the error (`err.Error()`). -/
def DBError.Error : DBError → String
  | .recordNotFound => "record not found"
  | .other msg => msg

/-- The query `DB.Where("email = ?", email).First(&user)`; SQLite compares the text byte by
byte. -/
def AuthStore.firstByEmail (s : AuthStore) (email : String) : Except DBError User :=
  match s.fault with
  | some e => .error (.other e)
  | none =>
    match s.users.find? (fun u => u.Email == email) with
    | none => .error .recordNotFound
    | some u => .ok u

/-- The query `DB.First(&user, id)`. -/
def AuthStore.first (s : AuthStore) (id : Nat) : Except DBError User :=
  match s.fault with
  | some e => .error (.other e)
  | none =>
    match s.users.find? (fun u => u.ID == id) with
    | none => .error .recordNotFound
    | some u => .ok u

/-- The statement `DB.Create(&user)` for a user without key: the unique index on `email`
refuses a second row with the same text, an empty role gets the column default `user`, and
the key comes from the autoincrement column. -/
def AuthStore.createUser (s : AuthStore) (user : User) : Except DBError User × AuthStore :=
  match s.fault with
  | some e => (.error (.other e), s)
  | none =>
    if s.users.any (fun u => u.Email == user.Email) then
      (.error (.other "UNIQUE constraint failed: users.email"), s)
    else
      let u := { user with
        ID := s.lastUserID + 1
        Role := if user.Role = "" then "user" else user.Role }
      (.ok u, { s with users := s.users ++ [u], lastUserID := s.lastUserID + 1 })

/-- The statement `tx.Save(&user)` for a user with key: all columns of the row with that key
are replaced.  `fail` is the error the statement meets, if any. -/
def AuthStore.saveUser (fail : Option String) (s : AuthStore) (user : User) :
    Option String × AuthStore :=
  match fail with
  | some e => (some e, s)
  | none => (none, { s with users := s.users.map (fun u => if u.ID = user.ID then user else u) })

/-- The statement `tx.Create(&notif)`: the key comes from the autoincrement column and
`created_at` from the clock.  `fail` is the error the statement meets, if any. -/
def AuthStore.createNotification (fail : Option String) (s : AuthStore) (notif : Notification)
    (now : Nat) : Option String × AuthStore :=
  match fail with
  | some e => (some e, s)
  | none =>
    let n := { notif with ID := s.lastNotifID + 1, CreatedAt := now }
    (none, { s with notifications := s.notifications ++ [n], lastNotifID := s.lastNotifID + 1 })

/-- GORM's `DB.Transaction(fc)`: the writes of `fc` are kept when `fc` returns no error and
the commit succeeds, and rolled back otherwise.  `commitErr` is the error of the commit, if
any. -/
def Transaction (commitErr : Option String) (fc : AuthStore → Option String × AuthStore)
    (s : AuthStore) : Option String × AuthStore :=
  match fc s with
  | (some e, _) => (some e, s)
  | (none, s1) =>
    match commitErr with
    | some e => (some e, s)
    | none => (none, s1)

/-- What the handlers take from outside the service: the validator's `email` test, Go's
`unicode.ToLower` on one character (`strings.ToLower` maps it over the string, for every
letter of Unicode), and bcrypt (`utils.HashPassword` with the salt it draws,
`utils.CheckPassword`). -/
structure Env where
  isEmail : String → Bool
  toLower : Char → Char
  HashPassword : Nat → String → Except String String
  CheckPassword : String → String → Bool

/-- The JSON bodies the auth handlers send. -/
inductive Body where
  /-- the single member `error` (`utils.JSONError`) -/
  | error (msg : String)
  /-- the members `message`, `user_id`, `is_approved`, `role` of `Register` -/
  | registered (message : String) (user_id : Nat) (is_approved : Bool) (role : String)
  /-- the member `token` and the member `user` of `Login` -/
  | session (token : String) (id : Nat) (name email role : String) (is_approved : Bool)
  /-- the single member `message` -/
  | message (msg : String)
  /-- a list of users -/
  | users (admins : List User)
deriving DecidableEq, Repr

/-- An HTTP response: status code and body. -/
structure Response where
  status : Nat
  body : Body
deriving DecidableEq, Repr

/-! ## `AuthService/handlers/auth.go` -/

/-- The expected payload for user registration (`handlers.RegisterRequest`). -/
structure RegisterRequest where
  Name : String
  Email : String
  Password : String
  Role : String
  GSTNumber : String
deriving DecidableEq, Repr

/-- The field checks of the `binding` tags of `RegisterRequest`, in field order. -/
def RegisterRequest.failures (env : Env) (req : RegisterRequest) : List (String × String) :=
  (if req.Name = "" then [("Name", "required")]
   else if req.Name.length < 2 then [("Name", "min")] else []) ++
  (if req.Email = "" then [("Email", "required")]
   else if ¬ env.isEmail req.Email then [("Email", "email")] else []) ++
  (if req.Password = "" then [("Password", "required")]
   else if req.Password.length < 6 then [("Password", "min")] else []) ++
  (if req.Role = "" then []
   else if req.Role ∉ ["superadmin", "saler", "user"] then [("Role", "oneof")] else [])

/-- Binding of the body of `POST /register` (`c.ShouldBindJSON` in `utils.BindJSONOrAbort`). -/
def bindRegisterRequest (env : Env) (decoded : Except String RegisterRequest) :
    Except String RegisterRequest :=
  match decoded with
  | .error e => .error e
  | .ok req =>
    match req.failures env with
    | [] => .ok req
    | fs => .error ("\n".intercalate
              (fs.map (fun ft => validationMessage "RegisterRequest" ft.1 ft.2)))

/-- The form in which `Register` stores and `Login` looks up an email:
`strings.ToLower(strings.TrimSpace(email))`. -/
def normalizeEmail (env : Env) (email : String) : String :=
  ⟨(Go.TrimSpace email).data.map env.toLower⟩

/-- The handler `Register`.  `salt` is the salt bcrypt draws and `now` the reading of
`time.Now()`. -/
def Register (env : Env) (decoded : Except String RegisterRequest) (salt now : Nat)
    (s : AuthStore) : Response × AuthStore :=
  match bindRegisterRequest env decoded with
  | .error e => (⟨400, .error e⟩, s)
  | .ok req =>
    let email := normalizeEmail env req.Email
    let role := if req.Role = "" then RoleUser else req.Role
    if role = RoleSuperAdmin then (⟨403, .error "cannot self-register as superadmin"⟩, s)
    else if role = RoleAdmin ∧ Go.TrimSpace req.GSTNumber = "" then
      (⟨400, .error "please provide gst number"⟩, s)
    else
      match s.firstByEmail email with
      | .ok _ => (⟨400, .error "email already in use"⟩, s)
      | .error _ =>
        match env.HashPassword salt req.Password with
        | .error _ => (⟨500, .error "failed to hash password"⟩, s)
        | .ok hash =>
          match s.createUser
            { ID := 0
              Name := Go.TrimSpace req.Name
              Email := email
              PasswordHash := hash
              Role := role
              IsApproved := decide (role ≠ RoleAdmin)
              CreatedAt := now
              GSTNum := Go.TrimSpace req.GSTNumber } with
          | (.error _, s1) => (⟨500, .error "failed to create user"⟩, s1)
          | (.ok user, s1) =>
            (⟨201, .registered "user registered successfully" user.ID user.IsApproved
                user.Role⟩, s1)

/-- The expected payload for login (`handlers.LoginRequest`). -/
structure LoginRequest where
  Email : String
  Password : String
deriving DecidableEq, Repr

/-- The field checks of the `binding` tags of `LoginRequest`, in field order. -/
def LoginRequest.failures (env : Env) (req : LoginRequest) : List (String × String) :=
  (if req.Email = "" then [("Email", "required")]
   else if ¬ env.isEmail req.Email then [("Email", "email")] else []) ++
  (if req.Password = "" then [("Password", "required")] else [])

/-- Binding of the body of `POST /login`. -/
def bindLoginRequest (env : Env) (decoded : Except String LoginRequest) :
    Except String LoginRequest :=
  match decoded with
  | .error e => .error e
  | .ok req =>
    match req.failures env with
    | [] => .ok req
    | fs => .error ("\n".intercalate
              (fs.map (fun ft => validationMessage "LoginRequest" ft.1 ft.2)))

/-- The handler `Login`.  `now1` and `now2` are the clock readings of `GenerateToken`, which
signs with HS256 under a byte key and so returns no error. -/
def Login {Sig : Type} (env : Env) (lib : Jwt.Lib Sig) (c : Config)
    (decoded : Except String LoginRequest) (now1 now2 : Int) (s : AuthStore) : Response :=
  match bindLoginRequest env decoded with
  | .error e => ⟨400, .error e⟩
  | .ok req =>
    let email := normalizeEmail env req.Email
    match s.firstByEmail email with
    | .error _ => ⟨401, .error "invalid email or password"⟩
    | .ok user =>
      if ¬ env.CheckPassword user.PasswordHash req.Password then
        ⟨401, .error "invalid email or password"⟩
      else if user.Role = RoleAdmin ∧ ¬ user.IsApproved then
        ⟨403, .error "admin not approved yet"⟩
      else
        ⟨200, .session (GenerateToken lib c user.ID user.Role now1 now2) user.ID user.Name
          user.Email user.Role user.IsApproved⟩

/-! ## `AuthService/handlers/admin.go` -/

/-- The path parameter `:id` after `strconv.Atoi` and the test `id <= 0`.  The parameter is
given as the number its text spells, `none` for text that `Atoi` refuses; numbers outside
the 64-bit `int` are refused too. -/
def parseUserID (idParam : Option Int) : Option Nat :=
  match idParam with
  | none => none
  | some id => if ¬ IsInt64 id ∨ id ≤ 0 then none else some id.toNat

/-- The errors the three steps of the approval transaction meet, if any. -/
structure TxFaults where
  save : Option String
  create : Option String
  commit : Option String
deriving DecidableEq, Repr

/-- The function `ApproveAdmin` passes to `DB.Transaction`: approve the user, then create
the notification. -/
def approveAndNotify (faults : TxFaults) (user : User) (now : Nat) (tx : AuthStore) :
    Option String × AuthStore :=
  let user := { user with IsApproved := true }
  match tx.saveUser faults.save user with
  | (some e, tx1) => (some e, tx1)
  | (none, tx1) =>
    tx1.createNotification faults.create
      { ID := 0, UserID := user.ID, Message := "Your admin account has been approved",
        IsRead := false, CreatedAt := 0 } now

/-- The handler `ApproveAdmin`. -/
def ApproveAdmin (idParam : Option Int) (faults : TxFaults) (now : Nat) (s : AuthStore) :
    Response × AuthStore :=
  match parseUserID idParam with
  | none => (⟨400, .error "invalid user id"⟩, s)
  | some id =>
    match s.first id with
    | .error _ => (⟨404, .error "user not found"⟩, s)
    | .ok user =>
      if user.Role ≠ RoleAdmin then (⟨400, .error "only admin users require approval"⟩, s)
      else if user.IsApproved then (⟨200, .message "admin already approved"⟩, s)
      else
        match Transaction faults.commit (approveAndNotify faults user now) s with
        | (some _, s1) => (⟨500, .error "failed to approve admin"⟩, s1)
        | (none, s1) => (⟨200, .message "admin approved"⟩, s1)

/-- The handler `GetPendingAdminApprovals`. -/
def GetPendingAdminApprovals (s : AuthStore) : Response :=
  match s.fault with
  | some _ => ⟨500, .error "failed to retrieve pending admin approvals"⟩
  | none => ⟨200, .users (s.users.filter (fun u => u.Role == RoleAdmin && u.IsApproved == false))⟩

/-! ## `AuthService/database/db.go` -/

/-- The part of `config.Config` the seeding reads. -/
structure SeedConfig where
  SuperAdminName : String
  SuperAdminEmail : String
  SuperAdminPassword : String
deriving DecidableEq, Repr

/-- The helper `valueOrDefault`. -/
def valueOrDefault (v d : String) : String := if v = "" then d else v

/-- The function `seedSuperAdmin`; the result is the returned `error`, `none` for `nil`. -/
def seedSuperAdmin (env : Env) (c : SeedConfig) (salt now : Nat) (db : AuthStore) :
    Option String × AuthStore :=
  if c.SuperAdminEmail = "" ∨ c.SuperAdminPassword = "" then
    (some "super admin credentials missing", db)
  else
    match db.firstByEmail c.SuperAdminEmail with
    | .ok _ => (none, db)
    | .error (.other e) => (some e, db)
    | .error .recordNotFound =>
      match env.HashPassword salt c.SuperAdminPassword with
      | .error e => (some e, db)
      | .ok hash =>
        match db.createUser
          { ID := 0
            Name := valueOrDefault c.SuperAdminName "Super Admin"
            Email := c.SuperAdminEmail
            PasswordHash := hash
            Role := RoleSuperAdmin
            IsApproved := true
            CreatedAt := now
            GSTNum := "" } with
        | (.error e, db1) => (some e.Error, db1)
        | (.ok _, db1) => (none, db1)

/-- The function `InitDatabase` on an opened and migrated database. -/
def InitDatabase (env : Env) (c : SeedConfig) (salt now : Nat) (db : AuthStore) :
    Option String × AuthStore :=
  match seedSuperAdmin env c salt now db with
  | (some e, db1) => (some ("seed superadmin: " ++ e), db1)
  | (none, db1) => (none, db1)

/-- The states the auth store reaches: database initialisation on the empty database, then
any sequence of `Register` calls. -/
inductive Reachable (env : Env) (c : SeedConfig) : AuthStore → Prop where
  | init (salt now : Nat) (db : AuthStore)
      (h : InitDatabase env c salt now ⟨[], 0, [], 0, none⟩ = (none, db)) : Reachable env c db
  | register (decoded : Except String RegisterRequest) (salt now : Nat) (db : AuthStore)
      (h : Reachable env c db) : Reachable env c (Register env decoded salt now db).2

/-! ## `AuthService/main.go`: the routes and their gates -/

/-- The handlers `bootstrap` registers. -/
inductive Endpoint where
  /-- the route `POST /register` -/
  | register
  /-- the route `POST /login` -/
  | login
  /-- the route `GET /notifications` -/
  | notifications
  /-- the route `PUT /approve-admin/:id` with its path parameter -/
  | approveAdmin (id : String)
  /-- the route `GET /approve-request` -/
  | approveRequest
deriving DecidableEq, Repr

/-- Whether the endpoint is one of the two approval handlers. -/
def Endpoint.isApproval : Endpoint → Bool
  | .approveAdmin _ => true
  | .approveRequest => true
  | _ => false

/-- The route that serves a request, if any. -/
def route (method path : String) : Option Endpoint :=
  match Go.Split path '/' with
  | ["", "register"] => if method = "POST" then some .register else none
  | ["", "login"] => if method = "POST" then some .login else none
  | ["", "notifications"] => if method = "GET" then some .notifications else none
  | ["", "approve-admin", id] =>
    if method = "PUT" ∧ id ≠ "" then some (.approveAdmin id) else none
  | ["", "approve-request"] => if method = "GET" then some .approveRequest else none
  | _ => none

/-- The middleware in front of a handler, run on the `Authorization` header of the request:
the context the handler starts with, or the response the request is aborted with. -/
def Endpoint.gates (parseToken : String → Except String Jwt.Claims) (e : Endpoint)
    (auth : String) : Except ErrorResponse Context :=
  match e with
  | .register => .ok ⟨none, none⟩
  | .login => .ok ⟨none, none⟩
  | .notifications => AuthMiddleware parseToken auth
  | .approveAdmin _ =>
    match AuthMiddleware parseToken auth with
    | .error e => .error e
    | .ok c =>
      match RequireRoles ["superadmin"] c with
      | some e => .error e
      | none => .ok c
  | .approveRequest =>
    match AuthMiddleware parseToken auth with
    | .error e => .error e
    | .ok c =>
      match RequireRoles ["superadmin"] c with
      | some e => .error e
      | none => .ok c

/-- The handler a request reaches and the context it starts with; `none` when no route
serves the request or a gate aborts it. -/
def reaches (parseToken : String → Except String Jwt.Claims) (method path : String)
    (header : Go.Header) : Option (Endpoint × Context) :=
  match route method path with
  | none => none
  | some e =>
    match e.gates parseToken (header.Get "Authorization") with
    | .error _ => none
    | .ok c => some (e, c)

end AuthService

namespace Sample

/-! ## Concrete inputs used to exercise the statements -/

/-- Exact rational arithmetic standing in for `float64`; on the values used below
(10, 3, 30) IEEE arithmetic gives the same results. -/
def exactOps : Float64Ops ℚ where
  mul a b := a * b
  ofInt n := (n : ℚ)
  zero := 0

/-- Product 1 as the order service decodes it: price 10.0, five in stock, seller 42. -/
def widget : OrderService.Product ℚ :=
  { ID := 1, Name := "widget", Price := 10, Quantity := 5, SellerID := 42 }

/-- A product service that cannot be reached. -/
def down : OrderService.Upstream Unit ℚ where
  get w _ := (.transportErr "connection refused", w)
  newRequestErr _ := none
  patch w _ _ := (.transportErr "connection refused", w)

/-- A product service without gates that holds the stock of product 1 as its state: it
answers the `GET` with the widget at the current stock and accepts every `PATCH`. -/
def openCatalog : OrderService.Upstream Int ℚ where
  get q productID :=
    if productID = 1 then (.response 200 (.ok { widget with Quantity := q }), q)
    else (.response 404 (.error "no product member"), q)
  newRequestErr _ := none
  patch q productID n := if productID = 1 then (.response 200, n) else (.response 404, q)

/-- A product service that serves the widget and answers every `PATCH` with 401. -/
def readOnly : OrderService.Upstream Unit ℚ where
  get w productID :=
    if productID = 1 then (.response 200 (.ok widget), w)
    else (.response 404 (.error "no product member"), w)
  newRequestErr _ := none
  patch w _ _ := (.response 401, w)

/-- An empty, working `orders` table. -/
def emptyOrders : OrderService.OrderStore ℚ := { rows := [], lastID := 0, fault := none }

/-- The request of the end-to-end scenario: three of product 1, cash on delivery. -/
def threeCOD : OrderService.CreateOrderRequest :=
  { ProductID := 1, Quantity := 3, PaymentMethod := "COD" }

/-- A request for more than the five in stock. -/
def sixCOD : OrderService.CreateOrderRequest :=
  { ProductID := 1, Quantity := 6, PaymentMethod := "COD" }

/-- The order the scenario creates for user 7 at time 100. -/
def threeCODOrder : OrderService.Order ℚ :=
  { ID := 1, UserID := 7, ProductID := 1, Quantity := 3, TotalAmount := 30,
    PaymentMethod := "COD", Status := "Pending", CreatedAt := 100, UpdatedAt := 100 }

/-- Product 1 as the product service stores it: price 10.0, five in stock, seller 42. -/
def catalogWidget : ProductService.Product ℚ :=
  { ID := 1, Name := "widget", Description := "", Price := 10, SellerID := 42, Quantity := 5,
    CreatedAt := 50, UpdatedAt := 50 }

/-- A working `products` table holding the widget. -/
def catalog : ProductService.ProductStore ℚ :=
  { rows := [catalogWidget], lastID := 1, fault := none }

/-- A request the validator rejects: the quantity is missing. -/
def noQuantity : OrderService.CreateOrderRequest :=
  { ProductID := 1, Quantity := 0, PaymentMethod := "COD" }

/-- The context of the authenticated plain user 7. -/
def user7 : Context := { user_id := some 7, role := some "user" }

/-- An `orders` table with an older order of user 8 and a newer one of user 7. -/
def twoOrders : OrderService.OrderStore ℚ :=
  { rows := [{ threeCODOrder with UserID := 8, CreatedAt := 90, UpdatedAt := 90 },
             { threeCODOrder with ID := 2 }],
    lastID := 2, fault := none }

/-- Two users ordering three of product 1 each, cash on delivery. -/
def firstBuyer : OrderService.Invocation :=
  { userID := 7, req := threeCOD, now1 := 100, now2 := 100 }

/-- The second of the two users. -/
def secondBuyer : OrderService.Invocation :=
  { userID := 8, req := threeCOD, now1 := 101, now2 := 101 }

/-- The context of the seller 42, the owner of the widget. -/
def seller42 : Context := { user_id := some 42, role := some "saler" }

/-- The context of the super administrator 9, who owns no product. -/
def superadmin9 : Context := { user_id := some 9, role := some "superadmin" }

/-- The validator's price tests on exact prices. -/
def exactPrice : ProductService.PriceChecks ℚ :=
  { isZero := fun x => decide (x = 0), gt0 := fun x => decide (0 < x) }

/-- A body for `POST /products` that names seller 1 as the owner. -/
def gadgetRequest : ProductService.CreateProductRequest ℚ :=
  { Name := "gadget", Description := "new", Price := 3, SellerID := 1, Quantity := 0 }

/-- A body for `PATCH /products/:id` that carries a price and a `SellerID` and nothing else. -/
def repriceRequest : ProductService.UpdateProductRequest ℚ :=
  { Name := none, Description := none, Price := some 12, SellerID := some 7, Quantity := none }

/-- The auth service's token settings: secret `s3cret`, tokens live for one hour. -/
def authConfig : AuthService.Config := { JWTSecret := "s3cret", JWTExpiry := 3600000000000 }

/-- The claims of the token issued to user 7 with role `user` at time 5.5 s. -/
def claims7 : Jwt.Claims := AuthService.newClaims authConfig 7 "user" 5500000000 5500000001

/-- A stand-in for the HMAC functions: a text made of the method, the key, and the header
and role of the signing input. -/
def toyHmac (method : Jwt.Method) (key : String) (input : Option String × Jwt.Claims) : String :=
  (match method with
    | .HS256 => "sha256"
    | .HS384 => "sha384"
    | .HS512 => "sha512"
    | _ => "") ++ "/" ++ key ++ "/" ++ input.1.getD "" ++ "/" ++ input.2.Role

/-- The token of user 7 with the header `alg` replaced by `HS384` and signed accordingly
with the same secret. -/
def token384 : Jwt.Token String :=
  { alg := some "HS384", claims := claims7,
    signature := toyHmac .HS384 "s3cret" (some "HS384", claims7) }

/-- A stand-in for the library's coding that knows three token strings: `t256` is the token
`GenerateToken` issues to user 7, `t384` is `token384`, and `tnone` carries the same claims
under the header `alg` of `none` with an empty signature. -/
def toyLib : Jwt.Lib String where
  decode s :=
    if s = "t256" then
      some { alg := some "HS256", claims := claims7,
             signature := toyHmac .HS256 "s3cret" (some "HS256", claims7) }
    else if s = "t384" then some token384
    else if s = "tnone" then some { alg := some "none", claims := claims7, signature := "" }
    else none
  encode t := if t.alg = some "HS256" then "t256" else "t384"
  hmac := toyHmac
  describe e :=
    match e with
    | .expired => "token has invalid claims: token is expired"
    | .signatureInvalid => "token signature is invalid"
    | _ => "token is unverifiable"

/-- The default backend origins. -/
def backends : ApiGateway.Backends :=
  ⟨"http://localhost:8001", "http://localhost:8002", "http://localhost:8003"⟩

/-- A backend that answers every request with 200 and two cookies. -/
def echoNet : ApiGateway.Net :=
  { newRequestErr := fun _ _ => false
    Do := fun _ => some ⟨200, [("Set-Cookie", ["a=1", "b=2"])], "ok"⟩ }

/-- A request for `GET /orders?page=2` with the token `tok`, two `Accept` values, and a
header `X-User-Id` of the client's own making. -/
def listOrders : ApiGateway.Request :=
  { method := "GET", host := "localhost:8080", path := "/orders", rawQuery := "page=2",
    header := [("Authorization", ["Bearer tok"]), ("Accept", ["text/html", "application/json"]),
               ("X-User-Id", ["999"])],
    body := "" }

/-- The request the gateway sends to the order service for `listOrders`. -/
def listOrdersSent : ApiGateway.OutboundRequest :=
  { method := "GET", url := "http://localhost:8003/orders?page=2",
    header := [("Authorization", ["Bearer tok"]), ("Accept", ["text/html", "application/json"]),
               ("X-User-Id", ["7"]), ("X-User-Role", ["user"])],
    body := "" }

/-- The response the gateway writes for `listOrders` with the backend `echoNet`. -/
def listOrdersAnswer : ApiGateway.ClientResponse :=
  { status := 200, header := [("Set-Cookie", ["a=1", "b=2"])], body := .raw "ok" }

/-- A stand-in for the validator, the case mapping and bcrypt: an email holds an at sign,
lower case is that of the ASCII letters, which is what `unicode.ToLower` gives on the ASCII
texts used with it, and the hash of a password is the password behind the mark `h:`. -/
def toyEnv : AuthService.Env :=
  { isEmail := fun e => e.data.contains '@'
    toLower := Char.toLower
    HashPassword := fun _ password => .ok ("h:" ++ password)
    CheckPassword := fun hash password => hash == "h:" ++ password }

/-- An auth database with an approved super administrator, the seller Sam who waits for
approval, and the plain user Uma. -/
def accounts : AuthService.AuthStore :=
  { users :=
      [{ ID := 1, Name := "Root", Email := "root@x.com", PasswordHash := "h:root-pw",
         Role := "superadmin", IsApproved := true, CreatedAt := 10, GSTNum := "" },
       { ID := 2, Name := "Sam", Email := "sam@x.com", PasswordHash := "h:sam-pw",
         Role := "saler", IsApproved := false, CreatedAt := 20, GSTNum := "GST1" },
       { ID := 3, Name := "Uma", Email := "uma@x.com", PasswordHash := "h:uma-pw",
         Role := "user", IsApproved := true, CreatedAt := 30, GSTNum := "" }]
    lastUserID := 3, notifications := [], lastNotifID := 0, fault := none }

/-- The row of Sam in `accounts`. -/
def sam : AuthService.User :=
  { ID := 2, Name := "Sam", Email := "sam@x.com", PasswordHash := "h:sam-pw",
    Role := "saler", IsApproved := false, CreatedAt := 20, GSTNum := "GST1" }

/-- The row of Uma in `accounts`. -/
def uma : AuthService.User :=
  { ID := 3, Name := "Uma", Email := "uma@x.com", PasswordHash := "h:uma-pw",
    Role := "user", IsApproved := true, CreatedAt := 30, GSTNum := "" }

/-- A registration that asks for the role `superadmin`. -/
def eveAsRoot : AuthService.RegisterRequest :=
  { Name := "Eve", Email := "eve@x.com", Password := "secret1", Role := "superadmin",
    GSTNumber := "" }

/-- A registration that names no role. -/
def ann : AuthService.RegisterRequest :=
  { Name := "Ann", Email := "Ann@X.com", Password := "secret2", Role := "", GSTNumber := "" }

/-- No step of the approval transaction fails. -/
def noFaults : AuthService.TxFaults := ⟨none, none, none⟩

/-- The creation of the notification fails. -/
def createFails : AuthService.TxFaults := ⟨none, some "database is locked", none⟩

/-- The empty, migrated auth database. -/
def emptyAuth : AuthService.AuthStore := ⟨[], 0, [], 0, none⟩

/-- A configuration whose super-admin email has capital letters. -/
def rootConfig : AuthService.SeedConfig :=
  { SuperAdminName := "Root", SuperAdminEmail := "Admin@Example.com",
    SuperAdminPassword := "root-pw" }

/-- The auth database after `InitDatabase` under `rootConfig`. -/
def seeded : AuthService.AuthStore :=
  { users :=
      [{ ID := 1, Name := "Root", Email := "Admin@Example.com", PasswordHash := "h:root-pw",
         Role := "superadmin", IsApproved := true, CreatedAt := 10, GSTNum := "" }]
    lastUserID := 1, notifications := [], lastNotifID := 0, fault := none }

/-- A registration under the seeded email in lower case. -/
def eve : AuthService.RegisterRequest :=
  { Name := "Eve", Email := "admin@example.com", Password := "secret1", Role := "",
    GSTNumber := "" }

/-- A token check that knows three token strings: `root` of super administrator 1, `seller`
of seller 42, and `tok` of user 7. -/
def parseByName (tokenString : String) : Except String Jwt.Claims :=
  if tokenString = "root" then
    .ok { UserID := 1, Role := "superadmin", ExpiresAt := none, IssuedAt := none,
          NotBefore := none }
  else if tokenString = "seller" then
    .ok { UserID := 42, Role := "saler", ExpiresAt := none, IssuedAt := none,
          NotBefore := none }
  else if tokenString = "tok" then
    .ok { UserID := 7, Role := "user", ExpiresAt := none, IssuedAt := none, NotBefore := none }
  else .error "token is malformed"

/-- A request through the gateway for the approval of account 2, with the token of seller
42. -/
def approveBySeller : ApiGateway.Request :=
  { method := "PUT", host := "localhost:8080", path := "/admin/approve-admin/2",
    rawQuery := "", header := [("Authorization", ["Bearer seller"])], body := "" }

/-- A preflight of a page of another origin for `/auth/login`. -/
def preflight : ApiGateway.Request :=
  { method := "OPTIONS", host := "localhost:8080", path := "/auth/login", rawQuery := "",
    header := [("Origin", ["http://shop.example"]),
               ("Access-Control-Request-Method", ["POST"])],
    body := "" }

/-- A number written as so many strokes and a stop. -/
def putNat (n : Nat) : List Char := List.replicate n '1' ++ ['0']

/-- Reads a number written by `putNat` and returns the text behind it. -/
def getNat : List Char → Option (Nat × List Char)
  | [] => none
  | c :: cs =>
    if c = '0' then some (0, cs)
    else if c = '1' then
      match getNat cs with
      | some (n, rest) => some (n + 1, rest)
      | none => none
    else none

/-- A text written as its length and its characters. -/
def putText (t : String) : List Char := putNat t.data.length ++ t.data

/-- Reads a text written by `putText`. -/
def getText (cs : List Char) : Option (String × List Char) :=
  match getNat cs with
  | some (n, rest) => if n ≤ rest.length then some (⟨rest.take n⟩, rest.drop n) else none
  | none => none

/-- An integer written as its sign and a number. -/
def putInt : Int → List Char
  | .ofNat n => '+' :: putNat n
  | .negSucc n => '-' :: putNat n

/-- Reads an integer written by `putInt`. -/
def getInt : List Char → Option (Int × List Char)
  | [] => none
  | c :: cs =>
    if c = '+' then
      match getNat cs with
      | some (n, rest) => some (Int.ofNat n, rest)
      | none => none
    else if c = '-' then
      match getNat cs with
      | some (n, rest) => some (Int.negSucc n, rest)
      | none => none
    else none

/-- A time claim that may be absent. -/
def putTime : Option Int → List Char
  | none => ['n']
  | some t => 'y' :: putInt t

/-- Reads a time claim written by `putTime`. -/
def getTime : List Char → Option (Option Int × List Char)
  | [] => none
  | c :: cs =>
    if c = 'n' then some (none, cs)
    else if c = 'y' then
      match getInt cs with
      | some (t, rest) => some (some t, rest)
      | none => none
    else none

/-- The header member `alg`, which may be absent. -/
def putAlg : Option String → List Char
  | none => ['n']
  | some alg => 'y' :: putText alg

/-- Reads the header member written by `putAlg`. -/
def getAlg : List Char → Option (Option String × List Char)
  | [] => none
  | c :: cs =>
    if c = 'n' then some (none, cs)
    else if c = 'y' then
      match getText cs with
      | some (alg, rest) => some (some alg, rest)
      | none => none
    else none

/-- The token string of `packLib`: header, claims and signature one after the other. -/
def pack (t : Jwt.Token String) : String :=
  ⟨putAlg t.alg ++ (putNat t.claims.UserID ++ (putText t.claims.Role ++
    (putTime t.claims.ExpiresAt ++ (putTime t.claims.IssuedAt ++
      (putTime t.claims.NotBefore ++ t.signature.data)))))⟩

/-- Reads a token string written by `pack`; any other string does not decode. -/
def unpack (tokenString : String) : Option (Jwt.Token String) :=
  match getAlg tokenString.data with
  | none => none
  | some (alg, r1) =>
    match getNat r1 with
    | none => none
    | some (userID, r2) =>
      match getText r2 with
      | none => none
      | some (role, r3) =>
        match getTime r3 with
        | none => none
        | some (exp, r4) =>
          match getTime r4 with
          | none => none
          | some (iat, r5) =>
            match getTime r5 with
            | none => none
            | some (nbf, r6) =>
              some { alg := alg
                     claims := { UserID := userID, Role := role, ExpiresAt := exp,
                                 IssuedAt := iat, NotBefore := nbf }
                     signature := ⟨r6⟩ }

/-- A stand-in for the library with a coding that reads back every token it writes. -/
def packLib : Jwt.Lib String where
  decode := unpack
  encode := pack
  hmac := toyHmac
  describe := toyLib.describe

/-- A token check that accepts the one token string `tok`, as user 7 with role `user`. -/
def acceptTok (tokenString : String) : Except String Jwt.Claims :=
  if tokenString = "tok" then
    .ok { UserID := 7, Role := "user", ExpiresAt := none, IssuedAt := none, NotBefore := none }
  else .error "token is malformed"

end Sample

/-! # Properties -/

namespace OrderService

/-! ## Shared facts about the fetch -/

/-- The fetch only reads the product service and logs one `GET`. -/
theorem getProductFromService_snd {W F : Type} (up : Upstream W F) (productID : Nat)
    (st : St W F) :
    (getProductFromService up productID st).2 =
      { st with net := (up.get st.net productID).2,
                log := st.log ++ [Call.httpGet productID] } := by
  unfold getProductFromService
  rcases h : up.get st.net productID with ⟨reply, net⟩
  cases reply with
  | transportErr cause => rfl
  | response status body =>
    by_cases h404 : status = 404
    · simp [h404]
    · by_cases h200 : status = 200
      · cases body <;> simp [h200]
      · simp [h404, h200]

/-- The fetch yields a product exactly on a 200 reply whose body decodes. -/
theorem getProductFromService_some {W F : Type} (up : Upstream W F) (productID : Nat)
    (st : St W F) (p : Product F) :
    (getProductFromService up productID st).1 = .ok (some p) ↔
      (up.get st.net productID).1 = .response 200 (.ok p) := by
  unfold getProductFromService
  rcases h : up.get st.net productID with ⟨reply, net⟩
  cases reply with
  | transportErr cause => simp
  | response status body =>
    by_cases h404 : status = 404
    · simp [h404]
    · by_cases h200 : status = 200
      · cases body <;> simp [h200]
      · simp [h404, h200]

/-- A reply that yields no product makes the fetch return an error or Go's `(nil, nil)`. -/
theorem getProductFromService_noProduct {W F : Type} (up : Upstream W F) (productID : Nat)
    (st : St W F) (h : (up.get st.net productID).1.yieldsNoProduct) :
    (getProductFromService up productID st).1 = .ok none ∨
      ∃ err, (getProductFromService up productID st).1 = .error err := by
  unfold getProductFromService
  rcases hg : up.get st.net productID with ⟨reply, net⟩
  rw [hg] at h
  cases reply with
  | transportErr cause => right; exact ⟨_, rfl⟩
  | response status body =>
    by_cases h404 : status = 404
    · left; simp [h404]
    · by_cases h200 : status = 200
      · rcases h with h | ⟨cause, h⟩
        · exact absurd h200 h
        · right; subst h; simp [h200]
      · right; simp [h404, h200]

/-- C1: when step 1 does not yield a product (the catalog is unreachable, answers a status
other than 200, answers 404, or sends a body that does not decode), `CreateOrder` returns an
error, the order table is untouched, and the only effect is the one `GET` of step 1: the
repository's `Create` is never called and the stock `PATCH` is never issued. -/
theorem createOrder_aborts_without_product {W F : Type} (fl : Float64Ops F)
    (up : Upstream W F) (userID : Nat) (req : CreateOrderRequest) (now1 now2 : Nat)
    (st : St W F) (h : (up.get st.net req.ProductID).1.yieldsNoProduct) :
    (∃ e, (CreateOrder fl up userID req now1 now2 st).1 = .error e ∧
        (e = .productNotFound ∨ ∃ inner, e = .fetch inner)) ∧
    (CreateOrder fl up userID req now1 now2 st).2.db = st.db ∧
    (CreateOrder fl up userID req now1 now2 st).2.log = st.log ++ [Call.httpGet req.ProductID] ∧
    (∀ c ∈ ((CreateOrder fl up userID req now1 now2 st).2.log).drop st.log.length,
        c.isRepoCreate = false ∧ c.isHttpPatch = false) := by
  have hsnd := getProductFromService_snd up req.ProductID st
  have key : (∃ e, (CreateOrder fl up userID req now1 now2 st).1 = .error e ∧
        (e = .productNotFound ∨ ∃ inner, e = .fetch inner)) ∧
      (CreateOrder fl up userID req now1 now2 st).2 =
        (getProductFromService up req.ProductID st).2 := by
    unfold CreateOrder
    rcases getProductFromService_noProduct up req.ProductID st h with h1 | ⟨err, h1⟩
    · rcases hg : getProductFromService up req.ProductID st with ⟨r, st1⟩
      rw [hg] at h1
      simp only at h1
      subst h1
      exact ⟨⟨_, rfl, Or.inl rfl⟩, rfl⟩
    · rcases hg : getProductFromService up req.ProductID st with ⟨r, st1⟩
      rw [hg] at h1
      simp only at h1
      subst h1
      exact ⟨⟨_, rfl, Or.inr ⟨_, rfl⟩⟩, rfl⟩
  refine ⟨key.1, ?_, ?_, ?_⟩
  · rw [key.2, hsnd]
  · rw [key.2, hsnd]
  · rw [key.2, hsnd]
    intro c hc
    simp at hc
    subst hc
    exact ⟨rfl, rfl⟩

/-- Witness of C1: the product service is down, user 7 orders three of product 1. -/
theorem createOrder_aborts_without_product_witness :
    (Sample.down.get () Sample.threeCOD.ProductID).1.yieldsNoProduct ∧
    ((∃ e, (CreateOrder Sample.exactOps Sample.down 7 Sample.threeCOD 100 100
          ⟨Sample.emptyOrders, (), []⟩).1 = .error e ∧
        (e = .productNotFound ∨ ∃ inner, e = .fetch inner)) ∧
    (CreateOrder Sample.exactOps Sample.down 7 Sample.threeCOD 100 100
        ⟨Sample.emptyOrders, (), []⟩).2.db = Sample.emptyOrders ∧
    (CreateOrder Sample.exactOps Sample.down 7 Sample.threeCOD 100 100
        ⟨Sample.emptyOrders, (), []⟩).2.log = [] ++ [Call.httpGet Sample.threeCOD.ProductID] ∧
    (∀ c ∈ ((CreateOrder Sample.exactOps Sample.down 7 Sample.threeCOD 100 100
        ⟨Sample.emptyOrders, (), []⟩).2.log).drop ([] : List (Call ℚ)).length,
        c.isRepoCreate = false ∧ c.isHttpPatch = false)) :=
  ⟨trivial, createOrder_aborts_without_product Sample.exactOps Sample.down 7 Sample.threeCOD
    100 100 ⟨Sample.emptyOrders, (), []⟩ trivial⟩

/-- The value of `CreateOrder` once step 1 has yielded a product. -/
theorem createOrder_of_product {W F : Type} (fl : Float64Ops F) (up : Upstream W F)
    (userID : Nat) (req : CreateOrderRequest) (now1 now2 : Nat) (st : St W F) (p : Product F)
    (hfetch : (up.get st.net req.ProductID).1 = .response 200 (.ok p)) :
    CreateOrder fl up userID req now1 now2 st =
      if p.Quantity < req.Quantity then
        (.error (.insufficientStock p.Quantity req.Quantity),
          (getProductFromService up req.ProductID st).2)
      else
        match repoCreate (newOrder fl userID req p now1 now2)
            (getProductFromService up req.ProductID st).2 with
        | (.error e, st2) => (.error (.repo e), st2)
        | (.ok order, st2) => (.ok order, deductAndWarn up req.ProductID req.Quantity st2) := by
  have h1 := (getProductFromService_some up req.ProductID st p).2 hfetch
  unfold CreateOrder
  rcases hg : getProductFromService up req.ProductID st with ⟨r, st1⟩
  rw [hg] at h1
  simp only at h1
  subst h1
  rfl

/-- Inversion: `CreateOrder` returns an order only if step 1 yielded a product with enough stock and the
insert succeeded; the returned order is the inserted one. -/
theorem createOrder_ok_inv {W F : Type} (fl : Float64Ops F) (up : Upstream W F)
    (userID : Nat) (req : CreateOrderRequest) (now1 now2 : Nat) (st : St W F) (order : Order F)
    (h : (CreateOrder fl up userID req now1 now2 st).1 = .ok order) :
    ∃ p, (up.get st.net req.ProductID).1 = .response 200 (.ok p) ∧
      ¬ p.Quantity < req.Quantity ∧
      (repoCreate (newOrder fl userID req p now1 now2)
        (getProductFromService up req.ProductID st).2).1 = .ok order ∧
      (CreateOrder fl up userID req now1 now2 st).2 =
        deductAndWarn up req.ProductID req.Quantity
          (repoCreate (newOrder fl userID req p now1 now2)
            (getProductFromService up req.ProductID st).2).2 := by
  rcases hg : getProductFromService up req.ProductID st with ⟨r, st1⟩
  cases r with
  | error err => simp [CreateOrder, hg] at h
  | ok op =>
    cases op with
    | none => simp [CreateOrder, hg] at h
    | some p =>
      have hfetch := (getProductFromService_some up req.ProductID st p).1 (by rw [hg])
      refine ⟨p, hfetch, ?_⟩
      rw [createOrder_of_product fl up userID req now1 now2 st p hfetch, hg] at h ⊢
      by_cases hq : p.Quantity < req.Quantity
      · simp [hq] at h
      · simp only [hq, if_false] at h ⊢
        rcases hc : repoCreate (newOrder fl userID req p now1 now2) st1 with ⟨rc, st2⟩
        rw [hc] at h
        cases rc with
        | error e => simp at h
        | ok o =>
          simp only [Except.ok.injEq] at h
          subst h
          exact ⟨not_false, rfl, rfl⟩

/-- The insert of step 5 on a working table: the order gets the next key and is appended. -/
theorem repoCreate_newOrder {W F : Type} (fl : Float64Ops F) (userID : Nat)
    (req : CreateOrderRequest) (p : Product F) (now1 now2 : Nat) (st : St W F)
    (order : Order F)
    (h : (repoCreate (newOrder fl userID req p now1 now2) st).1 = .ok order) :
    order = { newOrder fl userID req p now1 now2 with ID := st.db.lastID + 1 } ∧
    (repoCreate (newOrder fl userID req p now1 now2) st).2.db.rows = st.db.rows ++ [order] := by
  unfold repoCreate orderRepo.Create at h ⊢
  cases hf : st.db.fault with
  | some e => simp [hf] at h
  | none =>
    simp only [hf, newOrder, if_true] at h ⊢
    simp only [Except.ok.injEq] at h
    subst h
    exact ⟨rfl, rfl⟩

/-- Sending the `PATCH` never touches the order table. -/
theorem sendStockPatch_db {W F : Type} (up : Upstream W F) (productID : Nat) (n : Int)
    (st : St W F) : (sendStockPatch up productID n st).2.db = st.db := by
  unfold sendStockPatch
  cases up.newRequestErr productID with
  | some cause => rfl
  | none =>
    simp only
    rcases hp : up.patch st.net productID n with ⟨reply, net⟩
    cases reply with
    | transportErr cause => rfl
    | response status =>
      by_cases h200 : status = 200 <;> simp [h200]

/-- Printing the warning never touches the order table. -/
theorem warn_db {W F : Type} (r : Option Err × St W F) : (warn r).db = r.2.db := by
  rcases r with ⟨_ | err, st⟩ <;> rfl

/-- The decrement step never touches the order table. -/
theorem deductAndWarn_db {W F : Type} (up : Upstream W F) (productID : Nat) (quantity : Int)
    (st : St W F) : (deductAndWarn up productID quantity st).db = st.db := by
  have hsnd := getProductFromService_snd up productID st
  unfold deductAndWarn deductProductQuantity
  rw [warn_db]
  rcases hg : getProductFromService up productID st with ⟨r, st1⟩
  rw [hg] at hsnd
  simp only at hsnd
  subst hsnd
  cases r with
  | error err => rfl
  | ok op =>
    cases op with
    | none => rfl
    | some product => simp only [sendStockPatch_db]

/-- C2: once step 1 has fetched a product with quantity `q`, a request for `k` fails with an
insufficient-stock error exactly when `q < k`.  The error then carries `available=q` and
`requested=k`, the order table is unchanged, the only call to the product service is the
`GET` of step 1 (no stock write), and the handler answers 400 with that message. -/
theorem createOrder_insufficient_stock_iff {W F : Type} (fl : Float64Ops F)
    (up : Upstream W F) (userID : Nat) (req : CreateOrderRequest) (now1 now2 : Nat)
    (st : St W F) (p : Product F)
    (hfetch : (up.get st.net req.ProductID).1 = .response 200 (.ok p)) :
    ((∃ e, (CreateOrder fl up userID req now1 now2 st).1 = .error e ∧
        e.isInsufficientStock = true) ↔ p.Quantity < req.Quantity) ∧
    (p.Quantity < req.Quantity →
      (CreateOrder fl up userID req now1 now2 st).1 =
        .error (.insufficientStock p.Quantity req.Quantity) ∧
      (Err.insufficientStock p.Quantity req.Quantity).Error =
        "insufficient stock: available=" ++ toString p.Quantity ++ ", requested=" ++
          toString req.Quantity ∧
      (CreateOrder fl up userID req now1 now2 st).2.db = st.db ∧
      (CreateOrder fl up userID req now1 now2 st).2.net = (up.get st.net req.ProductID).2 ∧
      (CreateOrder fl up userID req now1 now2 st).2.log =
        st.log ++ [Call.httpGet req.ProductID] ∧
      ∀ (c : Context) (decoded : Except String CreateOrderRequest),
        bindCreateOrderRequest decoded = .ok req → GetUserID c = .ok userID →
        (OrderHandler.CreateOrder fl up c decoded now1 now2 st).1 =
          ⟨400, .error (Err.insufficientStock p.Quantity req.Quantity).Error⟩) := by
  have hco := createOrder_of_product fl up userID req now1 now2 st p hfetch
  have hsnd := getProductFromService_snd up req.ProductID st
  constructor
  · constructor
    · rintro ⟨e, he, hins⟩
      by_contra hq
      rw [hco, if_neg hq] at he
      rcases hc : repoCreate (newOrder fl userID req p now1 now2)
        (getProductFromService up req.ProductID st).2 with ⟨rc, st2⟩
      rw [hc] at he
      cases rc with
      | error msg =>
        simp only [Except.error.injEq] at he
        subst he
        simp [Err.isInsufficientStock] at hins
      | ok o => simp at he
    · intro hq
      exact ⟨.insufficientStock p.Quantity req.Quantity, by rw [hco, if_pos hq], rfl⟩
  · intro hq
    have hres : CreateOrder fl up userID req now1 now2 st =
        (.error (.insufficientStock p.Quantity req.Quantity),
          (getProductFromService up req.ProductID st).2) := by rw [hco, if_pos hq]
    refine ⟨by rw [hres], rfl, by rw [hres, hsnd], by rw [hres, hsnd], by rw [hres, hsnd], ?_⟩
    intro c decoded hbind huser
    simp only [OrderHandler.CreateOrder, hbind, huser, hres]

/-- Witness of C2: five in stock, six requested. -/
theorem createOrder_insufficient_stock_iff_witness :
    (Sample.readOnly.get () Sample.sixCOD.ProductID).1 = .response 200 (.ok Sample.widget) ∧
    (CreateOrder Sample.exactOps Sample.readOnly 7 Sample.sixCOD 100 100
        ⟨Sample.emptyOrders, (), []⟩).1 = .error (.insufficientStock 5 6) ∧
    (CreateOrder Sample.exactOps Sample.readOnly 7 Sample.sixCOD 100 100
        ⟨Sample.emptyOrders, (), []⟩).2.db = Sample.emptyOrders :=
  ⟨rfl,
    ((createOrder_insufficient_stock_iff Sample.exactOps Sample.readOnly 7 Sample.sixCOD
      100 100 ⟨Sample.emptyOrders, (), []⟩ Sample.widget rfl).2 (by decide)).1,
    ((createOrder_insufficient_stock_iff Sample.exactOps Sample.readOnly 7 Sample.sixCOD
      100 100 ⟨Sample.emptyOrders, (), []⟩ Sample.widget rfl).2 (by decide)).2.2.1⟩

/-- C3: the order a successful `CreateOrder` returns is the row it has appended to the order
table; its total is the price read in step 1 times the requested quantity, and its user,
product, quantity and payment method are those of the call. -/
theorem createOrder_order_fields {W F : Type} (fl : Float64Ops F) (up : Upstream W F)
    (userID : Nat) (req : CreateOrderRequest) (now1 now2 : Nat) (st : St W F) (order : Order F)
    (h : (CreateOrder fl up userID req now1 now2 st).1 = .ok order) :
    ∃ p, (up.get st.net req.ProductID).1 = .response 200 (.ok p) ∧
      order.TotalAmount = fl.mul p.Price (fl.ofInt req.Quantity) ∧
      order.UserID = userID ∧
      order.ProductID = req.ProductID ∧
      order.Quantity = req.Quantity ∧
      order.PaymentMethod = req.PaymentMethod ∧
      (CreateOrder fl up userID req now1 now2 st).2.db.rows = st.db.rows ++ [order] := by
  obtain ⟨p, hfetch, _, hcreate, hst⟩ := createOrder_ok_inv fl up userID req now1 now2 st order h
  obtain ⟨ho, hrows⟩ := repoCreate_newOrder fl userID req p now1 now2 _ order hcreate
  refine ⟨p, hfetch, ?_, ?_, ?_, ?_, ?_, ?_⟩
  · rw [ho]; rfl
  · rw [ho]; rfl
  · rw [ho]; rfl
  · rw [ho]; rfl
  · rw [ho]; rfl
  · rw [hst, deductAndWarn_db, hrows, getProductFromService_snd]

/-- Witness of C3: price 10.0 and quantity 3 give a total of 30.0. -/
theorem createOrder_order_fields_witness :
    (CreateOrder Sample.exactOps Sample.openCatalog 7 Sample.threeCOD 100 100
        ⟨Sample.emptyOrders, 5, []⟩).1 = .ok Sample.threeCODOrder ∧
    Sample.threeCODOrder.TotalAmount = 30 ∧
    ∃ p, (Sample.openCatalog.get 5 Sample.threeCOD.ProductID).1 = .response 200 (.ok p) ∧
      Sample.threeCODOrder.TotalAmount =
        Sample.exactOps.mul p.Price (Sample.exactOps.ofInt Sample.threeCOD.Quantity) ∧
      Sample.threeCODOrder.UserID = 7 ∧
      Sample.threeCODOrder.ProductID = Sample.threeCOD.ProductID ∧
      Sample.threeCODOrder.Quantity = Sample.threeCOD.Quantity ∧
      Sample.threeCODOrder.PaymentMethod = Sample.threeCOD.PaymentMethod ∧
      (CreateOrder Sample.exactOps Sample.openCatalog 7 Sample.threeCOD 100 100
        ⟨Sample.emptyOrders, 5, []⟩).2.db.rows = [] ++ [Sample.threeCODOrder] :=
  have h : (CreateOrder Sample.exactOps Sample.openCatalog 7 Sample.threeCOD 100 100
        ⟨Sample.emptyOrders, 5, []⟩).1 = .ok Sample.threeCODOrder := by
    simp [CreateOrder, getProductFromService, Sample.openCatalog, Sample.threeCOD,
      Sample.widget, repoCreate, newOrder, orderRepo.Create, Sample.emptyOrders,
      Sample.exactOps, Sample.threeCODOrder, PaymentOnline, StatusPending]
    norm_num
  ⟨h, rfl, createOrder_order_fields Sample.exactOps Sample.openCatalog 7 Sample.threeCOD
    100 100 ⟨Sample.emptyOrders, 5, []⟩ Sample.threeCODOrder h⟩

/-- C4: the order a successful `CreateOrder` returns and stores has status `Completed` when
the payment method is `Online` and `Pending` when it is `COD`. -/
theorem createOrder_initial_status {W F : Type} (fl : Float64Ops F) (up : Upstream W F)
    (userID : Nat) (req : CreateOrderRequest) (now1 now2 : Nat) (st : St W F) (order : Order F)
    (h : (CreateOrder fl up userID req now1 now2 st).1 = .ok order) :
    (req.PaymentMethod = PaymentOnline → order.Status = StatusCompleted) ∧
    (req.PaymentMethod = PaymentCOD → order.Status = StatusPending) ∧
    order ∈ (CreateOrder fl up userID req now1 now2 st).2.db.rows := by
  obtain ⟨p, hfetch, _, hcreate, hst⟩ := createOrder_ok_inv fl up userID req now1 now2 st order h
  obtain ⟨ho, hrows⟩ := repoCreate_newOrder fl userID req p now1 now2 _ order hcreate
  refine ⟨?_, ?_, ?_⟩
  · intro hpay
    rw [ho]
    simp [newOrder, hpay]
  · intro hpay
    rw [ho]
    simp [newOrder, hpay, PaymentCOD, PaymentOnline]
  · rw [hst, deductAndWarn_db, hrows]
    simp

/-- Witness of C4: the cash-on-delivery order of the scenario is `Pending`. -/
theorem createOrder_initial_status_witness :
    (CreateOrder Sample.exactOps Sample.readOnly 7 Sample.threeCOD 100 100
        ⟨Sample.emptyOrders, (), []⟩).1 = .ok Sample.threeCODOrder ∧
    (Sample.threeCOD.PaymentMethod = PaymentCOD → Sample.threeCODOrder.Status = StatusPending) :=
  have h : (CreateOrder Sample.exactOps Sample.readOnly 7 Sample.threeCOD 100 100
        ⟨Sample.emptyOrders, (), []⟩).1 = .ok Sample.threeCODOrder := by
    simp [CreateOrder, getProductFromService, Sample.readOnly, Sample.threeCOD,
      Sample.widget, repoCreate, newOrder, orderRepo.Create, Sample.emptyOrders,
      Sample.exactOps, Sample.threeCODOrder, PaymentOnline, StatusPending]
    norm_num
  ⟨h, (createOrder_initial_status Sample.exactOps Sample.readOnly 7 Sample.threeCOD
    100 100 ⟨Sample.emptyOrders, (), []⟩ Sample.threeCODOrder h).2.1⟩

/-- C5: once step 1 has passed and the insert of step 5 has succeeded, `CreateOrder` returns
the inserted order without error and leaves the order table as the insert left it (so the
stored status stays as written), whatever the product service does in step 6: `up` is
arbitrary, so its re-read may fail in transport, answer any status, or lose the product,
and its `PATCH` may fail in transport or answer any status. -/
theorem createOrder_succeeds_after_write {W F : Type} (fl : Float64Ops F)
    (up : Upstream W F) (userID : Nat) (req : CreateOrderRequest) (now1 now2 : Nat)
    (st : St W F) (p : Product F) (o : Order F) (db1 : OrderStore F)
    (hfetch : (up.get st.net req.ProductID).1 = .response 200 (.ok p))
    (hstock : ¬ p.Quantity < req.Quantity)
    (hwrite : orderRepo.Create st.db (newOrder fl userID req p now1 now2) = (.ok o, db1)) :
    (CreateOrder fl up userID req now1 now2 st).1 = .ok o ∧
    (CreateOrder fl up userID req now1 now2 st).2.db = db1 ∧
    o ∈ (CreateOrder fl up userID req now1 now2 st).2.db.rows ∧
    o.Status = (newOrder fl userID req p now1 now2).Status := by
  have hco := createOrder_of_product fl up userID req now1 now2 st p hfetch
  have hsnd := getProductFromService_snd up req.ProductID st
  rw [if_neg hstock] at hco
  have hrc : repoCreate (newOrder fl userID req p now1 now2)
      (getProductFromService up req.ProductID st).2 =
      (.ok o, { (getProductFromService up req.ProductID st).2 with
          db := db1
          log := (getProductFromService up req.ProductID st).2.log ++
            [Call.repoCreate (newOrder fl userID req p now1 now2)] }) := by
    unfold repoCreate
    rw [hsnd]
    simp only [hwrite]
  rw [hrc] at hco
  simp only at hco
  have hmem : o ∈ db1.rows ∧ o.Status = (newOrder fl userID req p now1 now2).Status := by
    unfold orderRepo.Create at hwrite
    cases hf : st.db.fault with
    | some e => simp [hf] at hwrite
    | none =>
      simp only [hf, newOrder, if_true] at hwrite
      simp only [Prod.mk.injEq, Except.ok.injEq] at hwrite
      obtain ⟨h1, h2⟩ := hwrite
      subst h1 h2
      exact ⟨by simp, rfl⟩
  refine ⟨by rw [hco], ?_, ?_, hmem.2⟩
  · rw [hco]
    simp only [deductAndWarn_db]
  · rw [hco]
    simp only [deductAndWarn_db]
    exact hmem.1

/-- Witness of C5: the product service answers the `PATCH` with 401 and the order stands. -/
theorem createOrder_succeeds_after_write_witness :
    (CreateOrder Sample.exactOps Sample.readOnly 7 Sample.threeCOD 100 100
        ⟨Sample.emptyOrders, (), []⟩).1 =
      .ok { newOrder Sample.exactOps 7 Sample.threeCOD Sample.widget 100 100 with ID := 1 } ∧
    (CreateOrder Sample.exactOps Sample.readOnly 7 Sample.threeCOD 100 100
        ⟨Sample.emptyOrders, (), []⟩).2.log =
      [Call.httpGet 1,
       Call.repoCreate (newOrder Sample.exactOps 7 Sample.threeCOD Sample.widget 100 100),
       Call.httpGet 1, Call.httpPatch 1 2, Call.warn (.badStatus 401)] :=
  ⟨(createOrder_succeeds_after_write Sample.exactOps Sample.readOnly 7 Sample.threeCOD
      100 100 ⟨Sample.emptyOrders, (), []⟩ Sample.widget _ _ rfl (by decide) rfl).1,
    by rfl⟩

/-- A value of the 64-bit range is its own wrap. -/
theorem wrapInt64_of_isInt64 (x : Int) (h : IsInt64 x) : wrapInt64 x = x := by
  unfold IsInt64 at h
  unfold wrapInt64
  norm_num at h ⊢
  omega

/-- The quantity written back is the wrapped difference raised to zero; it is never
negative, and it is the exact `max 0 (c - k)` whenever `c - k` fits 64 bits. -/
theorem newQuantity_spec (c k : Int) :
    newQuantity c k = max 0 (wrapInt64 (c - k)) ∧ 0 ≤ newQuantity c k ∧
    (IsInt64 (c - k) → newQuantity c k = max 0 (c - k)) := by
  have h1 : newQuantity c k = max 0 (wrapInt64 (c - k)) := by
    unfold newQuantity
    simp only
    split_ifs with h
    · rw [max_eq_left (le_of_lt h)]
    · rw [max_eq_right (not_lt.mp h)]
  refine ⟨h1, ?_, ?_⟩
  · rw [h1]; exact le_max_left _ _
  · intro hfit
    rw [h1, wrapInt64_of_isInt64 _ hfit]

/-- Sending the `PATCH` logs nothing or exactly the one `PATCH`. -/
theorem sendStockPatch_log {W F : Type} (up : Upstream W F) (productID : Nat) (n : Int)
    (st : St W F) :
    (sendStockPatch up productID n st).2.log = st.log ∨
    (sendStockPatch up productID n st).2.log = st.log ++ [Call.httpPatch productID n] := by
  unfold sendStockPatch
  cases up.newRequestErr productID with
  | some cause => left; rfl
  | none =>
    right
    simp only
    rcases hp : up.patch st.net productID n with ⟨reply, net⟩
    cases reply with
    | transportErr cause => rfl
    | response status =>
      by_cases h200 : status = 200 <;> simp [h200]

/-- C6: every `PATCH` that `deductProductQuantity productID k` issues goes to that product
and writes the quantity computed from its own re-read `c` (the `GET` it makes when it
starts): `max 0` of Go's 64-bit `c - k`.  The written quantity is never negative, and it is
the exact `max 0 (c - k)` whenever `c - k` fits the 64-bit `int` (always the case for a
stock `c ≥ 0` and an ordered quantity `k ≥ 0`). -/
theorem deduct_patch_quantity {W F : Type} (up : Upstream W F) (productID : Nat) (k : Int)
    (st : St W F) (pid : Nat) (n : Int)
    (h : Call.httpPatch pid n ∈
      ((deductProductQuantity up productID k st).2.log).drop st.log.length) :
    pid = productID ∧
    ∃ c : Product F, (up.get st.net productID).1 = .response 200 (.ok c) ∧
      n = max 0 (wrapInt64 (c.Quantity - k)) ∧ 0 ≤ n ∧
      (IsInt64 (c.Quantity - k) → n = max 0 (c.Quantity - k)) := by
  have hsnd := getProductFromService_snd up productID st
  unfold deductProductQuantity at h
  rcases hg : getProductFromService up productID st with ⟨r, st1⟩
  rw [hg] at hsnd h
  simp only at hsnd
  cases r with
  | error err =>
    simp only at h
    rw [hsnd] at h
    simp at h
  | ok op =>
    cases op with
    | none =>
      simp only at h
      rw [hsnd] at h
      simp at h
    | some c =>
      have hfetch := (getProductFromService_some up productID st c).1 (by rw [hg])
      simp only at h
      have hn : pid = productID ∧ n = newQuantity c.Quantity k := by
        rcases sendStockPatch_log up productID (newQuantity c.Quantity k) st1 with hl | hl
        · rw [hl, hsnd] at h
          simp at h
        · rw [hl, hsnd] at h
          simp at h
          exact h
      obtain ⟨hpid, hnq⟩ := hn
      obtain ⟨h1, h2, h3⟩ := newQuantity_spec c.Quantity k
      exact ⟨hpid, c, hfetch, by rw [hnq, h1], by rw [hnq]; exact h2,
        fun hfit => by rw [hnq]; exact h3 hfit⟩

/-- Witness of C6: five in stock at the re-read, three ordered, two written. -/
theorem deduct_patch_quantity_witness :
    Call.httpPatch 1 2 ∈
      ((deductProductQuantity Sample.openCatalog 1 3
        ⟨Sample.emptyOrders, 5, []⟩).2.log).drop ([] : List (Call ℚ)).length ∧
    (1 = 1 ∧
    ∃ c : Product ℚ, (Sample.openCatalog.get 5 1).1 = .response 200 (.ok c) ∧
      (2 : Int) = max 0 (wrapInt64 (c.Quantity - 3)) ∧ (0 : Int) ≤ 2 ∧
      (IsInt64 (c.Quantity - 3) → (2 : Int) = max 0 (c.Quantity - 3))) :=
  have h : Call.httpPatch 1 2 ∈
      ((deductProductQuantity Sample.openCatalog 1 3
        ⟨Sample.emptyOrders, 5, []⟩).2.log).drop ([] : List (Call ℚ)).length := by
    decide
  ⟨h, deduct_patch_quantity Sample.openCatalog 1 3 ⟨Sample.emptyOrders, 5, []⟩ 1 2 h⟩

end OrderService

namespace Composed

open OrderService

/-- The product service answers the order service's `PATCH` with 401 and changes nothing:
the request has no `Authorization` header and the route is behind `JWTAuth`. -/
theorem upstream_patch {F : Type} (fl : Float64Ops F)
    (parse : String → Option ProductService.Claims) (now stamp : Nat)
    (s : ProductService.ProductStore F) (productID : Nat) (quantity : Int) :
    (upstream fl parse now stamp).patch s productID quantity = (.response 401, s) := by
  simp [upstream, ProductService.routePatchStock, ProductService.JWTAuth]

/-- The `GET` of a product changes nothing in the product service. -/
theorem upstream_get_snd {F : Type} (fl : Float64Ops F)
    (parse : String → Option ProductService.Claims) (now stamp : Nat)
    (s : ProductService.ProductStore F) (productID : Nat) :
    ((upstream fl parse now stamp).get s productID).2 = s := rfl

/-- In the composed system no `CreateOrder` call ever changes the `products` table. -/
theorem createOrder_leaves_catalog {F : Type} (fl : Float64Ops F)
    (parse : String → Option ProductService.Claims) (now stamp : Nat) (userID : Nat)
    (req : CreateOrderRequest) (now1 now2 : Nat) (st : St (ProductService.ProductStore F) F) :
    (CreateOrder fl (upstream fl parse now stamp) userID req now1 now2 st).2.net = st.net := by
  have hsnd := fun st0 => getProductFromService_snd (upstream fl parse now stamp) req.ProductID st0
  have hdeduct : ∀ st0 : St (ProductService.ProductStore F) F,
      (deductAndWarn (upstream fl parse now stamp) req.ProductID req.Quantity st0).net =
        st0.net := by
    intro st0
    have h0 := hsnd st0
    unfold deductAndWarn deductProductQuantity
    rcases hg : getProductFromService (upstream fl parse now stamp) req.ProductID st0
      with ⟨r, st1⟩
    rw [hg] at h0
    simp only at h0
    subst h0
    cases r with
    | error err => rfl
    | ok op =>
      cases op with
      | none => rfl
      | some product =>
        simp only [sendStockPatch, upstream_patch]
        rfl
  unfold CreateOrder
  have h0 := hsnd st
  rcases hg : getProductFromService (upstream fl parse now stamp) req.ProductID st with ⟨r, st1⟩
  rw [hg] at h0
  simp only at h0
  subst h0
  cases r with
  | error err => rfl
  | ok op =>
    cases op with
    | none => rfl
    | some product =>
      simp only
      split_ifs with hq
      · rfl
      · unfold repoCreate
        rcases orderRepo.Create st.db (newOrder fl userID req product now1 now2) with ⟨rc, db1⟩
        cases rc with
        | error e => rfl
        | ok o =>
          simp only [hdeduct]
          rfl

/-- C7 (evaluation at the scenario of the spec): with five widgets in the catalog, user 7
orders three, cash on delivery.  The order is created with total 30.0 and status `Pending`,
the order service sends `PATCH /products/1/stock` with quantity 2, the product service
answers 401, and the stored quantity is still 5, whatever tokens the product service would
accept. -/
theorem scenario_stock_not_decremented (parse : String → Option ProductService.Claims) :
    (CreateOrder Sample.exactOps (upstream Sample.exactOps parse 200 200) 7 Sample.threeCOD
        100 100 ⟨Sample.emptyOrders, Sample.catalog, []⟩).1 = .ok Sample.threeCODOrder ∧
    Sample.threeCODOrder.TotalAmount = 30 ∧
    Sample.threeCODOrder.Status = "Pending" ∧
    quantityOf Sample.catalog 1 = some 5 ∧
    quantityOf (CreateOrder Sample.exactOps (upstream Sample.exactOps parse 200 200) 7
        Sample.threeCOD 100 100 ⟨Sample.emptyOrders, Sample.catalog, []⟩).2.net 1 = some 5 ∧
    (CreateOrder Sample.exactOps (upstream Sample.exactOps parse 200 200) 7 Sample.threeCOD
        100 100 ⟨Sample.emptyOrders, Sample.catalog, []⟩).2.log =
      [Call.httpGet 1,
       Call.repoCreate (newOrder Sample.exactOps 7 Sample.threeCOD Sample.widget 100 100),
       Call.httpGet 1, Call.httpPatch 1 2, Call.warn (.badStatus 401)] := by
  refine ⟨?_, rfl, rfl, rfl, ?_, ?_⟩
  · simp [CreateOrder, getProductFromService, upstream, ProductService.routeGetProduct,
      ProductService.ProductHandler.GetProduct, ProductService.parseID,
      ProductService.GetProductByID, ProductService.productRepo.FindByID, Sample.catalog,
      Sample.catalogWidget, decodeProduct, Sample.threeCOD,
      repoCreate, newOrder, orderRepo.Create, Sample.emptyOrders,
      Sample.exactOps, Sample.threeCODOrder, PaymentOnline, StatusPending]
    norm_num
  · rw [createOrder_leaves_catalog]
    rfl
  · simp [CreateOrder, getProductFromService, upstream, ProductService.routeGetProduct,
      ProductService.ProductHandler.GetProduct, ProductService.parseID,
      ProductService.GetProductByID, ProductService.productRepo.FindByID, Sample.catalog,
      Sample.catalogWidget, decodeProduct, Sample.threeCOD,
      repoCreate, newOrder, orderRepo.Create, Sample.emptyOrders,
      Sample.exactOps, PaymentOnline, StatusPending, deductAndWarn, deductProductQuantity,
      sendStockPatch, ProductService.routePatchStock, ProductService.JWTAuth, warn,
      Sample.widget, newQuantity, wrapInt64]

end Composed

namespace OrderService

/-! ## The step machine and the oversell race -/

/-- The fetch on a 200 reply whose body decodes. -/
theorem getProductFromService_of_get {W F : Type} (up : Upstream W F) (productID : Nat)
    (st : St W F) (p : Product F) (net : W)
    (h : up.get st.net productID = (.response 200 (.ok p), net)) :
    getProductFromService up productID st =
      (.ok (some p), ⟨st.db, net, st.log ++ [Call.httpGet productID]⟩) := by
  unfold getProductFromService
  rw [h]
  simp

/-- Run alone, the four steps of an invocation are `CreateOrder`. -/
theorem Run.step_four_eq_createOrder {W F : Type} (fl : Float64Ops F) (up : Upstream W F)
    (inv : Invocation) (st : St W F) :
    Run.step fl up inv (Run.step fl up inv (Run.step fl up inv
        (Run.step fl up inv (.start, st)))) =
      (.done (CreateOrder fl up inv.userID inv.req inv.now1 inv.now2 st).1,
        (CreateOrder fl up inv.userID inv.req inv.now1 inv.now2 st).2) := by
  unfold CreateOrder
  simp only [Run.step]
  rcases hg : getProductFromService up inv.req.ProductID st with ⟨r, st1⟩
  cases r with
  | error err => simp [Run.step]
  | ok op =>
    cases op with
    | none => simp [Run.step]
    | some p =>
      simp only
      by_cases hq : p.Quantity < inv.req.Quantity
      · simp [hq, Run.step]
      · simp only [hq, if_false, Run.step]
        rcases hc : repoCreate (newOrder fl inv.userID inv.req p inv.now1 inv.now2) st1
          with ⟨rc, st2⟩
        cases rc with
        | error e => simp [Run.step]
        | ok o =>
          simp only [Run.step, deductAndWarn, deductProductQuantity]
          rcases hg2 : getProductFromService up inv.req.ProductID st2 with ⟨r2, st3⟩
          cases r2 with
          | error err => simp [Run.step]
          | ok op2 =>
            cases op2 with
            | none => simp [Run.step, warn]
            | some p2 => simp [Run.step]

/-- Step 1 and 2 of an invocation that reads enough stock. -/
theorem Run.step_start {W F : Type} (fl : Float64Ops F) (up : Upstream W F)
    (inv : Invocation) (st : St W F) (p : Product F) (net : W)
    (hget : up.get st.net inv.req.ProductID = (.response 200 (.ok p), net))
    (hq : ¬ p.Quantity < inv.req.Quantity) :
    Run.step fl up inv (.start, st) =
      (.checked p, ⟨st.db, net, st.log ++ [Call.httpGet inv.req.ProductID]⟩) := by
  simp [Run.step, getProductFromService_of_get up _ st p net hget, hq]

/-- Step 5 of an invocation on a working table. -/
theorem Run.step_checked {W F : Type} (fl : Float64Ops F) (up : Upstream W F)
    (inv : Invocation) (st : St W F) (p : Product F) (hdb : st.db.fault = none) :
    Run.step fl up inv (.checked p, st) =
      (.created { newOrder fl inv.userID inv.req p inv.now1 inv.now2 with
                    ID := st.db.lastID + 1 },
        ⟨{ st.db with
            rows := st.db.rows ++ [{ newOrder fl inv.userID inv.req p inv.now1 inv.now2 with
                                      ID := st.db.lastID + 1 }]
            lastID := st.db.lastID + 1 },
          st.net,
          st.log ++ [Call.repoCreate (newOrder fl inv.userID inv.req p inv.now1 inv.now2)]⟩) := by
  simp [Run.step, repoCreate, orderRepo.Create, hdb, newOrder]

/-- Step 6 of an invocation: within two steps it has returned its order, and the order table
is as it was, whatever the product service answers. -/
theorem Run.step_created {W F : Type} (fl : Float64Ops F) (up : Upstream W F)
    (inv : Invocation) (st : St W F) (o : Order F) :
    ∃ st1 : St W F,
      Run.step fl up inv (Run.step fl up inv (.created o, st)) = (.done (.ok o), st1) ∧
      st1.db = st.db := by
  have hsnd := getProductFromService_snd up inv.req.ProductID st
  simp only [Run.step]
  rcases hg : getProductFromService up inv.req.ProductID st with ⟨r, st1⟩
  rw [hg] at hsnd
  simp only at hsnd
  cases r with
  | error err =>
    refine ⟨_, rfl, ?_⟩
    rw [warn_db, hsnd]
  | ok op =>
    cases op with
    | none => exact ⟨_, rfl, by rw [hsnd]⟩
    | some p =>
      refine ⟨_, rfl, ?_⟩
      rw [warn_db, sendStockPatch_db, hsnd]

/-- A scheduling decision for the first invocation. -/
theorem Sys.step_first {W F : Type} (fl : Float64Ops F) (up : Upstream W F)
    (a b : Invocation) (s : Sys W F) :
    Sys.step fl up a b s true =
      ⟨(Run.step fl up a (s.runA, s.st)).1, s.runB, (Run.step fl up a (s.runA, s.st)).2⟩ := by
  simp only [Sys.step, if_true]

/-- A scheduling decision for the second invocation. -/
theorem Sys.step_second {W F : Type} (fl : Float64Ops F) (up : Upstream W F)
    (a b : Invocation) (s : Sys W F) :
    Sys.step fl up a b s false =
      ⟨s.runA, (Run.step fl up b (s.runB, s.st)).1, (Run.step fl up b (s.runB, s.st)).2⟩ := by
  simp [Sys.step]

/-- C8 (oversell race): two invocations order `k` each of the same product, whose stock `q`
satisfies `k ≤ q < 2k`, against a working order table and any product service that answers
the first read with stock `q`.  In the interleaving `raceSchedule` (both step-1 reads, then
the first invocation's insert, re-read and `PATCH`, then the second's) both invocations
return an order for `k`, both orders are in the table under different keys, and the
committed quantity `2k` exceeds `q`. -/
theorem oversell_race {W F : Type} (fl : Float64Ops F) (up : Upstream W F)
    (a b : Invocation) (st : St W F) (p : Product F) (q k : Int)
    (hsame : b.req.ProductID = a.req.ProductID)
    (hka : a.req.Quantity = k) (hkb : b.req.Quantity = k)
    (hq : p.Quantity = q) (hk : k ≤ q) (hover : q < 2 * k)
    (hread : up.get st.net a.req.ProductID = (.response 200 (.ok p), st.net))
    (hdb : st.db.fault = none) :
    ∃ oa ob : Order F,
      (Sys.exec fl up a b st raceSchedule).runA = .done (.ok oa) ∧
      (Sys.exec fl up a b st raceSchedule).runB = .done (.ok ob) ∧
      oa.UserID = a.userID ∧ ob.UserID = b.userID ∧
      oa.ProductID = a.req.ProductID ∧ ob.ProductID = a.req.ProductID ∧
      oa.Quantity = k ∧ ob.Quantity = k ∧
      (Sys.exec fl up a b st raceSchedule).st.db.rows = st.db.rows ++ [oa, ob] ∧
      oa.ID ≠ ob.ID ∧
      q < oa.Quantity + ob.Quantity := by
  have hqa : ¬ p.Quantity < a.req.Quantity := by rw [hq, hka]; exact not_lt.mpr hk
  have hqb : ¬ p.Quantity < b.req.Quantity := by rw [hq, hkb]; exact not_lt.mpr hk
  have e1 := Run.step_start fl up a st p st.net hread hqa
  have e2 := Run.step_start fl up b ⟨st.db, st.net, st.log ++ [Call.httpGet a.req.ProductID]⟩
    p st.net (by rw [hsame]; exact hread) hqb
  have e3 := Run.step_checked fl up a
    ⟨st.db, st.net, st.log ++ [Call.httpGet a.req.ProductID] ++ [Call.httpGet b.req.ProductID]⟩
    p hdb
  obtain ⟨st5, e45, hdb5⟩ := Run.step_created fl up a
    ⟨{ st.db with
        rows := st.db.rows ++ [{ newOrder fl a.userID a.req p a.now1 a.now2 with
                                  ID := st.db.lastID + 1 }]
        lastID := st.db.lastID + 1 },
      st.net,
      st.log ++ [Call.httpGet a.req.ProductID] ++ [Call.httpGet b.req.ProductID] ++
        [Call.repoCreate (newOrder fl a.userID a.req p a.now1 a.now2)]⟩
    { newOrder fl a.userID a.req p a.now1 a.now2 with ID := st.db.lastID + 1 }
  have hf5 : st5.db.fault = none := by rw [hdb5]; exact hdb
  have e6 := Run.step_checked fl up b st5 p hf5
  obtain ⟨st8, e78, hdb8⟩ := Run.step_created fl up b
    ⟨{ st5.db with
        rows := st5.db.rows ++ [{ newOrder fl b.userID b.req p b.now1 b.now2 with
                                   ID := st5.db.lastID + 1 }]
        lastID := st5.db.lastID + 1 },
      st5.net,
      st5.log ++ [Call.repoCreate (newOrder fl b.userID b.req p b.now1 b.now2)]⟩
    { newOrder fl b.userID b.req p b.now1 b.now2 with ID := st5.db.lastID + 1 }
  have hexec : Sys.exec fl up a b st raceSchedule =
      ⟨.done (.ok { newOrder fl a.userID a.req p a.now1 a.now2 with ID := st.db.lastID + 1 }),
       .done (.ok { newOrder fl b.userID b.req p b.now1 b.now2 with ID := st5.db.lastID + 1 }),
       st8⟩ := by
    simp only [Sys.exec, raceSchedule, List.foldl, Sys.step_first, Sys.step_second, e1, e2, e3,
      Prod.mk.eta, e45, e6, e78]
  refine ⟨_, _, by rw [hexec], by rw [hexec], rfl, rfl, rfl, ?_, ?_, ?_, ?_, ?_, ?_⟩
  · simp only [newOrder]; exact hsame
  · simp only [newOrder]; exact hka
  · simp only [newOrder]; exact hkb
  · rw [hexec]
    simp only [hdb8, hdb5, List.append_assoc, List.singleton_append]
  · simp only [hdb5]
    omega
  · simp only [newOrder, hka, hkb]
    omega

/-- Witness of C8: five in stock, two users order three each; the catalog accepts the
writes, ends at zero, and six are committed. -/
theorem oversell_race_witness :
    (Sys.exec Sample.exactOps Sample.openCatalog Sample.firstBuyer Sample.secondBuyer
        ⟨Sample.emptyOrders, 5, []⟩ raceSchedule).st.net = 0 ∧
    ∃ oa ob : Order ℚ,
      (Sys.exec Sample.exactOps Sample.openCatalog Sample.firstBuyer Sample.secondBuyer
        ⟨Sample.emptyOrders, 5, []⟩ raceSchedule).runA = .done (.ok oa) ∧
      (Sys.exec Sample.exactOps Sample.openCatalog Sample.firstBuyer Sample.secondBuyer
        ⟨Sample.emptyOrders, 5, []⟩ raceSchedule).runB = .done (.ok ob) ∧
      oa.UserID = 7 ∧ ob.UserID = 8 ∧
      oa.ProductID = 1 ∧ ob.ProductID = 1 ∧
      oa.Quantity = 3 ∧ ob.Quantity = 3 ∧
      (Sys.exec Sample.exactOps Sample.openCatalog Sample.firstBuyer Sample.secondBuyer
        ⟨Sample.emptyOrders, 5, []⟩ raceSchedule).st.db.rows = [] ++ [oa, ob] ∧
      oa.ID ≠ ob.ID ∧
      (5 : Int) < oa.Quantity + ob.Quantity :=
  ⟨by decide,
    oversell_race Sample.exactOps Sample.openCatalog Sample.firstBuyer Sample.secondBuyer
      ⟨Sample.emptyOrders, 5, []⟩ { Sample.widget with Quantity := 5 } 5 3 rfl rfl rfl rfl
      (by decide) (by decide) rfl rfl⟩

/-! ## The handlers -/

/-- The handler turns every error of `CreateOrder` into a 400 carrying its message. -/
theorem handler_createOrder_of_error {W F : Type} (fl : Float64Ops F) (up : Upstream W F)
    (c : Context) (decoded : Except String CreateOrderRequest) (req : CreateOrderRequest)
    (userID : Nat) (now1 now2 : Nat) (st : St W F) (e : Err)
    (hbind : bindCreateOrderRequest decoded = .ok req) (huser : GetUserID c = .ok userID)
    (herr : (CreateOrder fl up userID req now1 now2 st).1 = .error e) :
    (OrderHandler.CreateOrder fl up c decoded now1 now2 st).1 = ⟨400, .error e.Error⟩ := by
  simp only [OrderHandler.CreateOrder, hbind, huser]
  rcases hc : CreateOrder fl up userID req now1 now2 st with ⟨r, st1⟩
  rw [hc] at herr
  simp only at herr
  subst herr
  rfl

/-- C9 as stated fails: with the product service unreachable the handler answers 400, the
status it also gives a request without quantity and a request for more than the stock. -/
theorem createOrder_handler_status_not_distinct :
    (OrderHandler.CreateOrder Sample.exactOps Sample.down Sample.user7 (.ok Sample.threeCOD)
        100 100 ⟨Sample.emptyOrders, (), []⟩).1 =
      ⟨400, .error "failed to fetch product: product service unreachable: connection refused"⟩ ∧
    (OrderHandler.CreateOrder Sample.exactOps Sample.down Sample.user7 (.ok Sample.noQuantity)
        100 100 ⟨Sample.emptyOrders, (), []⟩).1.status = 400 ∧
    (OrderHandler.CreateOrder Sample.exactOps Sample.readOnly Sample.user7 (.ok Sample.sixCOD)
        100 100 ⟨Sample.emptyOrders, (), []⟩).1.status = 400 := by
  refine ⟨?_, ?_, ?_⟩ <;> decide

/-- The result of `CreateOrder` for each reply of the product service that yields no
product. -/
theorem createOrder_of_failed_fetch {W F : Type} (fl : Float64Ops F) (up : Upstream W F)
    (userID : Nat) (req : CreateOrderRequest) (now1 now2 : Nat) (st : St W F) :
    (∀ body, (up.get st.net req.ProductID).1 = .response 404 body →
      (CreateOrder fl up userID req now1 now2 st).1 = .error .productNotFound) ∧
    (∀ cause, (up.get st.net req.ProductID).1 = .transportErr cause →
      (CreateOrder fl up userID req now1 now2 st).1 = .error (.fetch (.unreachable cause))) ∧
    (∀ status body, (up.get st.net req.ProductID).1 = .response status body →
      status ≠ 404 → status ≠ 200 →
      (CreateOrder fl up userID req now1 now2 st).1 = .error (.fetch (.badStatus status))) ∧
    (∀ cause, (up.get st.net req.ProductID).1 = .response 200 (.error cause) →
      (CreateOrder fl up userID req now1 now2 st).1 = .error (.fetch (.decode cause))) := by
  refine ⟨?_, ?_, ?_, ?_⟩
  · intro body h
    unfold CreateOrder getProductFromService
    rcases hg : up.get st.net req.ProductID with ⟨reply, net⟩
    rw [hg] at h
    simp only at h
    subst h
    simp
  · intro cause h
    unfold CreateOrder getProductFromService
    rcases hg : up.get st.net req.ProductID with ⟨reply, net⟩
    rw [hg] at h
    simp only at h
    subst h
    rfl
  · intro status body h h404 h200
    unfold CreateOrder getProductFromService
    rcases hg : up.get st.net req.ProductID with ⟨reply, net⟩
    rw [hg] at h
    simp only at h
    subst h
    simp [h404, h200]
  · intro cause h
    unfold CreateOrder getProductFromService
    rcases hg : up.get st.net req.ProductID with ⟨reply, net⟩
    rw [hg] at h
    simp only at h
    subst h
    simp

/-- C9 as amended: a step-1 failure reaches the client as 400 with the failure's message.
A 404 of the catalog gives `product not found`; an unreachable catalog, a status other than
200 and 404, and a body that does not decode give `failed to fetch product: ` followed by
`product service unreachable: ` and the transport error, by `product service returned status `
and the status, and by `failed to decode product response: ` and the decoder's error.  400
is also the status of every request-validation failure and of insufficient stock, so only
the message tells them apart. -/
theorem createOrder_handler_fetch_failure {W F : Type} (fl : Float64Ops F)
    (up : Upstream W F) (c : Context) (decoded : Except String CreateOrderRequest)
    (req : CreateOrderRequest) (userID : Nat) (now1 now2 : Nat) (st : St W F)
    (hbind : bindCreateOrderRequest decoded = .ok req) (huser : GetUserID c = .ok userID) :
    (∀ body, (up.get st.net req.ProductID).1 = .response 404 body →
      (OrderHandler.CreateOrder fl up c decoded now1 now2 st).1 =
        ⟨400, .error "product not found"⟩) ∧
    (∀ cause, (up.get st.net req.ProductID).1 = .transportErr cause →
      (OrderHandler.CreateOrder fl up c decoded now1 now2 st).1 =
        ⟨400, .error ("failed to fetch product: " ++
          ("product service unreachable: " ++ cause))⟩) ∧
    (∀ status body, (up.get st.net req.ProductID).1 = .response status body →
      status ≠ 404 → status ≠ 200 →
      (OrderHandler.CreateOrder fl up c decoded now1 now2 st).1 =
        ⟨400, .error ("failed to fetch product: " ++
          ("product service returned status " ++ toString status))⟩) ∧
    (∀ cause, (up.get st.net req.ProductID).1 = .response 200 (.error cause) →
      (OrderHandler.CreateOrder fl up c decoded now1 now2 st).1 =
        ⟨400, .error ("failed to fetch product: " ++
          ("failed to decode product response: " ++ cause))⟩) ∧
    ((up.get st.net req.ProductID).1.yieldsNoProduct →
      ∃ msg, (OrderHandler.CreateOrder fl up c decoded now1 now2 st).1 =
          ⟨400, .error msg⟩ ∧
        (msg = "product not found" ∨ ∃ rest, msg = "failed to fetch product: " ++ rest)) ∧
    (∀ (decoded1 : Except String CreateOrderRequest) (msg : String),
        bindCreateOrderRequest decoded1 = .error msg →
        (OrderHandler.CreateOrder fl up c decoded1 now1 now2 st).1 = ⟨400, .error msg⟩) ∧
    (∀ (up1 : Upstream W F) (p : Product F),
        (up1.get st.net req.ProductID).1 = .response 200 (.ok p) →
        p.Quantity < req.Quantity →
        (OrderHandler.CreateOrder fl up1 c decoded now1 now2 st).1.status = 400) := by
  obtain ⟨k404, kdown, kstatus, kdecode⟩ :=
    createOrder_of_failed_fetch fl up userID req now1 now2 st
  have h404 : ∀ body, (up.get st.net req.ProductID).1 = .response 404 body →
      (OrderHandler.CreateOrder fl up c decoded now1 now2 st).1 =
        ⟨400, .error "product not found"⟩ := fun body h =>
    handler_createOrder_of_error fl up c decoded req userID now1 now2 st _ hbind huser
      (k404 body h)
  have hdown : ∀ cause, (up.get st.net req.ProductID).1 = .transportErr cause →
      (OrderHandler.CreateOrder fl up c decoded now1 now2 st).1 =
        ⟨400, .error ("failed to fetch product: " ++
          ("product service unreachable: " ++ cause))⟩ := fun cause h =>
    handler_createOrder_of_error fl up c decoded req userID now1 now2 st _ hbind huser
      (kdown cause h)
  have hstatus : ∀ status body, (up.get st.net req.ProductID).1 = .response status body →
      status ≠ 404 → status ≠ 200 →
      (OrderHandler.CreateOrder fl up c decoded now1 now2 st).1 =
        ⟨400, .error ("failed to fetch product: " ++
          ("product service returned status " ++ toString status))⟩ :=
    fun status body h h1 h2 =>
    handler_createOrder_of_error fl up c decoded req userID now1 now2 st _ hbind huser
      (kstatus status body h h1 h2)
  have hdecode : ∀ cause, (up.get st.net req.ProductID).1 = .response 200 (.error cause) →
      (OrderHandler.CreateOrder fl up c decoded now1 now2 st).1 =
        ⟨400, .error ("failed to fetch product: " ++
          ("failed to decode product response: " ++ cause))⟩ := fun cause h =>
    handler_createOrder_of_error fl up c decoded req userID now1 now2 st _ hbind huser
      (kdecode cause h)
  refine ⟨h404, hdown, hstatus, hdecode, ?_, ?_, ?_⟩
  · intro h
    cases hr : (up.get st.net req.ProductID).1 with
    | transportErr cause => exact ⟨_, hdown cause hr, Or.inr ⟨_, rfl⟩⟩
    | response status body =>
      rw [hr] at h
      by_cases h1 : status = 404
      · subst h1
        exact ⟨_, h404 body hr, Or.inl rfl⟩
      · by_cases h2 : status = 200
        · subst h2
          rcases h with h | ⟨cause, h⟩
          · exact absurd rfl h
          · subst h
            exact ⟨_, hdecode cause hr, Or.inr ⟨_, rfl⟩⟩
        · exact ⟨_, hstatus status body hr h1 h2, Or.inr ⟨_, rfl⟩⟩
  · intro decoded1 msg hb
    simp only [OrderHandler.CreateOrder, hb]
  · intro up1 p hfetch hq
    have hco := createOrder_of_product fl up1 userID req now1 now2 st p hfetch
    rw [if_pos hq] at hco
    rw [handler_createOrder_of_error fl up1 c decoded req userID now1 now2 st
      (.insufficientStock p.Quantity req.Quantity) hbind huser (by rw [hco])]

/-- Witness of C9 as amended: with the product service down the client reads the transport
error behind both prefixes; for a product the catalog does not hold, which it answers with
404, the client reads `product not found`. -/
theorem createOrder_handler_fetch_failure_witness :
    bindCreateOrderRequest (.ok Sample.threeCOD) = .ok Sample.threeCOD ∧
    GetUserID Sample.user7 = .ok 7 ∧
    (OrderHandler.CreateOrder Sample.exactOps Sample.down Sample.user7
        (.ok Sample.threeCOD) 100 100 ⟨Sample.emptyOrders, (), []⟩).1 =
      ⟨400, .error ("failed to fetch product: " ++
        ("product service unreachable: " ++ "connection refused"))⟩ ∧
    (OrderHandler.CreateOrder Sample.exactOps Sample.readOnly Sample.user7
        (.ok { Sample.threeCOD with ProductID := 2 }) 100 100
        ⟨Sample.emptyOrders, (), []⟩).1 = ⟨400, .error "product not found"⟩ :=
  ⟨rfl, rfl,
    (createOrder_handler_fetch_failure Sample.exactOps Sample.down Sample.user7
      (.ok Sample.threeCOD) Sample.threeCOD 7 100 100 ⟨Sample.emptyOrders, (), []⟩
      rfl rfl).2.1 "connection refused" rfl,
    (createOrder_handler_fetch_failure Sample.exactOps Sample.readOnly Sample.user7
      (.ok { Sample.threeCOD with ProductID := 2 }) { Sample.threeCOD with ProductID := 2 }
      7 100 100 ⟨Sample.emptyOrders, (), []⟩ rfl rfl).1 (.error "no product member") rfl⟩

/-- C10: on a working order table an authenticated caller `(id, role)` gets a 200 whose list
is sorted by `created_at`, newest first, and whose `total` is the length of the list.  For
the roles `saler` and `superadmin` the list holds all orders; for every other role it holds
exactly the orders whose `user_id` is the caller's id. -/
theorem getOrders_spec {F : Type} (db : OrderStore F) (id : Nat) (role : String)
    (hdb : db.fault = none) :
    ∃ orders : List (Order F),
      OrderHandler.GetOrders ⟨some id, some role⟩ db = ⟨200, .list orders.length orders⟩ ∧
      orders.Pairwise (fun a b => b.CreatedAt ≤ a.CreatedAt) ∧
      (role = "saler" ∨ role = "superadmin" → orders.Perm db.rows) ∧
      (¬ (role = "saler" ∨ role = "superadmin") →
        orders.Perm (db.rows.filter (fun o => o.UserID == id)) ∧
        ∀ o, o ∈ orders ↔ o ∈ db.rows ∧ o.UserID = id) := by
  by_cases hrole : role = "saler" ∨ role = "superadmin"
  · refine ⟨db.rows.insertionSort newerFirst, ?_, List.sorted_insertionSort newerFirst _,
      fun _ => List.perm_insertionSort newerFirst _, fun hn => absurd hrole hn⟩
    simp [OrderHandler.GetOrders, GetRole, hrole, GetAllOrders, orderRepo.FindAll, hdb,
      Except.mapError]
  · refine ⟨(db.rows.filter (fun o => o.UserID == id)).insertionSort newerFirst, ?_,
      List.sorted_insertionSort newerFirst _, fun h => absurd h hrole,
      fun _ => ⟨List.perm_insertionSort newerFirst _, ?_⟩⟩
    · simp [OrderHandler.GetOrders, GetRole, GetUserID, hrole, GetOrdersByUserID,
        orderRepo.FindByUserID, hdb, Except.mapError]
    · intro o
      rw [(List.perm_insertionSort newerFirst _).mem_iff]
      simp

/-- Witness of C10: user 7 sees the one order of user 7 out of two. -/
theorem getOrders_spec_witness :
    Sample.twoOrders.fault = none ∧
    OrderHandler.GetOrders Sample.user7 Sample.twoOrders =
      ⟨200, .list 1 [{ Sample.threeCODOrder with ID := 2 }]⟩ ∧
    ∃ orders : List (Order ℚ),
      OrderHandler.GetOrders ⟨some 7, some "user"⟩ Sample.twoOrders =
        ⟨200, .list orders.length orders⟩ ∧
      orders.Pairwise (fun a b => b.CreatedAt ≤ a.CreatedAt) ∧
      ("user" = "saler" ∨ "user" = "superadmin" → orders.Perm Sample.twoOrders.rows) ∧
      (¬ ("user" = "saler" ∨ "user" = "superadmin") →
        orders.Perm (Sample.twoOrders.rows.filter (fun o => o.UserID == 7)) ∧
        ∀ o, o ∈ orders ↔ o ∈ Sample.twoOrders.rows ∧ o.UserID = 7) :=
  ⟨rfl, by decide, getOrders_spec Sample.twoOrders 7 "user" rfl⟩

/-! ## Reading one order and changing its status -/

/-- On a working table the lookup by key finds nothing exactly when no row has the key. -/
theorem getOrderByID_notFound_iff {F : Type} (db : OrderStore F) (id : Nat)
    (hdb : db.fault = none) :
    GetOrderByID db id = .error .orderNotFound ↔ ∀ o ∈ db.rows, o.ID ≠ id := by
  unfold GetOrderByID orderRepo.FindByID
  simp only [hdb]
  cases hf : db.rows.find? (fun r => r.ID == id) with
  | none =>
    simp only [true_iff]
    intro o ho
    have := List.find?_eq_none.mp hf o ho
    simpa using this
  | some o =>
    simp only [false_iff, reduceCtorEq]
    intro hall
    have hmem := List.mem_of_find?_eq_some hf
    have hkey := List.find?_some hf
    exact hall o hmem (by simpa using hkey)

/-- On a working table the lookup by key returns the first row with that key. -/
theorem getOrderByID_ok_iff {F : Type} (db : OrderStore F) (id : Nat) (o : Order F)
    (hdb : db.fault = none) :
    GetOrderByID db id = .ok o ↔ db.rows.find? (fun r => r.ID == id) = some o := by
  unfold GetOrderByID orderRepo.FindByID
  simp only [hdb]
  cases hf : db.rows.find? (fun r => r.ID == id) with
  | none => simp
  | some o1 => simp

/-- C11: on a working table, for a key that parses and an authenticated caller
`(callerID, role)`: `GetOrder` answers 404 when no order has the key; when the order exists
it answers 403 if the role is neither `saler` nor `superadmin` and the order belongs to
another user, and 200 with the order in every other case.  A 200 therefore always carries
an order of the caller or goes to a privileged role. -/
theorem getOrder_spec {F : Type} (db : OrderStore F) (idParam : Option Nat)
    (id callerID : Nat) (role : String) (hdb : db.fault = none)
    (hid : parseID idParam = some id) :
    ((∀ o ∈ db.rows, o.ID ≠ id) →
      OrderHandler.GetOrder ⟨some callerID, some role⟩ idParam db =
        ⟨404, .error "order not found"⟩) ∧
    (∀ o, db.rows.find? (fun r => r.ID == id) = some o →
      ((role ≠ "saler" ∧ role ≠ "superadmin" ∧ o.UserID ≠ callerID) →
        OrderHandler.GetOrder ⟨some callerID, some role⟩ idParam db =
          ⟨403, .error "you can only view your own orders"⟩) ∧
      (¬ (role ≠ "saler" ∧ role ≠ "superadmin" ∧ o.UserID ≠ callerID) →
        OrderHandler.GetOrder ⟨some callerID, some role⟩ idParam db = ⟨200, .order o⟩)) ∧
    (∀ o, OrderHandler.GetOrder ⟨some callerID, some role⟩ idParam db = ⟨200, .order o⟩ →
      o ∈ db.rows ∧ o.ID = id ∧
      (role = "saler" ∨ role = "superadmin" ∨ o.UserID = callerID)) := by
  refine ⟨?_, ?_, ?_⟩
  · intro hnone
    have h := (getOrderByID_notFound_iff db id hdb).2 hnone
    simp only [OrderHandler.GetOrder, hid, h]
    rfl
  · intro o hfind
    have h := (getOrderByID_ok_iff db id o hdb).2 hfind
    constructor
    · intro hdeny
      simp only [OrderHandler.GetOrder, hid, h, GetUserID, GetRole]
      rw [if_pos hdeny]
    · intro hallow
      simp only [OrderHandler.GetOrder, hid, h, GetUserID, GetRole]
      rw [if_neg hallow]
  · intro o hresp
    simp only [OrderHandler.GetOrder, hid] at hresp
    cases hg : GetOrderByID db id with
    | error err => simp [hg] at hresp
    | ok o1 =>
      have hfind := (getOrderByID_ok_iff db id o1 hdb).1 hg
      simp only [hg, GetUserID, GetRole] at hresp
      by_cases hdeny : role ≠ "saler" ∧ role ≠ "superadmin" ∧ o1.UserID ≠ callerID
      · rw [if_pos hdeny] at hresp
        simp at hresp
      · rw [if_neg hdeny] at hresp
        simp only [Response.mk.injEq, Body.order.injEq, true_and] at hresp
        subst hresp
        refine ⟨List.mem_of_find?_eq_some hfind, by simpa using List.find?_some hfind, ?_⟩
        by_contra hcon
        push_neg at hcon
        exact hdeny hcon

/-- Witness of C11: user 7 reads order 2, which is theirs, and is refused order 1. -/
theorem getOrder_spec_witness :
    OrderHandler.GetOrder Sample.user7 (some 2) Sample.twoOrders =
      ⟨200, .order { Sample.threeCODOrder with ID := 2 }⟩ ∧
    OrderHandler.GetOrder Sample.user7 (some 1) Sample.twoOrders =
      ⟨403, .error "you can only view your own orders"⟩ ∧
    ((∀ o ∈ Sample.twoOrders.rows, o.ID ≠ 3) →
      OrderHandler.GetOrder ⟨some 7, some "user"⟩ (some 3) Sample.twoOrders =
        ⟨404, .error "order not found"⟩) :=
  ⟨by decide, by decide,
    (getOrder_spec Sample.twoOrders (some 3) 3 7 "user" rfl rfl).1⟩

/-- The service `UpdateOrderStatus` on a working table, case by case. -/
theorem updateOrderStatus_eq {F : Type} (db : OrderStore F) (id : Nat) (status : String)
    (now : Nat) (hdb : db.fault = none) :
    UpdateOrderStatus db id status now =
      match db.rows.find? (fun r => r.ID == id) with
      | none => (some .orderNotFound, db)
      | some _ =>
        (none, { db with rows := db.rows.map (fun r =>
          if r.ID = id then { r with Status := status, UpdatedAt := now } else r) }) := by
  unfold UpdateOrderStatus orderRepo.FindByID orderRepo.UpdateStatus
  simp only [hdb]
  cases db.rows.find? (fun r => r.ID == id) <;> rfl

/-- C12: on a working table `UpdateOrderStatus id s` returns the not-found error exactly when
no order has the key `id`; the table is then unchanged, and the handler answers 404. -/
theorem updateOrderStatus_notFound_iff {F : Type} (db : OrderStore F) (id : Nat)
    (status : String) (now : Nat) (hdb : db.fault = none) :
    ((UpdateOrderStatus db id status now).1 = some .orderNotFound ↔
      ∀ o ∈ db.rows, o.ID ≠ id) ∧
    ((∀ o ∈ db.rows, o.ID ≠ id) →
      (UpdateOrderStatus db id status now).2 = db ∧
      ∀ (idParam : Option Nat) (decoded : Except String UpdateOrderStatusRequest),
        parseID idParam = some id → bindUpdateOrderStatusRequest decoded = .ok ⟨status⟩ →
        OrderHandler.UpdateOrderStatus idParam decoded now db =
          (⟨404, .error "order not found"⟩, db)) := by
  have heq := updateOrderStatus_eq db id status now hdb
  have hfind : db.rows.find? (fun r => r.ID == id) = none ↔ ∀ o ∈ db.rows, o.ID ≠ id := by
    rw [List.find?_eq_none]
    simp
  constructor
  · rw [heq]
    cases hf : db.rows.find? (fun r => r.ID == id) with
    | none => simp only [true_iff]; exact hfind.1 hf
    | some o =>
      simp only [false_iff, reduceCtorEq]
      intro hall
      rw [hfind.2 hall] at hf
      simp at hf
  · intro hall
    have hres : UpdateOrderStatus db id status now = (some .orderNotFound, db) := by
      rw [heq, hfind.2 hall]
    refine ⟨by rw [hres], ?_⟩
    intro idParam decoded hp hb
    simp only [OrderHandler.UpdateOrderStatus, hp, hb, hres]
    rfl

/-- Witness of C12: there is no order 3 among the two orders. -/
theorem updateOrderStatus_notFound_iff_witness :
    Sample.twoOrders.fault = none ∧
    ((UpdateOrderStatus Sample.twoOrders 3 "Cancelled" 200).1 = some .orderNotFound ↔
      ∀ o ∈ Sample.twoOrders.rows, o.ID ≠ 3) ∧
    (UpdateOrderStatus Sample.twoOrders 3 "Cancelled" 200).2 = Sample.twoOrders :=
  ⟨rfl, (updateOrderStatus_notFound_iff Sample.twoOrders 3 "Cancelled" 200 rfl).1,
    ((updateOrderStatus_notFound_iff Sample.twoOrders 3 "Cancelled" 200 rfl).2
      (by decide)).1⟩

/-- C13: on a working table holding an order with key `id`, `UpdateOrderStatus id s` succeeds
for every `s` and every prior status.  Row by row, the new table keeps the key, user,
product, quantity, total, payment method and creation time of every row; the rows with key
`id` get status `s` (and the update stamp), and every other row is unchanged.  The
autoincrement counter is unchanged as well. -/
theorem updateOrderStatus_frame {F : Type} (db : OrderStore F) (id : Nat) (status : String)
    (now : Nat) (o : Order F) (hdb : db.fault = none) (hmem : o ∈ db.rows) (hid : o.ID = id) :
    (UpdateOrderStatus db id status now).1 = none ∧
    (UpdateOrderStatus db id status now).2.lastID = db.lastID ∧
    List.Forall₂
      (fun old new : Order F =>
        new.ID = old.ID ∧ new.UserID = old.UserID ∧ new.ProductID = old.ProductID ∧
        new.Quantity = old.Quantity ∧ new.TotalAmount = old.TotalAmount ∧
        new.PaymentMethod = old.PaymentMethod ∧ new.CreatedAt = old.CreatedAt ∧
        (old.ID = id → new.Status = status ∧ new.UpdatedAt = now) ∧
        (old.ID ≠ id → new = old))
      db.rows (UpdateOrderStatus db id status now).2.rows := by
  have heq := updateOrderStatus_eq db id status now hdb
  cases hf : db.rows.find? (fun r => r.ID == id) with
  | none =>
    have := List.find?_eq_none.mp hf o hmem
    simp [hid] at this
  | some o1 =>
    rw [hf] at heq
    rw [heq]
    refine ⟨rfl, rfl, ?_⟩
    simp only
    rw [List.forall₂_map_right_iff, List.forall₂_same]
    intro r _
    by_cases hr : r.ID = id
    · simp [hr]
    · simp [hr]

/-- Witness of C13: the pending order 1 of the two orders is cancelled. -/
theorem updateOrderStatus_frame_witness :
    (UpdateOrderStatus Sample.twoOrders 1 "Cancelled" 200).2.rows =
      [{ Sample.threeCODOrder with
          UserID := 8, CreatedAt := 90, UpdatedAt := 200, Status := "Cancelled" },
       { Sample.threeCODOrder with ID := 2 }] ∧
    (UpdateOrderStatus Sample.twoOrders 1 "Cancelled" 200).1 = none :=
  ⟨by decide,
    (updateOrderStatus_frame Sample.twoOrders 1 "Cancelled" 200
      { Sample.threeCODOrder with UserID := 8, CreatedAt := 90, UpdatedAt := 90 }
      rfl (by decide) rfl).1⟩

/-! ## The order-table invariant -/

/-- A request that passes the binding of `POST /orders` has a positive quantity and one of
the two payment methods. -/
theorem bindCreateOrderRequest_ok {decoded : Except String CreateOrderRequest}
    {req : CreateOrderRequest} (h : bindCreateOrderRequest decoded = .ok req) :
    0 < req.Quantity ∧ (req.PaymentMethod = "COD" ∨ req.PaymentMethod = "Online") := by
  unfold bindCreateOrderRequest at h
  cases decoded with
  | error e => simp at h
  | ok r =>
    simp only at h
    cases hf : r.failures with
    | cons f fs => rw [hf] at h; simp at h
    | nil =>
      rw [hf] at h
      simp only [Except.ok.injEq] at h
      subst h
      unfold CreateOrderRequest.failures at hf
      by_cases hq0 : r.Quantity = 0
      · simp [hq0] at hf
      · by_cases hq : 0 < r.Quantity
        · refine ⟨hq, ?_⟩
          by_cases hp0 : r.PaymentMethod = ""
          · simp [hp0] at hf
          · by_cases hp : r.PaymentMethod = "COD" ∨ r.PaymentMethod = "Online"
            · exact hp
            · simp [hq0, hq, hp0, hp] at hf
        · simp [hq0, hq] at hf

/-- A request that passes the binding of `PATCH /orders/:id/status` names one of the three
statuses. -/
theorem bindUpdateOrderStatusRequest_ok {decoded : Except String UpdateOrderStatusRequest}
    {req : UpdateOrderStatusRequest} (h : bindUpdateOrderStatusRequest decoded = .ok req) :
    req.Status = "Pending" ∨ req.Status = "Completed" ∨ req.Status = "Cancelled" := by
  unfold bindUpdateOrderStatusRequest at h
  cases decoded with
  | error e => simp at h
  | ok r =>
    simp only at h
    cases hf : r.failures with
    | cons f fs => rw [hf] at h; simp at h
    | nil =>
      rw [hf] at h
      simp only [Except.ok.injEq] at h
      subst h
      unfold UpdateOrderStatusRequest.failures at hf
      by_cases h0 : r.Status = ""
      · simp [h0] at hf
      · by_cases h1 : r.Status = "Pending" ∨ r.Status = "Completed" ∨ r.Status = "Cancelled"
        · exact h1
        · simp [h0, h1] at hf

/-- The order built in steps 3 to 5 from a bound request is well formed, under any key. -/
theorem newOrder_wellFormed {F : Type} (fl : Float64Ops F) (userID : Nat)
    (req : CreateOrderRequest) (p : Product F) (now1 now2 id : Nat)
    (hq : 0 < req.Quantity) (hp : req.PaymentMethod = "COD" ∨ req.PaymentMethod = "Online") :
    Order.WellFormed { newOrder fl userID req p now1 now2 with ID := id } := by
  refine ⟨hq, hp, ?_⟩
  simp only [newOrder, PaymentOnline, StatusCompleted, StatusPending]
  split_ifs
  · right; left; rfl
  · left; rfl

/-- The service `CreateOrder` leaves the order table as it was or appends the one order built
from the request under the next key. -/
theorem createOrder_db_cases {W F : Type} (fl : Float64Ops F) (up : Upstream W F)
    (userID : Nat) (req : CreateOrderRequest) (now1 now2 : Nat) (st : St W F) :
    (CreateOrder fl up userID req now1 now2 st).2.db = st.db ∨
    ∃ p : Product F, (CreateOrder fl up userID req now1 now2 st).2.db.rows =
      st.db.rows ++ [{ newOrder fl userID req p now1 now2 with ID := st.db.lastID + 1 }] := by
  have hsnd := getProductFromService_snd up req.ProductID st
  unfold CreateOrder
  rcases hg : getProductFromService up req.ProductID st with ⟨r, st1⟩
  rw [hg] at hsnd
  simp only at hsnd
  subst hsnd
  cases r with
  | error err => left; rfl
  | ok op =>
    cases op with
    | none => left; rfl
    | some p =>
      simp only
      split_ifs with hq
      · left; rfl
      · unfold repoCreate orderRepo.Create
        cases hf : st.db.fault with
        | some e => left; rfl
        | none =>
          right
          refine ⟨p, ?_⟩
          simp only [newOrder, if_true, deductAndWarn_db]

/-- One request served by a handler keeps every stored order well formed. -/
theorem HandlerCall.run_wellFormed {W F : Type} (fl : Float64Ops F) (up : Upstream W F)
    (call : HandlerCall) (st : St W F) (h : ∀ o ∈ st.db.rows, o.WellFormed) :
    ∀ o ∈ (call.run fl up st).db.rows, o.WellFormed := by
  cases call with
  | createOrder c decoded now1 now2 =>
    simp only [HandlerCall.run, OrderHandler.CreateOrder]
    cases hb : bindCreateOrderRequest decoded with
    | error e => exact h
    | ok req =>
      obtain ⟨hq, hp⟩ := bindCreateOrderRequest_ok hb
      simp only
      cases hu : GetUserID c with
      | error e => exact h
      | ok userID =>
        simp only
        have hst : (match CreateOrder fl up userID req now1 now2 st with
            | (.error err, st1) => ((⟨400, .error err.Error⟩ : Response F), st1)
            | (.ok order, st1) =>
              (⟨201, .created "order created successfully" order⟩, st1)).2 =
            (CreateOrder fl up userID req now1 now2 st).2 := by
          rcases CreateOrder fl up userID req now1 now2 st with ⟨r, st1⟩
          cases r <;> rfl
        rw [hst]
        rcases createOrder_db_cases fl up userID req now1 now2 st with hdb | ⟨p, hrows⟩
        · rw [hdb]; exact h
        · rw [hrows]
          intro o ho
          rcases List.mem_append.mp ho with ho | ho
          · exact h o ho
          · rw [List.mem_singleton] at ho
            subst ho
            exact newOrder_wellFormed fl userID req p now1 now2 _ hq hp
  | updateOrderStatus idParam decoded now =>
    simp only [HandlerCall.run, OrderHandler.UpdateOrderStatus]
    cases parseID idParam with
    | none => exact h
    | some id =>
      simp only
      cases hb : bindUpdateOrderStatusRequest decoded with
      | error e => exact h
      | ok req =>
        have hs := bindUpdateOrderStatusRequest_ok hb
        simp only
        have hdb : (match UpdateOrderStatus st.db id req.Status now with
            | (some err, db1) => ((⟨404, .error err.Error⟩ : Response F), db1)
            | (none, db1) =>
              (⟨200, .message "order status updated successfully"⟩, db1)).2 =
            (UpdateOrderStatus st.db id req.Status now).2 := by
          rcases UpdateOrderStatus st.db id req.Status now with ⟨r, db1⟩
          cases r <;> rfl
        rw [hdb]
        unfold UpdateOrderStatus orderRepo.FindByID orderRepo.UpdateStatus
        cases hf : st.db.fault with
        | some e => exact h
        | none =>
          simp only
          cases st.db.rows.find? (fun r => r.ID == id) with
          | none => exact h
          | some o1 =>
            simp only
            intro o ho
            rw [List.mem_map] at ho
            obtain ⟨r, hr, rfl⟩ := ho
            obtain ⟨h1, h2, h3⟩ := h r hr
            split_ifs
            · exact ⟨h1, h2, hs⟩
            · exact ⟨h1, h2, h3⟩

/-- C14: starting from an empty order table, after any sequence of requests served by the
handlers `CreateOrder` and `UpdateOrderStatus` (any contexts, bodies and clock readings,
any product service), every stored order has a positive quantity, payment method `COD` or
`Online`, and status `Pending`, `Completed` or `Cancelled`. -/
theorem serve_wellFormed {W F : Type} (fl : Float64Ops F) (up : Upstream W F)
    (calls : List HandlerCall) (st : St W F) (hempty : st.db.rows = [])
    (o : Order F) (ho : o ∈ (serve fl up calls st).db.rows) :
    0 < o.Quantity ∧ (o.PaymentMethod = "COD" ∨ o.PaymentMethod = "Online") ∧
    (o.Status = "Pending" ∨ o.Status = "Completed" ∨ o.Status = "Cancelled") := by
  have inv : ∀ (calls : List HandlerCall) (st : St W F),
      (∀ o ∈ st.db.rows, o.WellFormed) → ∀ o ∈ (serve fl up calls st).db.rows, o.WellFormed := by
    intro calls
    induction calls with
    | nil => intro st h; exact h
    | cons call rest ih =>
      intro st h
      exact ih (call.run fl up st) (HandlerCall.run_wellFormed fl up call st h)
  exact inv calls st (by rw [hempty]; intro o ho; cases ho) o ho

/-- Witness of C14: user 7 orders three widgets, then the order is cancelled. -/
theorem serve_wellFormed_witness :
    (serve Sample.exactOps Sample.readOnly
        [.createOrder Sample.user7 (.ok Sample.threeCOD) 100 100,
         .updateOrderStatus (some 1) (.ok ⟨"Cancelled"⟩) 200]
        ⟨Sample.emptyOrders, (), []⟩).db.rows =
      [{ Sample.threeCODOrder with Status := "Cancelled", UpdatedAt := 200 }] ∧
    (0 < ({ Sample.threeCODOrder with Status := "Cancelled", UpdatedAt := 200 } :
        Order ℚ).Quantity ∧
      (({ Sample.threeCODOrder with Status := "Cancelled", UpdatedAt := 200 } :
        Order ℚ).PaymentMethod = "COD" ∨
       ({ Sample.threeCODOrder with Status := "Cancelled", UpdatedAt := 200 } :
        Order ℚ).PaymentMethod = "Online") ∧
      (({ Sample.threeCODOrder with Status := "Cancelled", UpdatedAt := 200 } :
        Order ℚ).Status = "Pending" ∨
       ({ Sample.threeCODOrder with Status := "Cancelled", UpdatedAt := 200 } :
        Order ℚ).Status = "Completed" ∨
       ({ Sample.threeCODOrder with Status := "Cancelled", UpdatedAt := 200 } :
        Order ℚ).Status = "Cancelled")) :=
  have hrows : (serve Sample.exactOps Sample.readOnly
        [.createOrder Sample.user7 (.ok Sample.threeCOD) 100 100,
         .updateOrderStatus (some 1) (.ok ⟨"Cancelled"⟩) 200]
        ⟨Sample.emptyOrders, (), []⟩).db.rows =
      [{ Sample.threeCODOrder with Status := "Cancelled", UpdatedAt := 200 }] := by
    simp [serve, HandlerCall.run, OrderHandler.CreateOrder, bindCreateOrderRequest,
      CreateOrderRequest.failures, GetUserID, Sample.user7, Sample.threeCOD, CreateOrder,
      getProductFromService, Sample.readOnly, Sample.widget, repoCreate, newOrder,
      orderRepo.Create, Sample.emptyOrders, Sample.exactOps, deductAndWarn,
      deductProductQuantity, sendStockPatch, warn, OrderHandler.UpdateOrderStatus, parseID,
      bindUpdateOrderStatusRequest, UpdateOrderStatusRequest.failures, UpdateOrderStatus,
      orderRepo.FindByID, orderRepo.UpdateStatus, Sample.threeCODOrder, PaymentOnline,
      StatusPending]
    norm_num
  ⟨hrows, serve_wellFormed Sample.exactOps Sample.readOnly
    [.createOrder Sample.user7 (.ok Sample.threeCOD) 100 100,
     .updateOrderStatus (some 1) (.ok ⟨"Cancelled"⟩) 200]
    ⟨Sample.emptyOrders, (), []⟩ rfl _ (by rw [hrows]; exact List.mem_singleton.mpr rfl)⟩

end OrderService

namespace Jwt

/-! ## Tokens -/

/-- The steps of `ParseWithClaims` once the string has decoded and the key function has
given its key to a method. -/
theorem parseWithClaims_of_decode {Sig : Type} [DecidableEq Sig] (lib : Lib Sig)
    (tokenString : String) (keyFunc : Method → String → Except String String) (now : Int)
    (token : Token Sig) (alg key : String) (method : Method)
    (hdec : lib.decode tokenString = some token) (halg : token.alg = some alg)
    (hm : GetSigningMethod alg = some method) (hk : keyFunc method alg = .ok key) :
    ParseWithClaims lib tokenString keyFunc now =
      if ¬ Verify lib method key token then .error .signatureInvalid
      else
        match validate token.claims now with
        | some e => .error e
        | none => .ok token.claims := by
  simp only [ParseWithClaims, hdec, halg, hm, hk]

/-- Whatever the key function is, `ParseWithClaims` accepts no token whose header names no
algorithm, an algorithm without a registered method, or a method outside the HMAC family,
as long as the keys are of type `[]byte`. -/
theorem parseWithClaims_rejects_non_hmac {Sig : Type} [DecidableEq Sig] (lib : Lib Sig)
    (tokenString : String) (keyFunc : Method → String → Except String String) (now : Int)
    (token : Token Sig) (hdec : lib.decode tokenString = some token)
    (hnon : ∀ alg method, token.alg = some alg → GetSigningMethod alg = some method →
      method.isHMAC = false) :
    ∃ e, ParseWithClaims lib tokenString keyFunc now = .error e := by
  simp only [ParseWithClaims, hdec]
  cases halg : token.alg with
  | none => exact ⟨_, rfl⟩
  | some alg =>
    simp only
    cases hm : GetSigningMethod alg with
    | none => exact ⟨_, rfl⟩
    | some method =>
      simp only
      have hno := hnon alg method halg hm
      cases hk : keyFunc method alg with
      | error keyErr => exact ⟨_, rfl⟩
      | ok key =>
        simp only
        have hv : Verify lib method key token = false := by
          cases method <;> simp_all [Verify, Method.isHMAC]
        simp [hv]

/-- A token whose `exp` is set and whose `nbf` is not: valid exactly before `exp`. -/
theorem validate_exp_only (claims : Claims) (exp now : Int)
    (hexp : claims.ExpiresAt = some exp) (hnbf : claims.NotBefore = none) :
    validate claims now = if now < exp then none else some .expired := by
  simp only [validate, hexp, hnbf]
  split_ifs <;> simp_all

end Jwt

namespace Sample

/-! ## The coding of `packLib` reads back what it writes -/

theorem getNat_putNat (n : Nat) (rest : List Char) :
    getNat (putNat n ++ rest) = some (n, rest) := by
  induction n with
  | zero => simp [putNat, getNat]
  | succ k ih =>
    have h : putNat (k + 1) ++ rest = '1' :: (putNat k ++ rest) := by
      simp [putNat, List.replicate_succ]
    rw [h, getNat, if_neg (by decide), if_pos rfl, ih]

theorem getText_putText (t : String) (rest : List Char) :
    getText (putText t ++ rest) = some (t, rest) := by
  simp only [getText, putText, List.append_assoc, getNat_putNat]
  rw [if_pos (by simp)]
  simp

theorem getInt_putInt (i : Int) (rest : List Char) :
    getInt (putInt i ++ rest) = some (i, rest) := by
  cases i with
  | ofNat n =>
    show getInt ('+' :: (putNat n ++ rest)) = _
    rw [getInt, if_pos rfl, getNat_putNat]
  | negSucc n =>
    show getInt ('-' :: (putNat n ++ rest)) = _
    rw [getInt, if_neg (by decide), if_pos rfl, getNat_putNat]

theorem getTime_putTime (t : Option Int) (rest : List Char) :
    getTime (putTime t ++ rest) = some (t, rest) := by
  cases t with
  | none =>
    show getTime ('n' :: rest) = _
    rw [getTime, if_pos rfl]
  | some i =>
    show getTime ('y' :: (putInt i ++ rest)) = _
    rw [getTime, if_neg (by decide), if_pos rfl, getInt_putInt]

theorem getAlg_putAlg (alg : Option String) (rest : List Char) :
    getAlg (putAlg alg ++ rest) = some (alg, rest) := by
  cases alg with
  | none =>
    show getAlg ('n' :: rest) = _
    rw [getAlg, if_pos rfl]
  | some a =>
    show getAlg ('y' :: (putText a ++ rest)) = _
    rw [getAlg, if_neg (by decide), if_pos rfl, getText_putText]

/-- The coding of `packLib` reads back every token it writes. -/
theorem packLib_codec (t : Jwt.Token String) : packLib.decode (packLib.encode t) = some t := by
  show unpack (pack t) = some t
  simp only [unpack, pack, getAlg_putAlg, getNat_putNat, getText_putText, getTime_putTime]

end Sample

namespace AuthService

/-! ## Issued tokens read back -/

/-- With a coding that reads back what it writes, `ParseToken` returns for the token that
`GenerateToken` issues the issued claims before their `exp`, and the expiry error from
`exp` on. -/
theorem parseToken_generateToken {Sig : Type} [DecidableEq Sig] (lib : Jwt.Lib Sig)
    (c : Config) (userID : Nat) (role : String) (now1 now2 t : Int)
    (hcodec : ∀ tok : Jwt.Token Sig, lib.decode (lib.encode tok) = some tok) :
    ParseToken lib c (GenerateToken lib c userID role now1 now2) t =
      if t < Jwt.truncSec (now1 + c.JWTExpiry) then .ok (newClaims c userID role now1 now2)
      else .error (lib.describe .expired) := by
  have hdec : lib.decode (GenerateToken lib c userID role now1 now2) =
      some { alg := some "HS256", claims := newClaims c userID role now1 now2,
             signature := lib.hmac .HS256 c.JWTSecret
               (some "HS256", newClaims c userID role now1 now2) } := hcodec _
  have hval := Jwt.validate_exp_only (newClaims c userID role now1 now2)
    (Jwt.truncSec (now1 + c.JWTExpiry)) t rfl rfl
  have hp := Jwt.parseWithClaims_of_decode lib (GenerateToken lib c userID role now1 now2)
    (fun _ _ => .ok c.JWTSecret) t _ "HS256" c.JWTSecret .HS256 hdec rfl rfl rfl
  have hv : Jwt.Verify lib .HS256 c.JWTSecret
      { alg := some "HS256", claims := newClaims c userID role now1 now2,
        signature := lib.hmac .HS256 c.JWTSecret
          (some "HS256", newClaims c userID role now1 now2) } = true := by
    simp [Jwt.Verify]
  simp only [hv, not_true_eq_false, if_false, hval] at hp
  by_cases ht : t < Jwt.truncSec (now1 + c.JWTExpiry)
  · simp only [ParseToken, hp, if_pos ht]
  · simp only [ParseToken, hp, if_neg ht]

/-- The same for the gateway's `ValidateToken` under the same non-empty secret. -/
theorem validateToken_generateToken {Sig : Type} [DecidableEq Sig] (lib : Jwt.Lib Sig)
    (c : Config) (userID : Nat) (role : String) (now1 now2 t : Int)
    (hcodec : ∀ tok : Jwt.Token Sig, lib.decode (lib.encode tok) = some tok)
    (hsecret : c.JWTSecret ≠ "") :
    ApiGateway.ValidateToken lib c.JWTSecret (GenerateToken lib c userID role now1 now2) t =
      if t < Jwt.truncSec (now1 + c.JWTExpiry) then .ok (newClaims c userID role now1 now2)
      else .error ("failed to parse token: " ++ lib.describe .expired) := by
  have hdec : lib.decode (GenerateToken lib c userID role now1 now2) =
      some { alg := some "HS256", claims := newClaims c userID role now1 now2,
             signature := lib.hmac .HS256 c.JWTSecret
               (some "HS256", newClaims c userID role now1 now2) } := hcodec _
  have hval := Jwt.validate_exp_only (newClaims c userID role now1 now2)
    (Jwt.truncSec (now1 + c.JWTExpiry)) t rfl rfl
  have hp := Jwt.parseWithClaims_of_decode lib (GenerateToken lib c userID role now1 now2)
    (ApiGateway.hmacOnly c.JWTSecret) t _ "HS256" c.JWTSecret .HS256 hdec rfl rfl rfl
  have hv : Jwt.Verify lib .HS256 c.JWTSecret
      { alg := some "HS256", claims := newClaims c userID role now1 now2,
        signature := lib.hmac .HS256 c.JWTSecret
          (some "HS256", newClaims c userID role now1 now2) } = true := by
    simp [Jwt.Verify]
  simp only [hv, not_true_eq_false, if_false, hval] at hp
  by_cases ht : t < Jwt.truncSec (now1 + c.JWTExpiry)
  · simp only [ApiGateway.ValidateToken, if_neg hsecret, hp, if_pos ht]
  · simp only [ApiGateway.ValidateToken, if_neg hsecret, hp, if_neg ht]

/-- C15: `GenerateToken` issues to user `userID` with role `role` a token whose `exp` is the
issue time plus the configured lifetime, cut to the second.  Under the same non-empty
secret, with a coding that reads back every token it writes, `ParseToken` and the gateway's
`ValidateToken` return claims with exactly that user id and role at every time before
`exp`, and return the library's expiry error at `exp` and at every later time.  When the
lifetime is a whole number of seconds and both clock readings fall into the same second,
`exp` is the token's `iat` plus the lifetime. -/
theorem token_round_trip {Sig : Type} [DecidableEq Sig] (lib : Jwt.Lib Sig) (c : Config)
    (userID : Nat) (role : String) (now1 now2 t : Int)
    (hcodec : ∀ tok : Jwt.Token Sig, lib.decode (lib.encode tok) = some tok)
    (hsecret : c.JWTSecret ≠ "") :
    (t < Jwt.truncSec (now1 + c.JWTExpiry) →
      ∃ claims : Jwt.Claims, claims.UserID = userID ∧ claims.Role = role ∧
        claims.ExpiresAt = some (Jwt.truncSec (now1 + c.JWTExpiry)) ∧
        ParseToken lib c (GenerateToken lib c userID role now1 now2) t = .ok claims ∧
        ApiGateway.ValidateToken lib c.JWTSecret
          (GenerateToken lib c userID role now1 now2) t = .ok claims) ∧
    (Jwt.truncSec (now1 + c.JWTExpiry) ≤ t →
      ParseToken lib c (GenerateToken lib c userID role now1 now2) t =
        .error (lib.describe .expired) ∧
      ApiGateway.ValidateToken lib c.JWTSecret
          (GenerateToken lib c userID role now1 now2) t =
        .error ("failed to parse token: " ++ lib.describe .expired)) ∧
    (c.JWTExpiry % 1000000000 = 0 → Jwt.truncSec now2 = Jwt.truncSec now1 →
      ∃ iat, (newClaims c userID role now1 now2).IssuedAt = some iat ∧
        Jwt.truncSec (now1 + c.JWTExpiry) = iat + c.JWTExpiry) := by
  have hp1 := parseToken_generateToken lib c userID role now1 now2 t hcodec
  have hp2 := validateToken_generateToken lib c userID role now1 now2 t hcodec hsecret
  refine ⟨?_, ?_, ?_⟩
  · intro ht
    refine ⟨newClaims c userID role now1 now2, rfl, rfl, rfl, ?_, ?_⟩
    · rw [hp1, if_pos ht]
    · rw [hp2, if_pos ht]
  · intro ht
    have hnot : ¬ t < Jwt.truncSec (now1 + c.JWTExpiry) := not_lt.mpr ht
    constructor
    · rw [hp1, if_neg hnot]
    · rw [hp2, if_neg hnot]
  · intro hwhole hsame
    refine ⟨Jwt.truncSec now2, rfl, ?_⟩
    rw [hsame]
    unfold Jwt.truncSec
    omega

/-- Witness of C15: with the coding `packLib`, which reads back every token it writes, the
token issued at 5.5 s for one hour is good at 3605.0 s less one nanosecond. -/
theorem token_round_trip_witness :
    (∀ tok : Jwt.Token String, Sample.packLib.decode (Sample.packLib.encode tok) = some tok) ∧
    Sample.authConfig.JWTSecret ≠ "" ∧
    Jwt.truncSec (5500000000 + Sample.authConfig.JWTExpiry) = 3605000000000 ∧
    ∃ claims : Jwt.Claims, claims.UserID = 7 ∧ claims.Role = "user" ∧
      claims.ExpiresAt = some (Jwt.truncSec (5500000000 + Sample.authConfig.JWTExpiry)) ∧
      ParseToken Sample.packLib Sample.authConfig
        (GenerateToken Sample.packLib Sample.authConfig 7 "user" 5500000000 5500000001)
        3604999999999 = .ok claims ∧
      ApiGateway.ValidateToken Sample.packLib Sample.authConfig.JWTSecret
        (GenerateToken Sample.packLib Sample.authConfig 7 "user" 5500000000 5500000001)
        3604999999999 = .ok claims :=
  ⟨Sample.packLib_codec, by decide, by decide,
    (token_round_trip Sample.packLib Sample.authConfig 7 "user" 5500000000 5500000001
      3604999999999 Sample.packLib_codec (by decide)).1 (by decide)⟩

end AuthService

namespace Go

/-! ## Facts about the string functions -/

theorem HasPrefix_iff (s pfx : String) : HasPrefix s pfx = true ↔ pfx.data <+: s.data := by
  simp [HasPrefix]

theorem HasPrefix_append (pfx t : String) : HasPrefix (pfx ++ t) pfx = true := by
  rw [HasPrefix_iff, String.data_append]
  exact List.prefix_append _ _

theorem sliceFrom_append (pfx t : String) : sliceFrom (pfx ++ t) pfx.data.length = t := by
  simp [sliceFrom, String.data_append]

theorem TrimPrefix_append (pfx t : String) : TrimPrefix (pfx ++ t) pfx = t := by
  rw [TrimPrefix, if_pos (HasPrefix_append pfx t), sliceFrom_append]

theorem TrimPrefix_of_not (s pfx : String) (h : HasPrefix s pfx = false) :
    TrimPrefix s pfx = s := by
  simp [TrimPrefix, h]

/-- A header that starts with `Bearer ` starts with `bearer ` once in lower case. -/
theorem HasPrefix_lower_of_bearer (s : String) (h : HasPrefix s "Bearer " = true) :
    HasPrefix (ToLower s) "bearer " = true := by
  rw [HasPrefix_iff] at h ⊢
  exact List.IsPrefix.map Char.toLower h

/-- A header that splits at spaces into a scheme that reads `bearer` in lower case and one
more part starts with `bearer ` once in lower case. -/
theorem HasPrefix_lower_of_split (s scheme tok : String) (hs : Split s ' ' = [scheme, tok])
    (hl : ToLower scheme = "bearer") : HasPrefix (ToLower s) "bearer " = true := by
  unfold Split at hs
  have hdata : [' '].intercalate (s.data.splitOn ' ') = s.data :=
    List.intercalate_splitOn s.data ' '
  cases hsp : s.data.splitOn ' ' with
  | nil => rw [hsp] at hs; simp at hs
  | cons a rest =>
    cases rest with
    | nil => rw [hsp] at hs; simp at hs
    | cons b rest2 =>
      cases rest2 with
      | cons c rest3 => rw [hsp] at hs; simp at hs
      | nil =>
        rw [hsp] at hs hdata
        simp only [List.map_cons, List.map_nil, List.cons.injEq, and_true] at hs
        obtain ⟨ha, _⟩ := hs
        have hla : a.map Char.toLower = "bearer".data := by
          have := congrArg String.data hl
          rw [← ha] at this
          exact this
        rw [HasPrefix_iff]
        have hd : s.data = a ++ ' ' :: b := by
          rw [← hdata]
          simp [List.intercalate]
        show "bearer ".data <+: (s.data.map Char.toLower)
        rw [hd, List.map_append, hla]
        exact ⟨b.map Char.toLower, by simp⟩

/-- The header `Bearer ` followed by a text without a space splits into the two. -/
theorem Split_bearer (t : String) (h : ' ' ∉ t.data) :
    Split ("Bearer " ++ t) ' ' = ["Bearer", t] := by
  unfold Split
  have h1 : ("Bearer " ++ t).data = "Bearer".data ++ ' ' :: t.data := by
    rw [String.data_append]; rfl
  have h2 := List.splitOnP_first (· == ' ') "Bearer".data (by decide) ' ' (by decide) t.data
  have h3 : t.data.splitOnP (· == ' ') = [t.data] := by
    apply List.splitOnP_eq_single
    intro x hx hxs
    rw [beq_iff_eq] at hxs
    subst hxs
    exact h hx
  rw [h1, List.splitOn, h2, h3]
  rfl

/-- A text is never `Bearer ` followed by itself. -/
theorem bearer_append_ne (t : String) : t ≠ "Bearer " ++ t := by
  intro h
  have := congrArg (fun s : String => s.data.length) h
  simp [String.data_append] at this
  omega

end Go

namespace Gates

/-! ## The gates of the four services -/

/-- C16 as stated fails: a token whose header names `HS384` and that is signed with the
shared secret is accepted by every verifier, also by the two that check the signing
method. -/
theorem hs384_token_accepted :
    (Sample.toyLib.decode "t384").map (fun t => t.alg) = some (some "HS384") ∧
    AuthService.ParseToken Sample.toyLib Sample.authConfig "t384" 6000000000 =
      .ok Sample.claims7 ∧
    ApiGateway.ValidateToken Sample.toyLib "s3cret" "t384" 6000000000 = .ok Sample.claims7 ∧
    OrderService.AuthMiddleware.parse Sample.toyLib "s3cret" 6000000000 "t384" =
      some Sample.claims7 ∧
    ProductService.JWTAuth.parse Sample.toyLib "s3cret" 6000000000 "t384" =
      some ⟨7, "user"⟩ ∧
    ProductService.ParseToken Sample.toyLib "t384" "s3cret" 6000000000 = .ok ⟨7, "user"⟩ := by
  refine ⟨rfl, ?_, ?_, ?_, ?_, ?_⟩ <;> rfl

/-- C16 as amended: every verifier rejects every token whose header names no algorithm, an
algorithm without a registered method, `none`, or a method outside the HMAC family.  A
token whose header names one of the HMAC methods (`HS256`, `HS384`, `HS512`), whose
signature is that method's HMAC under the shared secret, and whose claims are valid at
the time of the check is accepted by every verifier. -/
theorem verifiers_reject_non_hmac {Sig : Type} [DecidableEq Sig] (lib : Jwt.Lib Sig)
    (c : AuthService.Config) (tokenString : String) (now : Int) (token : Jwt.Token Sig)
    (hdec : lib.decode tokenString = some token) :
    ((∀ alg method, token.alg = some alg → Jwt.GetSigningMethod alg = some method →
        method.isHMAC = false) →
      (∃ e, AuthService.ParseToken lib c tokenString now = .error e) ∧
      (∃ e, ApiGateway.ValidateToken lib c.JWTSecret tokenString now = .error e) ∧
      OrderService.AuthMiddleware.parse lib c.JWTSecret now tokenString = none ∧
      ProductService.JWTAuth.parse lib c.JWTSecret now tokenString = none ∧
      (∃ e, ProductService.ParseToken lib tokenString c.JWTSecret now = .error e)) ∧
    (∀ alg method, token.alg = some alg → Jwt.GetSigningMethod alg = some method →
        method.isHMAC = true →
        token.signature = lib.hmac method c.JWTSecret (token.alg, token.claims) →
        Jwt.validate token.claims now = none → c.JWTSecret ≠ "" →
      AuthService.ParseToken lib c tokenString now = .ok token.claims ∧
      ApiGateway.ValidateToken lib c.JWTSecret tokenString now = .ok token.claims ∧
      OrderService.AuthMiddleware.parse lib c.JWTSecret now tokenString = some token.claims ∧
      ProductService.JWTAuth.parse lib c.JWTSecret now tokenString =
        some ⟨token.claims.UserID, token.claims.Role⟩) := by
  constructor
  · intro hnon
    obtain ⟨e1, h1⟩ := Jwt.parseWithClaims_rejects_non_hmac lib tokenString
      (fun _ _ => .ok c.JWTSecret) now token hdec hnon
    obtain ⟨e2, h2⟩ := Jwt.parseWithClaims_rejects_non_hmac lib tokenString
      (ApiGateway.hmacOnly c.JWTSecret) now token hdec hnon
    refine ⟨⟨lib.describe e1, by simp only [AuthService.ParseToken, h1]⟩, ?_,
      by simp only [OrderService.AuthMiddleware.parse, h2],
      by simp only [ProductService.JWTAuth.parse, h1],
      ⟨lib.describe e1, by simp only [ProductService.ParseToken, h1]⟩⟩
    unfold ApiGateway.ValidateToken
    split_ifs
    · exact ⟨_, rfl⟩
    · exact ⟨"failed to parse token: " ++ lib.describe e2, by simp only [h2]⟩
  · intro alg method halg hm hh hsig hvalid hsecret
    have hv : Jwt.Verify lib method c.JWTSecret token = true := by
      cases method <;> simp_all [Jwt.Verify, Jwt.Method.isHMAC]
    have hp1 := Jwt.parseWithClaims_of_decode lib tokenString (fun _ _ => .ok c.JWTSecret) now
      token alg c.JWTSecret method hdec halg hm rfl
    have hp2 := Jwt.parseWithClaims_of_decode lib tokenString
      (ApiGateway.hmacOnly c.JWTSecret) now token alg c.JWTSecret method hdec halg hm
      (by simp [ApiGateway.hmacOnly, hh])
    simp only [hv, not_true_eq_false, if_false, hvalid] at hp1 hp2
    refine ⟨by simp only [AuthService.ParseToken, hp1], ?_,
      by simp only [OrderService.AuthMiddleware.parse, hp2],
      by simp only [ProductService.JWTAuth.parse, hp1]⟩
    simp only [ApiGateway.ValidateToken, if_neg hsecret, hp2]

/-- Witness of C16 as amended: the token with the header `alg` of `none` is rejected. -/
theorem verifiers_reject_non_hmac_witness :
    Sample.toyLib.decode "tnone" =
      some { alg := some "none", claims := Sample.claims7, signature := "" } ∧
    (∃ e, AuthService.ParseToken Sample.toyLib Sample.authConfig "tnone" 6000000000 =
      .error e) ∧
    (∃ e, ApiGateway.ValidateToken Sample.toyLib Sample.authConfig.JWTSecret "tnone"
      6000000000 = .error e) ∧
    OrderService.AuthMiddleware.parse Sample.toyLib Sample.authConfig.JWTSecret 6000000000
      "tnone" = none ∧
    ProductService.JWTAuth.parse Sample.toyLib Sample.authConfig.JWTSecret 6000000000
      "tnone" = none ∧
    (∃ e, ProductService.ParseToken Sample.toyLib "tnone" Sample.authConfig.JWTSecret
      6000000000 = .error e) :=
  ⟨rfl, (verifiers_reject_non_hmac Sample.toyLib Sample.authConfig "tnone" 6000000000
    { alg := some "none", claims := Sample.claims7, signature := "" } rfl).1
    (by
      intro alg method halg hm
      simp only [Option.some.injEq] at halg
      subst halg
      have : method = Jwt.Method.none := by
        have h0 : Jwt.GetSigningMethod "none" = some Jwt.Method.none := by decide
        rw [h0] at hm
        exact (Option.some.inj hm).symm
      subst this
      rfl)⟩

/-- C17: a request whose `Authorization` header is missing or empty, or does not start with
the scheme `Bearer ` (in any letter case), is answered 401 and aborted by the gate of each
of the four services: the gate returns the response instead of a context, and it does so
for every token check it could be given, so the check plays no part. -/
theorem gates_reject_without_bearer {F : Type} (header : String)
    (hbad : header = "" ∨ Go.HasPrefix (Go.ToLower header) "bearer " = false) :
    (∀ validate, ∃ msg, ApiGateway.AuthMiddleware validate header = .error ⟨401, msg⟩) ∧
    (∀ parse, ∃ msg, (OrderService.AuthMiddleware parse header :
        Except (OrderService.Response F) Context) = .error ⟨401, .error msg⟩) ∧
    (∀ parseToken, AuthService.AuthMiddleware parseToken header =
        .error ⟨401, "missing or invalid authorization header"⟩) ∧
    (∀ parse, ∃ msg, (ProductService.JWTAuth parse header :
        Except (ProductService.Response F) Context) = .error ⟨401, .error msg⟩) := by
  by_cases h0 : header = ""
  · subst h0
    refine ⟨fun _ => ⟨_, rfl⟩, fun _ => ⟨_, rfl⟩, fun _ => rfl, fun _ => ⟨_, rfl⟩⟩
  · have hlow : Go.HasPrefix (Go.ToLower header) "bearer " = false := by
      rcases hbad with h | h
      · exact absurd h h0
      · exact h
    have hexact : Go.HasPrefix header "Bearer " = false := by
      cases hp : Go.HasPrefix header "Bearer " with
      | false => rfl
      | true =>
        rw [Go.HasPrefix_lower_of_bearer header hp] at hlow
        exact absurd hlow (by decide)
    have htrim := Go.TrimPrefix_of_not header "Bearer " hexact
    refine ⟨?_, ?_, ?_, ?_⟩
    · intro validate
      exact ⟨"invalid authorization format, use: Bearer <token>",
        by simp only [ApiGateway.AuthMiddleware, if_neg h0, htrim, if_true]⟩
    · intro parse
      exact ⟨"invalid authorization format",
        by simp only [OrderService.AuthMiddleware, if_neg h0, htrim, if_true]⟩
    · intro parseToken
      simp [AuthService.AuthMiddleware, hlow]
    · intro parse
      simp only [ProductService.JWTAuth, if_neg h0]
      rcases hsp : Go.Split header ' ' with _ | ⟨a, _ | ⟨b, _ | ⟨c, rest⟩⟩⟩
      · exact ⟨_, rfl⟩
      · exact ⟨_, rfl⟩
      · simp only
        by_cases hl : Go.ToLower a = "bearer"
        · rw [Go.HasPrefix_lower_of_split header a b hsp hl] at hlow
          exact absurd hlow (by decide)
        · exact ⟨_, by rw [if_pos hl]⟩
      · exact ⟨_, rfl⟩

/-- Witness of C17: a header with the scheme `Basic`. -/
theorem gates_reject_without_bearer_witness :
    ("Basic dXNlcjpwdw" = "" ∨
      Go.HasPrefix (Go.ToLower "Basic dXNlcjpwdw") "bearer " = false) ∧
    (∀ validate, ∃ msg,
      ApiGateway.AuthMiddleware validate "Basic dXNlcjpwdw" = .error ⟨401, msg⟩) ∧
    (∀ parse, ∃ msg, (OrderService.AuthMiddleware parse "Basic dXNlcjpwdw" :
        Except (OrderService.Response ℚ) Context) = .error ⟨401, .error msg⟩) ∧
    (∀ parseToken, AuthService.AuthMiddleware parseToken "Basic dXNlcjpwdw" =
        .error ⟨401, "missing or invalid authorization header"⟩) ∧
    (∀ parse, ∃ msg, (ProductService.JWTAuth parse "Basic dXNlcjpwdw" :
        Except (ProductService.Response ℚ) Context) = .error ⟨401, .error msg⟩) :=
  ⟨Or.inr (by decide), gates_reject_without_bearer "Basic dXNlcjpwdw" (Or.inr (by decide))⟩

/-- C18 as stated fails: with a token check that accepts `tok`, the header `bearer tok` is
refused by the gates of the gateway and of the order service and accepted by the gates of
the auth service and of the product service; the header `Bearer  tok` with two spaces is
accepted by the auth service alone, which passes `tok` to the check where the gateway
passes ` tok`. -/
theorem gates_disagree :
    ApiGateway.AuthMiddleware Sample.acceptTok "bearer tok" =
      .error ⟨401, "invalid authorization format, use: Bearer <token>"⟩ ∧
    (OrderService.AuthMiddleware (fun s => (Sample.acceptTok s).toOption) "bearer tok" :
      Except (OrderService.Response ℚ) Context) =
      .error ⟨401, .error "invalid authorization format"⟩ ∧
    AuthService.AuthMiddleware Sample.acceptTok "bearer tok" =
      .ok { user_id := some 7, role := some "user" } ∧
    (ProductService.JWTAuth
        (fun s => (Sample.acceptTok s).toOption.map (fun c => ⟨c.UserID, c.Role⟩))
        "bearer tok" : Except (ProductService.Response ℚ) Context) =
      .ok { user_id := some 7, role := some "user" } ∧
    AuthService.AuthMiddleware Sample.acceptTok "Bearer  tok" =
      .ok { user_id := some 7, role := some "user" } ∧
    ApiGateway.AuthMiddleware Sample.acceptTok "Bearer  tok" =
      .error ⟨401, "invalid token: token is malformed"⟩ ∧
    Go.TrimPrefix "Bearer  tok" "Bearer " = " tok" ∧
    (ProductService.JWTAuth
        (fun s => (Sample.acceptTok s).toOption.map (fun c => ⟨c.UserID, c.Role⟩))
        "Bearer  tok" : Except (ProductService.Response ℚ) Context) =
      .error ⟨401, .error "invalid authorization format"⟩ := by
  refine ⟨?_, ?_, ?_, ?_, ?_, ?_, ?_, ?_⟩ <;> rfl

/-- C18 as amended: on every header of the form `Bearer ` followed by a token string that
contains no space and has no white space at either end, the four gates pass that same
token string to the token check and decide by its outcome alone: all four accept, with
the same user id and role in the context, when the check accepts, and all four answer 401
when it fails. -/
theorem gates_agree_on_canonical {F : Type} (verify : String → Except String Jwt.Claims)
    (t : String) (hsp : ' ' ∉ t.data) (htrim : Go.TrimSpace t = t) :
    ApiGateway.AuthMiddleware verify ("Bearer " ++ t) =
      (match verify t with
        | .error err => .error ⟨401, "invalid token: " ++ err⟩
        | .ok claims =>
          .ok { ctx := { user_id := some claims.UserID, role := some claims.Role }
                xUserID := toString claims.UserID
                xUserRole := claims.Role }) ∧
    (OrderService.AuthMiddleware (fun s => (verify s).toOption) ("Bearer " ++ t) :
      Except (OrderService.Response F) Context) =
      (match verify t with
        | .error _ => .error ⟨401, .error "invalid or expired token"⟩
        | .ok claims => .ok { user_id := some claims.UserID, role := some claims.Role }) ∧
    AuthService.AuthMiddleware verify ("Bearer " ++ t) =
      (match verify t with
        | .error err => .error ⟨401, "invalid token: " ++ err⟩
        | .ok claims => .ok { user_id := some claims.UserID, role := some claims.Role }) ∧
    (ProductService.JWTAuth
        (fun s => (verify s).toOption.map (fun c => ⟨c.UserID, c.Role⟩)) ("Bearer " ++ t) :
      Except (ProductService.Response F) Context) =
      (match verify t with
        | .error _ => .error ⟨401, .error "invalid or expired token"⟩
        | .ok claims => .ok { user_id := some claims.UserID, role := some claims.Role }) := by
  have hne : ("Bearer " ++ t) ≠ "" := by
    intro h
    have := congrArg (fun s : String => s.data.length) h
    simp [String.data_append] at this
  have htp := Go.TrimPrefix_append "Bearer " t
  have hneq := Go.bearer_append_ne t
  refine ⟨?_, ?_, ?_, ?_⟩
  · simp only [ApiGateway.AuthMiddleware, if_neg hne, htp, if_neg hneq]
  · simp only [OrderService.AuthMiddleware, if_neg hne, htp, if_neg hneq]
    cases verify t <;> rfl
  · have hlow := Go.HasPrefix_lower_of_bearer _ (Go.HasPrefix_append "Bearer " t)
    have hslice : Go.sliceFrom ("Bearer " ++ t) "Bearer ".length = t :=
      Go.sliceFrom_append "Bearer " t
    simp only [AuthService.AuthMiddleware, hne, hlow, hslice, htrim, false_or,
      not_true_eq_false, if_false]
  · have hsplit := Go.Split_bearer t hsp
    have hb : Go.ToLower "Bearer" = "bearer" := by decide
    simp only [ProductService.JWTAuth, if_neg hne, hsplit, hb, ne_eq, not_true_eq_false,
      if_false]
    cases verify t <;> rfl

/-- Witness of C18 as amended: the header `Bearer tok`. -/
theorem gates_agree_on_canonical_witness :
    ' ' ∉ "tok".data ∧ Go.TrimSpace "tok" = "tok" ∧
    ApiGateway.AuthMiddleware Sample.acceptTok ("Bearer " ++ "tok") =
      (match Sample.acceptTok "tok" with
        | .error err => .error ⟨401, "invalid token: " ++ err⟩
        | .ok claims =>
          .ok { ctx := { user_id := some claims.UserID, role := some claims.Role }
                xUserID := toString claims.UserID
                xUserRole := claims.Role }) ∧
    AuthService.AuthMiddleware Sample.acceptTok ("Bearer " ++ "tok") =
      .ok { user_id := some 7, role := some "user" } :=
  ⟨by decide, by decide,
    (gates_agree_on_canonical (F := ℚ) Sample.acceptTok "tok" (by decide) (by decide)).1,
    by rfl⟩

/-- C19: each of the three privileged-role gates lets a request through exactly when the
context holds a role and that role is `saler` or `superadmin`.  Without a role in the
context each gate aborts with a 403 whose message says that the role was not found; with
a role outside the set each aborts with a 403 whose message is `admin access required`;
the two responses of a gate differ. -/
theorem role_gates_spec {F : Type} (c : Context) :
    (ApiGateway.AdminOnlyMiddleware c = none ↔
      ∃ role, c.role = some role ∧ (role = "saler" ∨ role = "superadmin")) ∧
    ((OrderService.AdminOnlyMiddleware c : Option (OrderService.Response F)) = none ↔
      ∃ role, c.role = some role ∧ (role = "saler" ∨ role = "superadmin")) ∧
    ((ProductService.AdminOnly c : Option (ProductService.Response F)) = none ↔
      ∃ role, c.role = some role ∧ (role = "saler" ∨ role = "superadmin")) ∧
    (c.role = none →
      ApiGateway.AdminOnlyMiddleware c = some ⟨403, "role not found in context"⟩ ∧
      (OrderService.AdminOnlyMiddleware c : Option (OrderService.Response F)) =
        some ⟨403, .error "role not found"⟩ ∧
      (ProductService.AdminOnly c : Option (ProductService.Response F)) =
        some ⟨403, .error "role not found in token"⟩) ∧
    (∀ role, c.role = some role → ¬ (role = "saler" ∨ role = "superadmin") →
      ApiGateway.AdminOnlyMiddleware c = some ⟨403, "admin access required"⟩ ∧
      (OrderService.AdminOnlyMiddleware c : Option (OrderService.Response F)) =
        some ⟨403, .error "admin access required"⟩ ∧
      (ProductService.AdminOnly c : Option (ProductService.Response F)) =
        some ⟨403, .error "admin access required"⟩) ∧
    ((⟨403, "role not found in context"⟩ : ErrorResponse) ≠ ⟨403, "admin access required"⟩ ∧
      (⟨403, .error "role not found"⟩ : OrderService.Response F) ≠
        ⟨403, .error "admin access required"⟩ ∧
      (⟨403, .error "role not found in token"⟩ : ProductService.Response F) ≠
        ⟨403, .error "admin access required"⟩) := by
  rcases c with ⟨uid, role⟩
  cases role with
  | none =>
    refine ⟨?_, ?_, ?_, fun _ => ⟨rfl, rfl, rfl⟩, ?_, ?_⟩
    · simp [ApiGateway.AdminOnlyMiddleware]
    · simp [OrderService.AdminOnlyMiddleware, OrderService.GetRole]
    · simp [ProductService.AdminOnly]
    · intro role h; simp at h
    · refine ⟨by decide, ?_, ?_⟩ <;> simp
  | some r =>
    by_cases hr : r = "saler" ∨ r = "superadmin"
    · have hn : ¬ (r ≠ "saler" ∧ r ≠ "superadmin") := by
        rcases hr with h | h <;> simp [h]
      refine ⟨?_, ?_, ?_, fun h => by simp at h, ?_, ?_⟩
      · simp [ApiGateway.AdminOnlyMiddleware, hn, hr]
      · simp [OrderService.AdminOnlyMiddleware, OrderService.GetRole, hn, hr]
      · simp [ProductService.AdminOnly, hn, hr]
      · intro role h hnot
        simp only [Option.some.injEq] at h
        subst h
        exact absurd hr hnot
      · refine ⟨by decide, ?_, ?_⟩ <;> simp
    · have hy : r ≠ "saler" ∧ r ≠ "superadmin" := by
        push_neg at hr
        exact hr
      refine ⟨?_, ?_, ?_, fun h => by simp at h, ?_, ?_⟩
      · simp [ApiGateway.AdminOnlyMiddleware, hy, hr]
      · simp [OrderService.AdminOnlyMiddleware, OrderService.GetRole, hy, hr]
      · simp [ProductService.AdminOnly, hy, hr]
      · intro role h _
        simp only [Option.some.injEq] at h
        subst h
        refine ⟨?_, ?_, ?_⟩
        · simp [ApiGateway.AdminOnlyMiddleware, hy]
        · simp [OrderService.AdminOnlyMiddleware, OrderService.GetRole, hy]
        · simp [ProductService.AdminOnly, hy]
      · refine ⟨by decide, ?_, ?_⟩ <;> simp

end Gates

namespace ApiGateway

/-! ## The gateway's target URL -/

/-- The segments of a path that starts with a group: `/g/x` splits into the empty segment,
`g`, and the segments of `x`. -/
theorem split_group (s g x : String) (hg : '/' ∉ g.data)
    (hs : s.data = '/' :: (g.data ++ '/' :: x.data)) :
    Go.Split s '/' = "" :: g :: Go.Split x '/' := by
  unfold Go.Split
  have h2 := List.splitOnP_first (· == '/') g.data
    (by
      intro c hc hcs
      rw [beq_iff_eq] at hcs
      subst hcs
      exact hg hc) '/' (by decide) x.data
  rw [hs, List.splitOn, List.splitOnP_cons, if_pos (by decide), h2]
  rfl

/-- A split never gives the empty list. -/
theorem split_ne_nil (x : String) (c : Char) : Go.Split x c ≠ [] := by
  unfold Go.Split
  intro h
  rw [List.map_eq_nil_iff] at h
  exact List.splitOnP_ne_nil _ _ h

/-- The route and target of a request below one of the three groups that go to the auth
service. -/
theorem dispatch_group (b : Backends) (method x : String) (hm : method ∈ anyMethods) :
    dispatch b method ("/auth/" ++ x) =
      some ⟨none, [.lit "", .lit "auth", .catchAll], [], .strip "/auth" b.authServiceURL⟩ ∧
    dispatch b method ("/admin/" ++ x) =
      some ⟨none, [.lit "", .lit "admin", .catchAll], [.auth, .adminOnly],
        .strip "/admin" b.authServiceURL⟩ ∧
    dispatch b method ("/notifications/" ++ x) =
      some ⟨none, [.lit "", .lit "notifications", .catchAll], [.auth],
        .keep b.authServiceURL⟩ := by
  obtain ⟨y, ys, hy⟩ := List.exists_cons_of_ne_nil (split_ne_nil x '/')
  have h1 := split_group ("/auth/" ++ x) "auth" x (by decide)
    (by rw [String.data_append]; rfl)
  have h2 := split_group ("/admin/" ++ x) "admin" x (by decide)
    (by rw [String.data_append]; rfl)
  have h3 := split_group ("/notifications/" ++ x) "notifications" x (by decide)
    (by rw [String.data_append]; rfl)
  have hany : decide (method ∈ anyMethods) = true := decide_eq_true hm
  refine ⟨?_, ?_, ?_⟩
  · unfold dispatch
    rw [h1, hy]
    simp [SetupRoutes, List.find?, Route.allows, matchSegs, hany]
  · unfold dispatch
    rw [h2, hy]
    simp [SetupRoutes, List.find?, Route.allows, matchSegs, hany]
  · unfold dispatch
    rw [h3, hy]
    simp [SetupRoutes, List.find?, Route.allows, matchSegs, hany]

/-- C20: `StripPrefixProxy pfx origin` forwards the path `p` with raw query `r` to `origin`
followed by `p` without one leading `pfx` (by `p` itself when `p` does not start with
`pfx`) and, for a non-empty `r`, by `?` and `r`; `ProxyHandler origin` forwards to `origin`
followed by `p` and the same query suffix.  By the route table, a request for `/auth/x` or
`/admin/x` therefore reaches the auth service as `/x`, and a request for
`/notifications/x` reaches it as `/notifications/x`, for every method of `Any`. -/
theorem proxy_target_url (b : Backends) (pfx origin p r x method : String)
    (hm : method ∈ anyMethods) :
    StripPrefixProxy.fullURL pfx origin p r =
      origin ++ (if Go.HasPrefix p pfx then Go.sliceFrom p pfx.length else p) ++
        (if r ≠ "" then "?" ++ r else "") ∧
    StripPrefixProxy.fullURL pfx origin (pfx ++ x) r =
      origin ++ x ++ (if r ≠ "" then "?" ++ r else "") ∧
    ProxyHandler.fullURL origin p r = origin ++ p ++ (if r ≠ "" then "?" ++ r else "") ∧
    (dispatch b method ("/auth/" ++ x)).bind
        (fun rt => rt.handler.fullURL ("/auth/" ++ x) r) =
      some (b.authServiceURL ++ ("/" ++ x) ++ (if r ≠ "" then "?" ++ r else "")) ∧
    (dispatch b method ("/admin/" ++ x)).bind
        (fun rt => rt.handler.fullURL ("/admin/" ++ x) r) =
      some (b.authServiceURL ++ ("/" ++ x) ++ (if r ≠ "" then "?" ++ r else "")) ∧
    (dispatch b method ("/notifications/" ++ x)).bind
        (fun rt => rt.handler.fullURL ("/notifications/" ++ x) r) =
      some (b.authServiceURL ++ ("/notifications/" ++ x) ++
        (if r ≠ "" then "?" ++ r else "")) := by
  have hstrip : ∀ (q o path : String), StripPrefixProxy.fullURL q o path r =
      o ++ (if Go.HasPrefix path q then Go.sliceFrom path q.length else path) ++
        (if r ≠ "" then "?" ++ r else "") := by
    intro q o path
    unfold StripPrefixProxy.fullURL Go.TrimPrefix
    by_cases hp : Go.HasPrefix path q = true
    · by_cases hr : r = ""
      · simp only [hp, if_true, hr, ne_eq, not_true_eq_false, if_false, String.append_empty]
        rfl
      · simp only [hp, if_true, hr, ne_eq, not_false_eq_true]
        rfl
    · by_cases hr : r = ""
      · simp only [hp, if_false, hr, ne_eq, not_true_eq_false, String.append_empty]
        simp
      · simp only [hp, if_false, hr, ne_eq, not_false_eq_true, if_true]
        simp
  have hkeep : ∀ (o path : String), ProxyHandler.fullURL o path r =
      o ++ path ++ (if r ≠ "" then "?" ++ r else "") := by
    intro o path
    unfold ProxyHandler.fullURL
    by_cases hr : r = ""
    · simp [hr]
    · simp [hr]
  have hcut : ∀ (q rest : String),
      (if Go.HasPrefix (q ++ rest) q then Go.sliceFrom (q ++ rest) q.length else q ++ rest) =
        rest := by
    intro q rest
    rw [if_pos (Go.HasPrefix_append q rest)]
    exact Go.sliceFrom_append q rest
  obtain ⟨d1, d2, d3⟩ := dispatch_group b method x hm
  refine ⟨hstrip pfx origin p, ?_, hkeep origin p, ?_, ?_, ?_⟩
  · rw [hstrip, hcut]
  · have hx : ("/auth/" ++ x) = "/auth" ++ ("/" ++ x) := by
      rw [← String.append_assoc]; rfl
    rw [d1, Option.some_bind]
    simp only [Forward.fullURL]
    rw [hx, hstrip, hcut]
  · have hx : ("/admin/" ++ x) = "/admin" ++ ("/" ++ x) := by
      rw [← String.append_assoc]; rfl
    rw [d2, Option.some_bind]
    simp only [Forward.fullURL]
    rw [hx, hstrip, hcut]
  · rw [d3, Option.some_bind]
    simp only [Forward.fullURL]
    rw [hkeep]

/-- Witness of C20: `GET /auth/login?next=1` goes to the auth service as `/login?next=1`. -/
theorem proxy_target_url_witness :
    "GET" ∈ anyMethods ∧
    (dispatch ⟨"http://localhost:8001", "http://localhost:8002", "http://localhost:8003"⟩
        "GET" ("/auth/" ++ "login")).bind
        (fun rt => rt.handler.fullURL ("/auth/" ++ "login") "next=1") =
      some ("http://localhost:8001" ++ ("/" ++ "login") ++
        (if "next=1" ≠ "" then "?" ++ "next=1" else "")) ∧
    "http://localhost:8001" ++ ("/" ++ "login") ++ (if "next=1" ≠ "" then "?" ++ "next=1" else "")
      = "http://localhost:8001/login?next=1" :=
  ⟨by decide,
    (proxy_target_url
      ⟨"http://localhost:8001", "http://localhost:8002", "http://localhost:8003"⟩
      "/auth" "http://localhost:8001" "/auth/login" "next=1" "login" "GET" (by decide)).2.2.2.1,
    by decide⟩

end ApiGateway

namespace ProductService

/-! ## Ownership of products -/

/-- A row found by key has that key. -/
theorem findByID_key {F : Type} {s : ProductStore F} {id : Nat} {p : Product F}
    (h : productRepo.FindByID s id = .ok (some p)) : p.ID = id ∧ s.fault = none ∧ p ∈ s.rows := by
  unfold productRepo.FindByID at h
  cases hf : s.fault with
  | some e => rw [hf] at h; cases h
  | none =>
    rw [hf] at h
    have h1 : s.rows.find? (fun r => r.ID == id) = some p := by
      simpa using h
    have h2 := List.find?_some h1
    exact ⟨by simpa using h2, rfl, List.mem_of_find?_eq_some h1⟩

/-- The service's lookup succeeds exactly like the repository's. -/
theorem getProductByID_of_find {F : Type} {s : ProductStore F} {id : Nat} {p : Product F}
    (h : productRepo.FindByID s id = .ok (some p)) : GetProductByID s id = .ok p := by
  simp only [GetProductByID, h]

/-- Saving a product whose key has a row replaces the row and keeps every key and every
owner when the saved product has the owner of the row it replaces. -/
theorem update_of_mem {F : Type} {s : ProductStore F} {q : Product F} (stamp : Nat)
    (hf : s.fault = none) (hmem : ∃ r ∈ s.rows, r.ID = q.ID) :
    productRepo.Update s q stamp =
      (.ok { q with UpdatedAt := stamp },
        { s with
          rows := s.rows.map (fun r => if r.ID = q.ID then { q with UpdatedAt := stamp } else r) })
      := by
  unfold productRepo.Update
  rw [hf]
  have hany : s.rows.any (fun r => r.ID == q.ID) = true := by
    rcases hmem with ⟨r, hr, hk⟩
    exact List.any_eq_true.mpr ⟨r, hr, by simpa using hk⟩
  simp only [hany, if_true]

/-- C26: for every existing product and every authenticated caller whose id is not the
product's stored `seller_id`, the handlers of `UpdateProduct`, `UpdateStock` and
`DeleteProduct` answer 403 and return the product store unchanged, whatever role the
context holds and whatever body was sent. -/
theorem ownership_enforced {F : Type} (pc : PriceChecks F) (c : Context)
    (idParam : Option Nat) (id uid : Nat) (p : Product F) (s : ProductStore F)
    (dp : Except String (UpdateProductRequest F)) (ds : Except String UpdateStockRequest)
    (now stamp : Nat)
    (hid : parseID idParam = some id)
    (hfind : productRepo.FindByID s id = .ok (some p))
    (hc : c.user_id = some uid) (hne : uid ≠ p.SellerID) :
    ProductHandler.UpdateProduct pc c idParam dp now stamp s =
      (⟨403, .error "Wrong Product ID"⟩, s) ∧
    ProductHandler.UpdateStock c idParam ds now stamp s =
      (⟨403, .error "Product Id is incorrect"⟩, s) ∧
    ProductHandler.DeleteProduct c idParam s =
      (⟨403, .error "you can only delete your own products"⟩, s) := by
  have hg := getProductByID_of_find hfind
  have hne2 : p.SellerID ≠ uid := fun h => hne h.symm
  refine ⟨?_, ?_, ?_⟩
  · simp only [ProductHandler.UpdateProduct, hid, GetUserID, hc, hg, hne2, ne_eq,
      not_false_eq_true, if_true]
  · simp only [ProductHandler.UpdateStock, hid, GetUserID, hc, hg, hne2, ne_eq,
      not_false_eq_true, if_true]
  · simp only [ProductHandler.DeleteProduct, hid, GetUserID, hc, hg, hne2, ne_eq,
      not_false_eq_true, if_true]

/-- C26 at a concrete input: super administrator 9 tries to reprice, restock and delete the
widget of seller 42. -/
theorem ownership_enforced_witness :
    ProductHandler.UpdateProduct Sample.exactPrice Sample.superadmin9 (some 1)
        (.ok Sample.repriceRequest) 200 200 Sample.catalog =
      (⟨403, .error "Wrong Product ID"⟩, Sample.catalog) ∧
    ProductHandler.UpdateStock Sample.superadmin9 (some 1) (.ok ⟨2⟩) 200 200 Sample.catalog =
      (⟨403, .error "Product Id is incorrect"⟩, Sample.catalog) ∧
    ProductHandler.DeleteProduct Sample.superadmin9 (some 1) Sample.catalog =
      (⟨403, .error "you can only delete your own products"⟩, Sample.catalog) :=
  ownership_enforced Sample.exactPrice Sample.superadmin9 (some 1) 1 9 Sample.catalogWidget
    Sample.catalog (.ok Sample.repriceRequest) (.ok ⟨2⟩) 200 200 rfl rfl rfl (by decide)

/-! ## Setting the stock -/

/-- The stock handler on a body that passes validation, called by the owner. -/
theorem updateStock_handler_ok {F : Type} (c : Context) (idParam : Option Nat) (id : Nat)
    (p : Product F) (s : ProductStore F) (n : Int) (now stamp : Nat)
    (hid : parseID idParam = some id)
    (hfind : productRepo.FindByID s id = .ok (some p))
    (hc : c.user_id = some p.SellerID) (hn : 0 < n) :
    ProductHandler.UpdateStock c idParam (.ok ⟨n⟩) now stamp s =
      (⟨200, .withMessage "stock updated successfully"
          { p with Quantity := n, UpdatedAt := stamp }⟩,
        { s with
          rows := s.rows.map
            (fun r => if r.ID = id then { p with Quantity := n, UpdatedAt := stamp } else r) })
      := by
  have hg := getProductByID_of_find hfind
  obtain ⟨hk, hf, hmem⟩ := findByID_key hfind
  have hn0 : n ≠ 0 := by omega
  have hn1 : (0 : Int) ≤ n := by omega
  have hu := update_of_mem (q := { p with Quantity := n, UpdatedAt := now }) stamp hf
    ⟨p, hmem, rfl⟩
  subst hk
  simp only [ProductHandler.UpdateStock, hid, GetUserID, hc, hg, ne_eq, not_true_eq_false,
    if_false, bindUpdateStockRequest, UpdateStockRequest.failures, hn0, hn1,
    ProductService.UpdateStock, hfind, not_true_eq_false, if_false]
  rw [hu]

/-- C28: for an existing product and its owning caller, the stock-update body
`quantity: 0` is answered with 400 by the `required` tag and the store is returned unchanged,
although zero is the value the order workflow writes when an order takes the whole stock;
every `n > 0` is accepted and stored with only quantity and `updated_at` changed, and every
`n < 0` is answered with 400 by the `gte` tag with the store unchanged. -/
theorem updateStock_zero_rejected {F : Type} (c : Context) (idParam : Option Nat) (id : Nat)
    (p : Product F) (s : ProductStore F) (now stamp : Nat)
    (hid : parseID idParam = some id)
    (hfind : productRepo.FindByID s id = .ok (some p))
    (hc : c.user_id = some p.SellerID) :
    ProductHandler.UpdateStock c idParam (.ok ⟨0⟩) now stamp s =
      (⟨400, .error (validationMessage "UpdateStockRequest" "Quantity" "required")⟩, s) ∧
    (∀ k : Int, OrderService.newQuantity k k = 0) ∧
    (∀ n : Int, 0 < n →
      ProductHandler.UpdateStock c idParam (.ok ⟨n⟩) now stamp s =
        (⟨200, .withMessage "stock updated successfully"
            { p with Quantity := n, UpdatedAt := stamp }⟩,
          { s with
            rows := s.rows.map
              (fun r => if r.ID = id then { p with Quantity := n, UpdatedAt := stamp } else r) }))
      ∧
    (∀ n : Int, n < 0 →
      ProductHandler.UpdateStock c idParam (.ok ⟨n⟩) now stamp s =
        (⟨400, .error (validationMessage "UpdateStockRequest" "Quantity" "gte")⟩, s)) := by
  have hg := getProductByID_of_find hfind
  refine ⟨?_, ?_, ?_, ?_⟩
  · simp only [ProductHandler.UpdateStock, hid, GetUserID, hc, hg, ne_eq, not_true_eq_false,
      if_false, bindUpdateStockRequest, UpdateStockRequest.failures, if_true, List.map]
    rfl
  · intro k
    simp [OrderService.newQuantity, wrapInt64]
  · intro n hn
    exact updateStock_handler_ok c idParam id p s n now stamp hid hfind hc hn
  · intro n hn
    have hn0 : n ≠ 0 := by omega
    have hn1 : ¬ (0 : Int) ≤ n := by omega
    simp only [ProductHandler.UpdateStock, hid, GetUserID, hc, hg, ne_eq, not_true_eq_false,
      if_false, bindUpdateStockRequest, UpdateStockRequest.failures, hn0, hn1,
      not_false_eq_true, if_true, List.map]
    rfl

/-- C28 at a concrete input: seller 42 sets the stock of their widget to zero. -/
theorem updateStock_zero_rejected_witness :
    ProductHandler.UpdateStock Sample.seller42 (some 1) (.ok ⟨0⟩) 200 200 Sample.catalog =
      (⟨400, .error "Key: \x27UpdateStockRequest.Quantity\x27 Error:Field validation for \x27Quantity\x27 failed on the \x27required\x27 tag"⟩,
        Sample.catalog) :=
  (updateStock_zero_rejected Sample.seller42 (some 1) 1 Sample.catalogWidget Sample.catalog
    200 200 rfl rfl rfl).1

/-! ## The owner of a product never changes -/

/-- The service's assignments leave the key, the owner and the creation time alone. -/
theorem applyUpdate_fields {F : Type} (p : Product F) (req : UpdateProductRequest F) (now : Nat) :
    applyUpdate p req now =
      { ID := p.ID
        Name := req.Name.getD p.Name
        Description := req.Description.getD p.Description
        Price := req.Price.getD p.Price
        SellerID := p.SellerID
        Quantity := req.Quantity.getD p.Quantity
        CreatedAt := p.CreatedAt
        UpdatedAt := now } := by
  rcases req with ⟨n, d, pr, sid, q⟩
  cases n <;> cases d <;> cases pr <;> cases q <;> rfl

/-- Saving over the row found by key keeps the list of keys and owners, when keys are
unique and the saved product has the key and the owner of that row. -/
theorem update_keeps_owners {F : Type} {s : ProductStore F} {p q : Product F} (stamp : Nat)
    (hnd : (s.rows.map (fun r => r.ID)).Nodup) (hf : s.fault = none) (hmem : p ∈ s.rows)
    (hk : q.ID = p.ID) (ho : q.SellerID = p.SellerID) :
    (productRepo.Update s q stamp).2.rows.map (fun r => (r.ID, r.SellerID)) =
      s.rows.map (fun r => (r.ID, r.SellerID)) := by
  rw [update_of_mem stamp hf ⟨p, hmem, hk.symm⟩]
  simp only [List.map_map]
  apply List.map_congr_left
  intro r hr
  by_cases h : r.ID = q.ID
  · have hrp : r = p := List.inj_on_of_nodup_map hnd hr hmem (h.trans hk)
    subst hrp
    simp [Function.comp, h, ho]
  · simp [Function.comp, h]

/-- One update request leaves the list of keys and owners as it was, when keys are unique. -/
theorem run_keeps_owners {F : Type} (pc : PriceChecks F) (call : UpdateCall F)
    (s : ProductStore F) (hnd : (s.rows.map (fun r => r.ID)).Nodup) :
    (call.run pc s).rows.map (fun r => (r.ID, r.SellerID)) =
      s.rows.map (fun r => (r.ID, r.SellerID)) := by
  cases call with
  | updateProduct c idParam decoded now stamp =>
    simp only [UpdateCall.run, ProductHandler.UpdateProduct]
    cases parseID idParam with
    | none => rfl
    | some id =>
      cases GetUserID c with
      | error e => rfl
      | ok sellerID =>
        simp only [GetProductByID]
        cases hfind : productRepo.FindByID s id with
        | error e => rfl
        | ok found =>
          cases found with
          | none => rfl
          | some p =>
            obtain ⟨_, hf, hmem⟩ := findByID_key hfind
            simp only []
            split
            · rfl
            · cases bindUpdateProductRequest pc decoded with
              | error e => rfl
              | ok req =>
                simp only [ProductService.UpdateProduct, hfind]
                have h := update_keeps_owners (q := applyUpdate p req now) stamp hnd hf hmem
                  (by rw [applyUpdate_fields]) (by rw [applyUpdate_fields])
                rcases hu : productRepo.Update s (applyUpdate p req now) stamp with ⟨r, s1⟩
                rw [hu] at h
                cases r <;> exact h
  | updateStock c idParam decoded now stamp =>
    simp only [UpdateCall.run, ProductHandler.UpdateStock]
    cases parseID idParam with
    | none => rfl
    | some id =>
      cases GetUserID c with
      | error e => rfl
      | ok sellerID =>
        simp only [GetProductByID]
        cases hfind : productRepo.FindByID s id with
        | error e => rfl
        | ok found =>
          cases found with
          | none => rfl
          | some p =>
            obtain ⟨_, hf, hmem⟩ := findByID_key hfind
            simp only []
            split
            · rfl
            · cases bindUpdateStockRequest decoded with
              | error e => rfl
              | ok req =>
                simp only [ProductService.UpdateStock, hfind]
                have h := update_keeps_owners
                  (q := { p with Quantity := req.Quantity, UpdatedAt := now }) stamp hnd hf hmem
                  rfl rfl
                rcases hu : productRepo.Update s
                  { p with Quantity := req.Quantity, UpdatedAt := now } stamp with ⟨r, s1⟩
                rw [hu] at h
                cases r <;> exact h

/-- Any sequence of update requests leaves the list of keys and owners as it was. -/
theorem serveUpdates_keeps_owners {F : Type} (pc : PriceChecks F) (calls : List (UpdateCall F)) :
    ∀ s : ProductStore F, (s.rows.map (fun r => r.ID)).Nodup →
      (serveUpdates pc calls s).rows.map (fun r => (r.ID, r.SellerID)) =
        s.rows.map (fun r => (r.ID, r.SellerID)) := by
  induction calls with
  | nil => intro s _; rfl
  | cons call calls ih =>
    intro s hnd
    have h1 := run_keeps_owners pc call s hnd
    have hids : (call.run pc s).rows.map (fun r => r.ID) = s.rows.map (fun r => r.ID) := by
      have := congrArg (List.map Prod.fst) h1
      simpa [List.map_map, Function.comp] using this
    have h2 := ih (call.run pc s) (by rw [hids]; exact hnd)
    simp only [serveUpdates, List.foldl_cons] at h2 ⊢
    rw [h2, h1]

/-- The create handler on a body that passes validation, with a working store. -/
theorem createProduct_handler_ok {F : Type} (pc : PriceChecks F) (c : Context) (uid : Nat)
    (req : CreateProductRequest F) (now1 now2 : Nat) (s : ProductStore F)
    (hv : req.failures pc = []) (hc : c.user_id = some uid) (hf : s.fault = none) :
    ProductHandler.CreateProduct pc c (.ok req) now1 now2 s =
      (⟨201, .withMessage "product created successfully"
          { ID := s.lastID + 1, Name := req.Name, Description := req.Description,
            Price := req.Price, SellerID := uid, Quantity := req.Quantity,
            CreatedAt := now1, UpdatedAt := now2 }⟩,
        { s with
          rows := s.rows ++
            [{ ID := s.lastID + 1, Name := req.Name, Description := req.Description,
               Price := req.Price, SellerID := uid, Quantity := req.Quantity,
               CreatedAt := now1, UpdatedAt := now2 }]
          lastID := s.lastID + 1 }) := by
  simp only [ProductHandler.CreateProduct, bindCreateProductRequest, hv, GetUserID, hc,
    ProductService.CreateProduct, productRepo.Create, hf, if_true]

/-- The update handler on a body that passes validation, called by the owner. -/
theorem updateProduct_handler_ok {F : Type} (pc : PriceChecks F) (c : Context)
    (idParam : Option Nat) (id : Nat) (p : Product F) (s : ProductStore F)
    (req : UpdateProductRequest F) (now stamp : Nat)
    (hid : parseID idParam = some id)
    (hfind : productRepo.FindByID s id = .ok (some p))
    (hc : c.user_id = some p.SellerID) (hv : req.failures pc = []) :
    ProductHandler.UpdateProduct pc c idParam (.ok req) now stamp s =
      (⟨200, .withMessage "product updated successfully"
          { ID := p.ID, Name := req.Name.getD p.Name,
            Description := req.Description.getD p.Description,
            Price := req.Price.getD p.Price, SellerID := p.SellerID,
            Quantity := req.Quantity.getD p.Quantity, CreatedAt := p.CreatedAt,
            UpdatedAt := stamp }⟩,
        { s with
          rows := s.rows.map (fun r => if r.ID = id then
            { ID := p.ID, Name := req.Name.getD p.Name,
              Description := req.Description.getD p.Description,
              Price := req.Price.getD p.Price, SellerID := p.SellerID,
              Quantity := req.Quantity.getD p.Quantity, CreatedAt := p.CreatedAt,
              UpdatedAt := stamp } else r) }) := by
  have hg := getProductByID_of_find hfind
  obtain ⟨hk, hf, hmem⟩ := findByID_key hfind
  have hu := update_of_mem (q := applyUpdate p req now) stamp hf
    ⟨p, hmem, by rw [applyUpdate_fields]⟩
  subst hk
  simp only [ProductHandler.UpdateProduct, hid, GetUserID, hc, hg, ne_eq, not_true_eq_false,
    if_false, bindUpdateProductRequest, hv, ProductService.UpdateProduct, hfind]
  rw [hu, applyUpdate_fields]

/-- C30: `CreateProduct` stores the caller id as `seller_id` whatever `SellerID` the body
carries; no sequence of `UpdateProduct` and `UpdateStock` requests changes the list of keys
and owners of a table with unique keys, whatever their bodies carry; and an accepted
`UpdateProduct` by the owner replaces name, description, price and quantity by the members
the body carries, keeps the others, keeps key, owner and creation time, and stamps
`updated_at`, leaving the rows with other keys as they were. -/
theorem seller_id_integrity {F : Type} (pc : PriceChecks F) :
    (∀ (c : Context) (uid : Nat) (req : CreateProductRequest F) (now1 now2 : Nat)
        (s : ProductStore F),
        req.failures pc = [] → c.user_id = some uid → s.fault = none →
        ProductHandler.CreateProduct pc c (.ok req) now1 now2 s =
          (⟨201, .withMessage "product created successfully"
              { ID := s.lastID + 1, Name := req.Name, Description := req.Description,
                Price := req.Price, SellerID := uid, Quantity := req.Quantity,
                CreatedAt := now1, UpdatedAt := now2 }⟩,
            { s with
              rows := s.rows ++
                [{ ID := s.lastID + 1, Name := req.Name, Description := req.Description,
                   Price := req.Price, SellerID := uid, Quantity := req.Quantity,
                   CreatedAt := now1, UpdatedAt := now2 }]
              lastID := s.lastID + 1 })) ∧
    (∀ (calls : List (UpdateCall F)) (s : ProductStore F),
        (s.rows.map (fun r => r.ID)).Nodup →
        (serveUpdates pc calls s).rows.map (fun r => (r.ID, r.SellerID)) =
          s.rows.map (fun r => (r.ID, r.SellerID))) ∧
    (∀ (c : Context) (idParam : Option Nat) (id : Nat) (p : Product F) (s : ProductStore F)
        (req : UpdateProductRequest F) (now stamp : Nat),
        parseID idParam = some id → productRepo.FindByID s id = .ok (some p) →
        c.user_id = some p.SellerID → req.failures pc = [] →
        ProductHandler.UpdateProduct pc c idParam (.ok req) now stamp s =
          (⟨200, .withMessage "product updated successfully"
              { ID := p.ID, Name := req.Name.getD p.Name,
                Description := req.Description.getD p.Description,
                Price := req.Price.getD p.Price, SellerID := p.SellerID,
                Quantity := req.Quantity.getD p.Quantity, CreatedAt := p.CreatedAt,
                UpdatedAt := stamp }⟩,
            { s with
              rows := s.rows.map (fun r => if r.ID = id then
                { ID := p.ID, Name := req.Name.getD p.Name,
                  Description := req.Description.getD p.Description,
                  Price := req.Price.getD p.Price, SellerID := p.SellerID,
                  Quantity := req.Quantity.getD p.Quantity, CreatedAt := p.CreatedAt,
                  UpdatedAt := stamp } else r) })) :=
  ⟨fun c uid req now1 now2 s hv hc hf => createProduct_handler_ok pc c uid req now1 now2 s hv hc hf,
   fun calls s hnd => serveUpdates_keeps_owners pc calls s hnd,
   fun c idParam id p s req now stamp hid hfind hc hv =>
     updateProduct_handler_ok pc c idParam id p s req now stamp hid hfind hc hv⟩

/-- C30 at concrete inputs: seller 42 creates a gadget with a body naming seller 1; then a
reprice carrying `SellerID` 7 and a restock leave the owner of the widget at 42; and the
reprice alone changes the price and `updated_at` of the widget only. -/
theorem seller_id_integrity_witness :
    (ProductHandler.CreateProduct Sample.exactPrice Sample.seller42 (.ok Sample.gadgetRequest)
        200 200 Sample.catalog).2.rows.map (fun r => (r.ID, r.SellerID)) = [(1, 42), (2, 42)] ∧
    (serveUpdates Sample.exactPrice
        [.updateProduct Sample.seller42 (some 1) (.ok Sample.repriceRequest) 200 200,
         .updateStock Sample.seller42 (some 1) (.ok ⟨9⟩) 201 201]
        Sample.catalog).rows.map (fun r => (r.ID, r.SellerID)) = [(1, 42)] ∧
    (ProductHandler.UpdateProduct Sample.exactPrice Sample.seller42 (some 1)
        (.ok Sample.repriceRequest) 200 200 Sample.catalog).2.rows =
      [{ Sample.catalogWidget with Price := 12, UpdatedAt := 200 }] := by
  have h := seller_id_integrity Sample.exactPrice
  refine ⟨?_, ?_, ?_⟩
  · rw [h.1 Sample.seller42 42 Sample.gadgetRequest 200 200 Sample.catalog
      (by simp [CreateProductRequest.failures, Sample.gadgetRequest, Sample.exactPrice]; decide)
      rfl rfl]
    rfl
  · rw [h.2.1 _ Sample.catalog (by decide)]
    rfl
  · rw [h.2.2 Sample.seller42 (some 1) 1 Sample.catalogWidget Sample.catalog
      Sample.repriceRequest 200 200 rfl rfl rfl
      (by simp [UpdateProductRequest.failures, Sample.repriceRequest, Sample.exactPrice])]
    rfl

end ProductService

namespace Go

/-! ## Header maps -/

/-- Reading a map after a write. -/
theorem values_put (h : Header) (key : String) (vs : List String) (k : String) :
    (h.put key vs).values k = if k = key then vs else h.values k := by
  induction h with
  | nil =>
    by_cases hk : k = key
    · subst hk
      simp [Header.put, Header.values, List.lookup]
    · have hne : (k == key) = false := by simpa using hk
      simp [Header.put, Header.values, List.lookup, hk, hne]
  | cons kv rest ih =>
    rcases kv with ⟨k0, v0⟩
    simp only [Header.put]
    by_cases h0 : k0 = key
    · subst h0
      rw [if_pos rfl]
      by_cases hk : k = k0
      · subst hk
        simp [Header.values, List.lookup]
      · have hne : (k == k0) = false := by simpa using hk
        simp [Header.values, List.lookup, hk, hne]
    · rw [if_neg h0]
      by_cases hk : k = k0
      · subst hk
        have hne : ¬ k = key := h0
        simp [Header.values, List.lookup, hne]
      · have hne : (k == k0) = false := by simpa using hk
        have ih2 := ih
        simp only [Header.values] at ih2 ⊢
        simp only [List.lookup, hne]
        exact ih2

/-- The keys of a map after a write: a new key goes to the end. -/
theorem keys_put (h : Header) (key : String) (vs : List String) :
    (h.put key vs).map (fun kv => kv.1) =
      if key ∈ h.map (fun kv => kv.1) then h.map (fun kv => kv.1)
      else h.map (fun kv => kv.1) ++ [key] := by
  induction h with
  | nil => simp [Header.put]
  | cons kv rest ih =>
    rcases kv with ⟨k0, v0⟩
    simp only [Header.put]
    by_cases h0 : k0 = key
    · subst h0
      simp
    · rw [if_neg h0]
      have h1 : ¬ key = k0 := fun h => h0 h.symm
      simp only [List.map_cons, ih, List.mem_cons, h1, false_or]
      split <;> simp

/-- A write under a canonical key keeps a header well formed. -/
theorem wf_put (h : Header) (key : String) (vs : List String) (hwf : h.WF)
    (hkey : CanonicalMIMEHeaderKey key = key) : (h.put key vs).WF := by
  constructor
  · rw [keys_put]
    split
    · exact hwf.1
    · rename_i hmem
      exact List.Nodup.append hwf.1 (List.nodup_singleton key)
        (by
          intro a ha hb
          rw [List.mem_singleton] at hb
          subst hb
          exact hmem ha)
  · intro kv hkv
    have hmem : kv.1 ∈ (h.put key vs).map (fun kv => kv.1) := List.mem_map_of_mem _ hkv
    rw [keys_put] at hmem
    split at hmem
    · obtain ⟨kv2, hkv2, heq⟩ := List.mem_map.mp hmem
      rw [← heq]
      exact hwf.2 kv2 hkv2
    · rcases List.mem_append.mp hmem with hm | hm
      · obtain ⟨kv2, hkv2, heq⟩ := List.mem_map.mp hm
        rw [← heq]
        exact hwf.2 kv2 hkv2
      · rw [List.mem_singleton] at hm
        rw [hm]
        exact hkey

/-- Adding the values of one entry, in order. -/
theorem values_addAll (key : String) (vs : List String) :
    ∀ (dst : Header) (k : String),
      (vs.foldl (fun dst value => dst.Add key value) dst).values k =
        dst.values k ++ (if CanonicalMIMEHeaderKey key = k then vs else []) := by
  induction vs with
  | nil => intro dst k; simp
  | cons v vs ih =>
    intro dst k
    rw [List.foldl_cons, ih]
    simp only [Header.Add, values_put]
    by_cases hk : CanonicalMIMEHeaderKey key = k
    · subst hk
      simp
    · have hk2 : ¬ k = CanonicalMIMEHeaderKey key := fun h => hk h.symm
      simp [hk, hk2]

/-- In a well-formed header the collected values of a key are its values. -/
theorem collected_of_wf (h : Header) (hwf : h.WF) (k : String) :
    h.collected k = h.values k := by
  induction h with
  | nil => rfl
  | cons kv rest ih =>
    rcases kv with ⟨k0, v0⟩
    have hwf2 : Header.WF rest :=
      ⟨(List.nodup_cons.mp hwf.1).2, fun kv hkv => hwf.2 kv (List.mem_cons_of_mem _ hkv)⟩
    have hc : CanonicalMIMEHeaderKey k0 = k0 := hwf.2 (k0, v0) (List.mem_cons_self _ _)
    have hnot : k0 ∉ rest.map (fun kv => kv.1) := (List.nodup_cons.mp hwf.1).1
    simp only [Header.collected, hc, ih hwf2]
    by_cases hk : k0 = k
    · subst hk
      have hnone : List.lookup k0 rest = none := by
        rw [List.lookup_eq_none_iff]
        intro p hp
        rw [bne_iff_ne]
        intro heq
        apply hnot
        rw [heq]
        exact List.mem_map_of_mem _ hp
      simp [Header.values, List.lookup, hnone]
    · have hne : (k == k0) = false := by
        simpa using fun h : k = k0 => hk h.symm
      simp [Header.values, List.lookup, hk, hne]

end Go

namespace ApiGateway

/-! ## The headers the proxy copies -/

/-- The copy loop, for arbitrary maps: every key of the target gets the values it had and
then the values of the source entries with that canonical key, in order. -/
theorem values_copyHeaders (src : Go.Header) :
    ∀ (dst : Go.Header) (k : String),
      (copyHeaders src dst).values k = dst.values k ++ src.collected k := by
  induction src with
  | nil => intro dst k; simp [copyHeaders, Go.Header.collected]
  | cons kv rest ih =>
    intro dst k
    have h := ih (kv.2.foldl (fun dst value => dst.Add kv.1 value) dst) k
    simp only [copyHeaders, List.foldl_cons] at h ⊢
    rw [h, Go.values_addAll, Go.Header.collected, List.append_assoc]

/-- C21: both proxy handlers send the backend a request whose header holds, under every
key, exactly the values of the inbound header under that key, in the same order; and the
response written to the client holds under every key the values the response writer held
followed by exactly the values of the backend response under that key, in the same order.
Inbound and backend headers are well formed: every key once, in canonical form. -/
theorem header_multiplicity (net : Net) (fullURL : String) (req : Request)
    (writer : Go.Header) (hreq : req.header.WF)
    (hnew : net.newRequestErr req.method fullURL = false) :
    (∃ out, (forward net fullURL req writer).1 = some out ∧
      ∀ k, out.header.values k = req.header.values k) ∧
    (∀ resp,
      net.Do ⟨req.method, fullURL, copyHeaders req.header [], req.body⟩ = some resp →
      resp.header.WF →
      ∀ k, (forward net fullURL req writer).2.header.values k =
        writer.values k ++ resp.header.values k) := by
  have hout : ∀ k, (copyHeaders req.header []).values k = req.header.values k := by
    intro k
    rw [values_copyHeaders, Go.collected_of_wf _ hreq]
    rfl
  constructor
  · simp only [forward, hnew, Bool.false_eq_true, if_false]
    cases net.Do ⟨req.method, fullURL, copyHeaders req.header [], req.body⟩ with
    | none => exact ⟨_, rfl, hout⟩
    | some resp => exact ⟨_, rfl, hout⟩
  · intro resp hdo hresp k
    simp only [forward, hnew, hdo, Bool.false_eq_true, if_false]
    rw [values_copyHeaders, Go.collected_of_wf _ hresp]

/-- C21 at a concrete input: the two `Accept` values of the request reach the backend as
two values in the same order, and the two cookies of the backend reach the client as two
values after the one the writer already held. -/
theorem header_multiplicity_witness :
    (∃ out, (forward Sample.echoNet "http://localhost:8003/orders?page=2" Sample.listOrders
        [("Set-Cookie", ["z=0"])]).1 = some out ∧
      out.header.values "Accept" = ["text/html", "application/json"]) ∧
    (forward Sample.echoNet "http://localhost:8003/orders?page=2" Sample.listOrders
        [("Set-Cookie", ["z=0"])]).2.header.values "Set-Cookie" = ["z=0", "a=1", "b=2"] := by
  have h := header_multiplicity Sample.echoNet "http://localhost:8003/orders?page=2"
    Sample.listOrders [("Set-Cookie", ["z=0"])] (by decide) rfl
  refine ⟨?_, ?_⟩
  · obtain ⟨out, ho, hv⟩ := h.1
    exact ⟨out, ho, by rw [hv]; rfl⟩
  · rw [h.2 ⟨200, [("Set-Cookie", ["a=1", "b=2"])], "ok"⟩ rfl (by decide)]
    rfl

/-! ## What the gateway changes on a forwarded request -/

/-- A request passes the gateway's `AuthMiddleware` only with claims the token check
returned for the text after `Bearer `. -/
theorem authMiddleware_ok {validate : String → Except String Jwt.Claims} {authHeader : String}
    {p : Passed} (h : AuthMiddleware validate authHeader = .ok p) :
    ∃ claims, validate (Go.TrimPrefix authHeader "Bearer ") = .ok claims ∧
      p = { ctx := { user_id := some claims.UserID, role := some claims.Role }
            xUserID := toString claims.UserID
            xUserRole := claims.Role } := by
  unfold AuthMiddleware at h
  split at h
  · cases h
  · simp only [] at h
    split at h
    · cases h
    · cases hv : validate (Go.TrimPrefix authHeader "Bearer ") with
      | error e => rw [hv] at h; cases h
      | ok claims =>
        rw [hv] at h
        simp only [Except.ok.injEq] at h
        exact ⟨claims, rfl, h.symm⟩

/-- The two headers the gateway sets, read back. -/
theorem values_set_user (h : Go.Header) (a b k : String) :
    ((h.Set "X-User-ID" a).Set "X-User-Role" b).values k =
      if k = "X-User-Role" then [b] else if k = "X-User-Id" then [a] else h.values k := by
  have h1 : Go.CanonicalMIMEHeaderKey "X-User-ID" = "X-User-Id" := by decide
  have h2 : Go.CanonicalMIMEHeaderKey "X-User-Role" = "X-User-Role" := by decide
  simp only [Go.Header.Set, Go.values_put, h1, h2]

/-- The two headers the gateway sets keep a header well formed. -/
theorem wf_set_user (h : Go.Header) (a b : String) (hwf : h.WF) :
    ((h.Set "X-User-ID" a).Set "X-User-Role" b).WF := by
  have h1 : Go.CanonicalMIMEHeaderKey "X-User-ID" = "X-User-Id" := by decide
  have h2 : Go.CanonicalMIMEHeaderKey "X-User-Role" = "X-User-Role" := by decide
  simp only [Go.Header.Set, h1, h2]
  exact Go.wf_put _ _ _ (Go.wf_put _ _ _ hwf (by decide)) (by decide)

/-- What the gates of a route leave of a request that passes them: everything but the
headers `X-User-Id` and `X-User-Role`, which `AuthMiddleware` sets from the claims of the
token in the `Authorization` header. -/
theorem runGates_spec (validate : String → Except String Jwt.Claims) (gs : List Gate) :
    ∀ (req req1 : Request) (c c1 : Context),
      runGates validate gs req c = .ok (req1, c1) →
      req1.method = req.method ∧ req1.path = req.path ∧ req1.rawQuery = req.rawQuery ∧
      req1.body = req.body ∧
      (req.header.WF → req1.header.WF) ∧
      (∀ k, k ≠ "X-User-Id" → k ≠ "X-User-Role" →
        req1.header.values k = req.header.values k) ∧
      (Gate.auth ∉ gs → req1.header = req.header) ∧
      (Gate.auth ∈ gs →
        ∃ claims,
          validate (Go.TrimPrefix (req.header.Get "Authorization") "Bearer ") = .ok claims ∧
          req1.header.values "X-User-Id" = [toString claims.UserID] ∧
          req1.header.values "X-User-Role" = [claims.Role]) := by
  induction gs with
  | nil =>
    intro req req1 c c1 h
    simp only [runGates, Except.ok.injEq, Prod.mk.injEq] at h
    obtain ⟨h1, _⟩ := h
    subst h1
    exact ⟨rfl, rfl, rfl, rfl, id, fun _ _ _ => rfl, fun _ => rfl, fun hm => by cases hm⟩
  | cons g gs ih =>
    intro req req1 c c1 h
    cases g with
    | auth =>
      simp only [runGates] at h
      cases hp : AuthMiddleware validate (req.header.Get "Authorization") with
      | error e => rw [hp] at h; cases h
      | ok p =>
        rw [hp] at h
        obtain ⟨claims, hv, hpe⟩ := authMiddleware_ok hp
        obtain ⟨hm, hpath, hq, hb, hwf, hother, hno, hyes⟩ := ih _ _ _ _ h
        have hauth : ((req.header.Set "X-User-ID" p.xUserID).Set "X-User-Role"
            p.xUserRole).Get "Authorization" = req.header.Get "Authorization" := by
          simp only [Go.Header.Get]
          rw [values_set_user]
          have h0 : Go.CanonicalMIMEHeaderKey "Authorization" = "Authorization" := by decide
          rw [h0, if_neg (by decide), if_neg (by decide)]
        refine ⟨hm, hpath, hq, hb, fun hw => hwf (wf_set_user _ _ _ hw), ?_, ?_, ?_⟩
        · intro k hk1 hk2
          rw [hother k hk1 hk2]
          simp only [values_set_user, hk1, hk2, if_false]
        · intro hn
          exact absurd (List.mem_cons_self _ _) hn
        · intro _
          refine ⟨claims, hv, ?_, ?_⟩
          · by_cases hin : Gate.auth ∈ gs
            · obtain ⟨claims2, hv2, hx, _⟩ := hyes hin
              simp only [] at hv2
              rw [hauth, hv] at hv2
              cases hv2
              exact hx
            · rw [hno hin, hpe]
              simp [values_set_user]
          · by_cases hin : Gate.auth ∈ gs
            · obtain ⟨claims2, hv2, _, hx⟩ := hyes hin
              simp only [] at hv2
              rw [hauth, hv] at hv2
              cases hv2
              exact hx
            · rw [hno hin, hpe]
              simp [values_set_user]
    | adminOnly =>
      simp only [runGates] at h
      cases ha : AdminOnlyMiddleware c with
      | some e => rw [ha] at h; cases h
      | none =>
        rw [ha] at h
        obtain ⟨hm, hpath, hq, hb, hwf, hother, hno, hyes⟩ := ih _ _ _ _ h
        refine ⟨hm, hpath, hq, hb, hwf, hother, ?_, ?_⟩
        · intro hn
          exact hno (fun hin => hn (List.mem_cons_of_mem _ hin))
        · intro hin
          rcases List.mem_cons.mp hin with h0 | h0
          · cases h0
          · exact hyes h0

/-- C22 (counterexample): on the authenticated route `GET /orders` the request sent to the
order service is not the client's.  The client sent `X-User-Id: 999` and no `X-User-Role`;
the backend receives `X-User-Id: 7` and `X-User-Role: user`, the values of the token. -/
theorem forwarded_headers_changed :
    handle Sample.backends Sample.acceptTok Sample.echoNet [] Sample.listOrders =
      some (some Sample.listOrdersSent, Sample.listOrdersAnswer) ∧
    Sample.listOrders.header.values "X-User-Id" = ["999"] ∧
    Sample.listOrdersSent.header.values "X-User-Id" = ["7"] ∧
    Sample.listOrders.header.values "X-User-Role" = [] ∧
    Sample.listOrdersSent.header.values "X-User-Role" = ["user"] :=
  ⟨rfl, rfl, rfl, rfl, rfl⟩

/-- C22 (amended): a request the gateway forwards reaches the backend with the client's
method and body, at the URL the route's handler builds from the client's path and raw
query (a non-empty raw query is the text after the question mark, unchanged), and with the
client's values under every header key other than `X-User-Id` and `X-User-Role`.  On a
route without `AuthMiddleware` these two keys hold the client's values as well; on a route
with `AuthMiddleware` they hold exactly the user id and the role of the token in the
`Authorization` header, whatever the client sent under them. -/
theorem forwarded_request_frame (b : Backends) (validate : String → Except String Jwt.Claims)
    (net : Net) (writer : Go.Header) (req : Request) (out : OutboundRequest)
    (resp : ClientResponse) (hwf : req.header.WF)
    (h : handle b validate net writer req = some (some out, resp)) :
    ∃ r, dispatch b req.method req.path = some r ∧
      out.method = req.method ∧ out.body = req.body ∧
      r.handler.fullURL req.path req.rawQuery = some out.url ∧
      (req.rawQuery ≠ "" → ∃ base, out.url = base ++ ("?" ++ req.rawQuery)) ∧
      (∀ k, k ≠ "X-User-Id" → k ≠ "X-User-Role" →
        out.header.values k = req.header.values k) ∧
      (Gate.auth ∉ r.gates → ∀ k, out.header.values k = req.header.values k) ∧
      (Gate.auth ∈ r.gates →
        ∃ claims,
          validate (Go.TrimPrefix (req.header.Get "Authorization") "Bearer ") = .ok claims ∧
          out.header.values "X-User-Id" = [toString claims.UserID] ∧
          out.header.values "X-User-Role" = [claims.Role]) := by
  unfold handle at h
  cases hd : dispatch b req.method req.path with
  | none => rw [hd] at h; cases h
  | some r =>
    rw [hd] at h
    simp only [] at h
    have hcors : corsPreflight req = false := by
      cases hc : corsPreflight req with
      | false => rfl
      | true => rw [hc] at h; cases h
    rw [hcors] at h
    simp only [Bool.false_eq_true, if_false] at h
    cases hg : runGates validate r.gates req ⟨none, none⟩ with
    | error e => rw [hg] at h; cases h
    | ok rc =>
      rcases rc with ⟨req1, c1⟩
      rw [hg] at h
      simp only [] at h
      obtain ⟨hm, hpath, hq, hb, hwf1, hother, hno, hyes⟩ := runGates_spec validate _ _ _ _ _ hg
      cases hu : r.handler.fullURL req1.path req1.rawQuery with
      | none => rw [hu] at h; cases h
      | some fullURL =>
        rw [hu] at h
        simp only [Option.some.injEq] at h
        have hout : out = ⟨req1.method, fullURL, copyHeaders req1.header [], req1.body⟩ := by
          unfold forward at h
          split at h
          · cases h
          · simp only [] at h
            split at h
            · simp only [Prod.mk.injEq, Option.some.injEq] at h
              exact h.1.symm
            · simp only [Prod.mk.injEq, Option.some.injEq] at h
              exact h.1.symm
        have hvals : ∀ k, out.header.values k = req1.header.values k := by
          intro k
          rw [hout, values_copyHeaders, Go.collected_of_wf _ (hwf1 hwf)]
          rfl
        rw [hpath, hq] at hu
        refine ⟨r, rfl, by rw [hout]; exact hm, by rw [hout]; exact hb,
          by rw [hout]; exact hu, ?_, ?_, ?_, ?_⟩
        · intro hne
          rw [hout]
          cases hh : r.handler with
          | check => rw [hh] at hu; cases hu
          | keep t =>
            rw [hh] at hu
            simp only [Forward.fullURL, ProxyHandler.fullURL, hne, ne_eq, not_false_eq_true,
              if_true, Option.some.injEq] at hu
            exact ⟨_, hu.symm⟩
          | strip pfx t =>
            rw [hh] at hu
            simp only [Forward.fullURL, StripPrefixProxy.fullURL, hne, ne_eq,
              not_false_eq_true, if_true, Option.some.injEq] at hu
            exact ⟨_, hu.symm⟩
        · intro k hk1 hk2
          rw [hvals, hother k hk1 hk2]
        · intro hn k
          rw [hvals, hno hn]
        · intro hin
          obtain ⟨claims, hv, hx, hy⟩ := hyes hin
          exact ⟨claims, hv, by rw [hvals]; exact hx, by rw [hvals]; exact hy⟩

/-- C22 (amended) at a concrete input: the sample request for the orders of user 7 keeps its
method, query and `Accept` values, and its `X-User-Id` is replaced by the token's. -/
theorem forwarded_request_frame_witness :
    ∃ r, dispatch Sample.backends "GET" "/orders" = some r ∧
      Sample.listOrdersSent.method = "GET" ∧ Sample.listOrdersSent.body = "" ∧
      r.handler.fullURL "/orders" "page=2" = some "http://localhost:8003/orders?page=2" ∧
      ("page=2" ≠ "" → ∃ base, "http://localhost:8003/orders?page=2" = base ++ ("?" ++ "page=2")) ∧
      (∀ k, k ≠ "X-User-Id" → k ≠ "X-User-Role" →
        Sample.listOrdersSent.header.values k = Sample.listOrders.header.values k) ∧
      (Gate.auth ∉ r.gates →
        ∀ k, Sample.listOrdersSent.header.values k = Sample.listOrders.header.values k) ∧
      (Gate.auth ∈ r.gates →
        ∃ claims,
          Sample.acceptTok (Go.TrimPrefix (Sample.listOrders.header.Get "Authorization")
            "Bearer ") = .ok claims ∧
          Sample.listOrdersSent.header.values "X-User-Id" = [toString claims.UserID] ∧
          Sample.listOrdersSent.header.values "X-User-Role" = [claims.Role]) :=
  forwarded_request_frame Sample.backends Sample.acceptTok Sample.echoNet [] Sample.listOrders
    Sample.listOrdersSent Sample.listOrdersAnswer (by decide) rfl

/-- A preflight from another origin is answered 204 by the CORS middleware and nothing is
sent to a backend. -/
theorem handle_preflight :
    handle Sample.backends Sample.acceptTok Sample.echoNet [] Sample.preflight =
      some (none, ⟨204, [], .raw ""⟩) := by
  rfl

end ApiGateway

namespace AuthService

/-! ## The gates in front of the approval handlers -/

/-- A request passes the auth service's `AuthMiddleware` only with claims `ParseToken`
returned for the text after the scheme. -/
theorem parseToken_of_passed {parseToken : String → Except String Jwt.Claims} {auth : String}
    {c : Context} (h : AuthMiddleware parseToken auth = .ok c) :
    ∃ claims, parseToken (Go.TrimSpace (Go.sliceFrom auth "Bearer ".length)) = .ok claims ∧
      c = { user_id := some claims.UserID, role := some claims.Role } := by
  unfold AuthMiddleware at h
  split at h
  · cases h
  · simp only [] at h
    cases hv : parseToken (Go.TrimSpace (Go.sliceFrom auth "Bearer ".length)) with
    | error e => rw [hv] at h; cases h
    | ok claims =>
      rw [hv] at h
      simp only [Except.ok.injEq] at h
      exact ⟨claims, rfl, h.symm⟩

/-- The gates of the two approval routes pass only a token with the role `superadmin`. -/
theorem gates_approval {parseToken : String → Except String Jwt.Claims} {e : Endpoint}
    {auth : String} {c : Context} (h : e.gates parseToken auth = .ok c)
    (he : e.isApproval = true) :
    ∃ claims, parseToken (Go.TrimSpace (Go.sliceFrom auth "Bearer ".length)) = .ok claims ∧
      claims.Role = "superadmin" ∧ c.role = some "superadmin" := by
  have key : (match AuthMiddleware parseToken auth with
      | .error e => (.error e : Except ErrorResponse Context)
      | .ok c =>
        match RequireRoles ["superadmin"] c with
        | some e => .error e
        | none => .ok c) = .ok c →
      ∃ claims, parseToken (Go.TrimSpace (Go.sliceFrom auth "Bearer ".length)) = .ok claims ∧
        claims.Role = "superadmin" ∧ c.role = some "superadmin" := by
    intro h
    cases hm : AuthMiddleware parseToken auth with
    | error e => rw [hm] at h; cases h
    | ok c0 =>
      rw [hm] at h
      obtain ⟨claims, hv, hc⟩ := parseToken_of_passed hm
      simp only [] at h
      cases hr : RequireRoles ["superadmin"] c0 with
      | some e => rw [hr] at h; cases h
      | none =>
        rw [hr] at h
        simp only [Except.ok.injEq] at h
        subst h
        subst hc
        simp only [RequireRoles, List.mem_singleton] at hr
        split at hr
        · rename_i hrole
          exact ⟨claims, hv, hrole, by rw [hrole]⟩
        · cases hr
  cases e with
  | register => cases he
  | login => cases he
  | notifications => cases he
  | approveAdmin id => exact key h
  | approveRequest => exact key h

end AuthService

namespace ApiGateway

/-- The gateway hands the backend the `Authorization` header of the client. -/
theorem forwarded_authorization (b : Backends) (validate : String → Except String Jwt.Claims)
    (net : Net) (writer : Go.Header) (req : Request) (out : OutboundRequest)
    (resp : ClientResponse) (hwf : req.header.WF)
    (h : handle b validate net writer req = some (some out, resp)) :
    out.header.Get "Authorization" = req.header.Get "Authorization" := by
  unfold handle at h
  cases hd : dispatch b req.method req.path with
  | none => rw [hd] at h; cases h
  | some r =>
    rw [hd] at h
    simp only [] at h
    have hcors : corsPreflight req = false := by
      cases hc : corsPreflight req with
      | false => rfl
      | true => rw [hc] at h; cases h
    rw [hcors] at h
    simp only [Bool.false_eq_true, if_false] at h
    cases hg : runGates validate r.gates req ⟨none, none⟩ with
    | error e => rw [hg] at h; cases h
    | ok rc =>
      rcases rc with ⟨req1, c1⟩
      rw [hg] at h
      simp only [] at h
      obtain ⟨_, _, _, _, hwf1, hother, _, _⟩ := runGates_spec validate _ _ _ _ _ hg
      cases hu : r.handler.fullURL req1.path req1.rawQuery with
      | none => rw [hu] at h; cases h
      | some fullURL =>
        rw [hu] at h
        simp only [Option.some.injEq] at h
        have hout : out = ⟨req1.method, fullURL, copyHeaders req1.header [], req1.body⟩ := by
          unfold forward at h
          split at h
          · cases h
          · simp only [] at h
            split at h
            · simp only [Prod.mk.injEq, Option.some.injEq] at h
              exact h.1.symm
            · simp only [Prod.mk.injEq, Option.some.injEq] at h
              exact h.1.symm
        have hvals : out.header.values "Authorization" = req.header.values "Authorization" := by
          rw [hout, values_copyHeaders, Go.collected_of_wf _ (hwf1 hwf)]
          exact hother "Authorization" (by decide) (by decide)
        have h0 : Go.CanonicalMIMEHeaderKey "Authorization" = "Authorization" := by decide
        simp only [Go.Header.Get, h0, hvals]

end ApiGateway

namespace Composed

/-- C29: a request reaches the handler `ApproveAdmin` or `GetPendingAdminApprovals` of the
auth service only if its `Authorization` header carries a token that `ParseToken` accepts
with the role `superadmin`, and the handler starts with that role in its context.  The same
holds for a request that came through the gateway, by any of its routes and however the
forwarded URL is resolved at the auth service: the token is the one in the client's own
`Authorization` header.  So a request without that header, or with a token of another
role, reaches neither handler. -/
theorem approval_superadmin_only (parseToken : String → Except String Jwt.Claims) :
    (∀ (method path : String) (header : Go.Header) (e : AuthService.Endpoint) (c : Context),
      AuthService.reaches parseToken method path header = some (e, c) →
      e.isApproval = true →
      ∃ claims,
        parseToken (Go.TrimSpace (Go.sliceFrom (header.Get "Authorization") "Bearer ".length))
          = .ok claims ∧
        claims.Role = "superadmin" ∧ c.role = some "superadmin") ∧
    (∀ (b : ApiGateway.Backends) (validate : String → Except String Jwt.Claims)
       (net : ApiGateway.Net) (writer : Go.Header) (req : ApiGateway.Request)
       (out : ApiGateway.OutboundRequest) (resp : ApiGateway.ClientResponse)
       (method path : String) (e : AuthService.Endpoint) (c : Context),
      req.header.WF →
      ApiGateway.handle b validate net writer req = some (some out, resp) →
      AuthService.reaches parseToken method path out.header = some (e, c) →
      e.isApproval = true →
      ∃ claims,
        parseToken (Go.TrimSpace (Go.sliceFrom (req.header.Get "Authorization")
          "Bearer ".length)) = .ok claims ∧
        claims.Role = "superadmin") ∧
    (∀ (method path : String) (header : Go.Header) (e : AuthService.Endpoint) (c : Context),
      (header.Get "Authorization" = "" ∨
        ∀ claims,
          parseToken (Go.TrimSpace (Go.sliceFrom (header.Get "Authorization")
            "Bearer ".length)) = .ok claims → claims.Role ≠ "superadmin") →
      AuthService.reaches parseToken method path header = some (e, c) →
      e.isApproval = false) := by
  have direct : ∀ (method path : String) (header : Go.Header) (e : AuthService.Endpoint)
      (c : Context),
      AuthService.reaches parseToken method path header = some (e, c) →
      e.isApproval = true →
      header.Get "Authorization" ≠ "" ∧
      ∃ claims,
        parseToken (Go.TrimSpace (Go.sliceFrom (header.Get "Authorization") "Bearer ".length))
          = .ok claims ∧
        claims.Role = "superadmin" ∧ c.role = some "superadmin" := by
    intro method path header e c h he
    unfold AuthService.reaches at h
    cases hr : AuthService.route method path with
    | none => rw [hr] at h; cases h
    | some e0 =>
      rw [hr] at h
      simp only [] at h
      cases hg : e0.gates parseToken (header.Get "Authorization") with
      | error err => rw [hg] at h; cases h
      | ok c0 =>
        rw [hg] at h
        simp only [Option.some.injEq, Prod.mk.injEq] at h
        obtain ⟨h1, h2⟩ := h
        subst h1
        subst h2
        refine ⟨?_, AuthService.gates_approval hg he⟩
        intro hempty
        rw [hempty] at hg
        cases e0 with
        | register => cases he
        | login => cases he
        | notifications => cases he
        | approveAdmin id =>
          simp [AuthService.Endpoint.gates, AuthService.AuthMiddleware] at hg
        | approveRequest =>
          simp [AuthService.Endpoint.gates, AuthService.AuthMiddleware] at hg
  refine ⟨?_, ?_, ?_⟩
  · intro method path header e c h he
    exact (direct method path header e c h he).2
  · intro b validate net writer req out resp method path e c hwf hh hr he
    obtain ⟨_, claims, hv, hrole, _⟩ := direct method path out.header e c hr he
    rw [ApiGateway.forwarded_authorization b validate net writer req out resp hwf hh] at hv
    exact ⟨claims, hv, hrole⟩
  · intro method path header e c hno hr
    cases he : e.isApproval with
    | false => rfl
    | true =>
      obtain ⟨hne, claims, hv, hrole, _⟩ := direct method path header e c hr he
      rcases hno with h0 | h0
      · exact absurd h0 hne
      · exact absurd hrole (h0 claims hv)

/-- C29 at concrete inputs: the token of super administrator 1 reaches `ApproveAdmin`
directly; the token of seller 42 passes the gateway on `/admin/approve-admin/2`, is
forwarded, and reaches no handler of the auth service. -/
theorem approval_superadmin_only_witness :
    (∃ claims,
      Sample.parseByName (Go.TrimSpace (Go.sliceFrom
        (Go.Header.Get [("Authorization", ["Bearer root"])] "Authorization")
        "Bearer ".length)) = .ok claims ∧
      claims.Role = "superadmin" ∧
      (⟨some 1, some "superadmin"⟩ : Context).role = some "superadmin") ∧
    (∃ out resp,
      ApiGateway.handle Sample.backends Sample.parseByName Sample.echoNet []
        Sample.approveBySeller = some (some out, resp) ∧
      out.url = "http://localhost:8001/approve-admin/2" ∧
      AuthService.reaches Sample.parseByName "PUT" "/approve-admin/2" out.header = none) :=
  ⟨(approval_superadmin_only Sample.parseByName).1 "PUT" "/approve-admin/2"
      [("Authorization", ["Bearer root"])] (.approveAdmin "2") ⟨some 1, some "superadmin"⟩
      rfl rfl,
    ⟨_, _, rfl, rfl, rfl⟩⟩

end Composed

namespace AuthService

/-! ## Registration -/

/-- A body binds exactly when it decodes and every field check passes. -/
theorem bindRegister_ok {env : Env} {decoded : Except String RegisterRequest}
    {req : RegisterRequest} (h : bindRegisterRequest env decoded = .ok req) :
    decoded = .ok req ∧ req.failures env = [] := by
  unfold bindRegisterRequest at h
  cases decoded with
  | error e => cases h
  | ok r =>
    simp only [] at h
    cases hf : r.failures env with
    | nil =>
      rw [hf] at h
      simp only [Except.ok.injEq] at h
      subst h
      exact ⟨rfl, hf⟩
    | cons a as => rw [hf] at h; cases h

/-- A body that decodes and passes every field check binds. -/
theorem bindRegister_of_valid {env : Env} {req : RegisterRequest}
    (h : req.failures env = []) : bindRegisterRequest env (.ok req) = .ok req := by
  simp only [bindRegisterRequest, h]

/-- The `oneof` tag leaves four values of the role. -/
theorem role_of_valid {env : Env} {req : RegisterRequest} (h : req.failures env = []) :
    req.Role = "" ∨ req.Role = "superadmin" ∨ req.Role = "saler" ∨ req.Role = "user" := by
  unfold RegisterRequest.failures at h
  have h4 := (List.append_eq_nil.mp h).2
  by_cases h0 : req.Role = ""
  · exact Or.inl h0
  · rw [if_neg h0] at h4
    by_cases h1 : req.Role ∉ ["superadmin", "saler", "user"]
    · rw [if_pos h1] at h4
      cases h4
    · right
      have h2 : req.Role ∈ ["superadmin", "saler", "user"] := not_not.mp h1
      simpa using h2

/-- The store `Register` returns: the one it was given, or that one with a single new
account whose role is the requested one, `user` when the body names none, and never
`superadmin`. -/
theorem register_store (env : Env) (decoded : Except String RegisterRequest) (salt now : Nat)
    (s : AuthStore) :
    (Register env decoded salt now s).2 = s ∨
    ∃ req u, decoded = .ok req ∧ req.failures env = [] ∧
      (Register env decoded salt now s).1.status = 201 ∧
      (Register env decoded salt now s).2 =
        { s with users := s.users ++ [u], lastUserID := s.lastUserID + 1 } ∧
      u.ID = s.lastUserID + 1 ∧
      u.Role = (if req.Role = "" then "user" else req.Role) ∧
      u.Role ≠ "superadmin" ∧
      u.Email = normalizeEmail env req.Email := by
  unfold Register
  cases hb : bindRegisterRequest env decoded with
  | error e => exact Or.inl rfl
  | ok req =>
    obtain ⟨hd, hv⟩ := bindRegister_ok hb
    simp only []
    have hne : (if req.Role = "" then RoleUser else req.Role) ≠ "" := by
      split
      · decide
      · assumption
    have hrole : (if req.Role = "" then RoleUser else req.Role) =
        (if req.Role = "" then "user" else req.Role) := rfl
    generalize (if req.Role = "" then RoleUser else req.Role) = role at hne hrole ⊢
    by_cases hsuper : role = RoleSuperAdmin
    · rw [if_pos hsuper]
      exact Or.inl rfl
    · rw [if_neg hsuper]
      by_cases hgst : role = RoleAdmin ∧ Go.TrimSpace req.GSTNumber = ""
      · rw [if_pos hgst]
        exact Or.inl rfl
      · rw [if_neg hgst]
        cases s.firstByEmail (normalizeEmail env req.Email) with
        | ok u0 => exact Or.inl rfl
        | error e0 =>
          simp only []
          cases env.HashPassword salt req.Password with
          | error e1 => exact Or.inl rfl
          | ok hash =>
            simp only [AuthStore.createUser]
            cases hfault : s.fault with
            | some e2 => exact Or.inl rfl
            | none =>
              simp only []
              by_cases hdup :
                  (s.users.any fun u => u.Email == normalizeEmail env req.Email) = true
              · rw [if_pos hdup]
                exact Or.inl rfl
              · rw [if_neg hdup]
                right
                refine ⟨req,
                  { ID := s.lastUserID + 1, Name := Go.TrimSpace req.Name,
                    Email := normalizeEmail env req.Email, PasswordHash := hash,
                    Role := if role = "" then "user" else role,
                    IsApproved := decide (role ≠ RoleAdmin), CreatedAt := now,
                    GSTNum := Go.TrimSpace req.GSTNumber },
                  hd, hv, rfl, ?_, rfl, ?_, ?_, rfl⟩
                · simp only []
                · simp only [hne, if_false]
                  exact hrole
                · simp only [hne, if_false]
                  exact hsuper

/-- C23: a registration with the role `superadmin` creates no account, whatever else the
body holds, and is answered 403 when the body passes the field checks (400 with the
validation message when it does not).  Every call of `Register` either leaves the store as
it was or adds one account, answered 201, whose role is `user` or `saler`: the role the
body names, and `user` when it names none. -/
theorem register_never_superadmin (env : Env) (decoded : Except String RegisterRequest)
    (salt now : Nat) (s : AuthStore) :
    (∀ req, decoded = .ok req → req.Role = "superadmin" →
      (Register env decoded salt now s).2 = s ∧
      (req.failures env = [] →
        (Register env decoded salt now s).1 =
          ⟨403, .error "cannot self-register as superadmin"⟩) ∧
      (req.failures env ≠ [] → (Register env decoded salt now s).1.status = 400)) ∧
    ((Register env decoded salt now s).2 = s ∨
      ∃ req u, decoded = .ok req ∧
        (Register env decoded salt now s).1.status = 201 ∧
        (Register env decoded salt now s).2 =
          { s with users := s.users ++ [u], lastUserID := s.lastUserID + 1 } ∧
        (u.Role = "user" ∨ u.Role = "saler") ∧
        u.Role = (if req.Role = "" then "user" else req.Role)) := by
  constructor
  · intro req hd hrole
    subst hd
    have hne : req.Role ≠ "" := by rw [hrole]; decide
    refine ⟨?_, ?_, ?_⟩
    · unfold Register
      cases hb : bindRegisterRequest env (.ok req) with
      | error e => rfl
      | ok r =>
        obtain ⟨hd, _⟩ := bindRegister_ok hb
        cases hd
        simp only []
        rw [if_neg hne, hrole, if_pos (show "superadmin" = RoleSuperAdmin from rfl)]
    · intro hv
      simp only [Register, bindRegister_of_valid hv]
      rw [if_neg hne, hrole, if_pos (show "superadmin" = RoleSuperAdmin from rfl)]
    · intro hv
      cases hf : req.failures env with
      | nil => exact absurd hf hv
      | cons a as => simp only [Register, bindRegisterRequest, hf]
  · rcases register_store env decoded salt now s with h | ⟨req, u, hd, hv, hst, hs, _, hr, hns, _⟩
    · exact Or.inl h
    · right
      refine ⟨req, u, hd, hst, hs, ?_, hr⟩
      rcases role_of_valid hv with h0 | h0 | h0 | h0
      · rw [hr, if_pos h0]
        exact Or.inl rfl
      · rw [hr, h0] at hns
        exact absurd rfl hns
      · rw [hr, h0]
        exact Or.inr rfl
      · rw [hr, h0]
        exact Or.inl rfl

/-- C23 at concrete inputs: Eve asks for the role `superadmin` and gets 403 with the store
unchanged; Ann names no role and becomes account 4 with the role `user`. -/
theorem register_never_superadmin_witness :
    Register Sample.toyEnv (.ok Sample.eveAsRoot) 0 40 Sample.accounts =
      (⟨403, .error "cannot self-register as superadmin"⟩, Sample.accounts) ∧
    (Register Sample.toyEnv (.ok Sample.ann) 0 40 Sample.accounts).1 =
      ⟨201, .registered "user registered successfully" 4 true "user"⟩ := by
  have h := (register_never_superadmin Sample.toyEnv (.ok Sample.eveAsRoot) 0 40
    Sample.accounts).1 Sample.eveAsRoot rfl rfl
  exact ⟨Prod.ext (h.2.1 (by decide)) h.1, rfl⟩

/-! ## Login -/

/-- The row the email lookup returns is a stored row. -/
theorem firstByEmail_mem {s : AuthStore} {email : String} {u : User}
    (h : s.firstByEmail email = .ok u) : u ∈ s.users := by
  unfold AuthStore.firstByEmail at h
  cases hf : s.fault with
  | some e => rw [hf] at h; cases h
  | none =>
    rw [hf] at h
    simp only [] at h
    cases hfind : s.users.find? (fun u => u.Email == email) with
    | none => rw [hfind] at h; cases h
    | some u0 =>
      rw [hfind] at h
      simp only [Except.ok.injEq] at h
      subst h
      exact List.mem_of_find?_eq_some hfind

/-- The token `GenerateToken` issues decodes, under a coding that reads back what it writes,
to a token with the header `alg` of `HS256` and the given user id and role. -/
theorem generateToken_decodes {Sig : Type} (lib : Jwt.Lib Sig) (c : Config) (userID : Nat)
    (role : String) (now1 now2 : Int)
    (hcodec : ∀ tok : Jwt.Token Sig, lib.decode (lib.encode tok) = some tok) :
    ∃ tok, lib.decode (GenerateToken lib c userID role now1 now2) = some tok ∧
      tok.alg = some "HS256" ∧ tok.claims.UserID = userID ∧ tok.claims.Role = role :=
  ⟨_, hcodec _, rfl, rfl, rfl⟩

/-- C24: for a login body that passes the field checks, an email without account and a
wrong password are both answered 401 with the same message, the password check coming
before the approval check; a `saler` account that is not approved is answered 403 without
a token when the password is right; and every other account with the right password is
answered 200 with a token.  For any body at all, a response that carries a token belongs to
a stored account that is not an unapproved `saler`.  In both cases the token is the one
`GenerateToken` issues for the stored id and role: under a coding that reads back what it
writes it decodes to claims with exactly that id and role, and `ParseToken` returns those
claims at every time before its `exp`. -/
theorem login_gating {Sig : Type} [DecidableEq Sig] (env : Env) (lib : Jwt.Lib Sig)
    (cfg : Config) (req : LoginRequest) (now1 now2 : Int) (s : AuthStore)
    (hv : req.failures env = [])
    (hcodec : ∀ tok : Jwt.Token Sig, lib.decode (lib.encode tok) = some tok) :
    (∀ e, s.firstByEmail (normalizeEmail env req.Email) = .error e →
      Login env lib cfg (.ok req) now1 now2 s = ⟨401, .error "invalid email or password"⟩) ∧
    (∀ u, s.firstByEmail (normalizeEmail env req.Email) = .ok u →
      (env.CheckPassword u.PasswordHash req.Password = false →
        Login env lib cfg (.ok req) now1 now2 s =
          ⟨401, .error "invalid email or password"⟩) ∧
      (env.CheckPassword u.PasswordHash req.Password = true →
        u.Role = "saler" → u.IsApproved = false →
        Login env lib cfg (.ok req) now1 now2 s = ⟨403, .error "admin not approved yet"⟩) ∧
      (env.CheckPassword u.PasswordHash req.Password = true →
        ¬ (u.Role = "saler" ∧ u.IsApproved = false) →
        ∃ token,
          Login env lib cfg (.ok req) now1 now2 s =
            ⟨200, .session token u.ID u.Name u.Email u.Role u.IsApproved⟩ ∧
          (∃ tok, lib.decode token = some tok ∧ tok.alg = some "HS256" ∧
            tok.claims.UserID = u.ID ∧ tok.claims.Role = u.Role) ∧
          (∀ t, t < Jwt.truncSec (now1 + cfg.JWTExpiry) →
            ∃ claims, ParseToken lib cfg token t = .ok claims ∧
              claims.UserID = u.ID ∧ claims.Role = u.Role))) ∧
    (∀ (decoded : Except String LoginRequest) (status : Nat) (token : String) (id : Nat)
       (name email role : String) (approved : Bool),
      Login env lib cfg decoded now1 now2 s =
        ⟨status, .session token id name email role approved⟩ →
      ∃ u ∈ s.users, id = u.ID ∧ role = u.Role ∧
        ¬ (u.Role = "saler" ∧ u.IsApproved = false) ∧
        (∃ tok, lib.decode token = some tok ∧ tok.alg = some "HS256" ∧
          tok.claims.UserID = u.ID ∧ tok.claims.Role = u.Role) ∧
        (∀ t, t < Jwt.truncSec (now1 + cfg.JWTExpiry) →
          ∃ claims, ParseToken lib cfg token t = .ok claims ∧
            claims.UserID = u.ID ∧ claims.Role = u.Role)) := by
  have hb : bindLoginRequest env (.ok req) = .ok req := by
    simp only [bindLoginRequest, hv]
  have hparse : ∀ (u : User) (t : Int), t < Jwt.truncSec (now1 + cfg.JWTExpiry) →
      ∃ claims, ParseToken lib cfg (GenerateToken lib cfg u.ID u.Role now1 now2) t =
          .ok claims ∧ claims.UserID = u.ID ∧ claims.Role = u.Role := by
    intro u t ht
    refine ⟨newClaims cfg u.ID u.Role now1 now2, ?_, rfl, rfl⟩
    rw [parseToken_generateToken lib cfg u.ID u.Role now1 now2 t hcodec, if_pos ht]
  refine ⟨?_, ?_, ?_⟩
  · intro e he
    simp only [Login, hb, he]
  · intro u hu
    refine ⟨?_, ?_, ?_⟩
    · intro hc
      simp only [Login, hb, hu, hc, Bool.false_eq_true, not_false_eq_true, if_true]
    · intro hc hr ha
      simp only [Login, hb, hu, hc, not_true_eq_false, if_false, hr, ha, RoleAdmin,
        Bool.false_eq_true, not_false_eq_true, and_self, if_true]
    · intro hc hn
      have hn2 : ¬ (u.Role = RoleAdmin ∧ ¬ u.IsApproved = true) := by
        intro h
        apply hn
        refine ⟨h.1, ?_⟩
        cases hap : u.IsApproved with
        | false => rfl
        | true => exact absurd hap h.2
      refine ⟨GenerateToken lib cfg u.ID u.Role now1 now2, ?_,
        generateToken_decodes lib cfg u.ID u.Role now1 now2 hcodec, hparse u⟩
      simp only [Login, hb, hu, hc, not_true_eq_false, if_false, hn2]
  · intro decoded status token id name email role approved h
    unfold Login at h
    cases hbind : bindLoginRequest env decoded with
    | error e => rw [hbind] at h; cases h
    | ok r =>
      rw [hbind] at h
      simp only [] at h
      cases hu : s.firstByEmail (normalizeEmail env r.Email) with
      | error e => rw [hu] at h; cases h
      | ok u =>
        rw [hu] at h
        simp only [] at h
        split at h
        · cases h
        · split at h
          · cases h
          · rename_i hgate
            simp only [Response.mk.injEq, Body.session.injEq] at h
            obtain ⟨_, ht, hi, _, _, hr, _⟩ := h
            subst ht
            refine ⟨u, firstByEmail_mem hu, hi.symm, hr.symm, ?_,
              generateToken_decodes lib cfg u.ID u.Role now1 now2 hcodec, hparse u⟩
            intro hbad
            apply hgate
            refine ⟨hbad.1, ?_⟩
            rw [hbad.2]
            decide

/-- C24 at concrete inputs, with the coding `packLib`: Sam, a `saler` who waits for approval,
logs in with the right password and gets 403, and with a wrong one 401; Uma, a plain user,
gets a token that decodes to id 3 and role `user`. -/
theorem login_gating_witness :
    Login Sample.toyEnv Sample.packLib Sample.authConfig (.ok ⟨"Sam@X.com", "sam-pw"⟩) 100 100
        Sample.accounts = ⟨403, .error "admin not approved yet"⟩ ∧
    Login Sample.toyEnv Sample.packLib Sample.authConfig (.ok ⟨"sam@x.com", "guess"⟩) 100 100
        Sample.accounts = ⟨401, .error "invalid email or password"⟩ ∧
    ∃ token,
      Login Sample.toyEnv Sample.packLib Sample.authConfig (.ok ⟨"uma@x.com", "uma-pw"⟩)
          100 100 Sample.accounts =
        ⟨200, .session token 3 "Uma" "uma@x.com" "user" true⟩ ∧
      (∃ tok, Sample.packLib.decode token = some tok ∧ tok.alg = some "HS256" ∧
        tok.claims.UserID = 3 ∧ tok.claims.Role = "user") ∧
      (∀ t, t < Jwt.truncSec (100 + Sample.authConfig.JWTExpiry) →
        ∃ claims, ParseToken Sample.packLib Sample.authConfig token t = .ok claims ∧
          claims.UserID = 3 ∧ claims.Role = "user") := by
  have h1 := (login_gating Sample.toyEnv Sample.packLib Sample.authConfig
    ⟨"Sam@X.com", "sam-pw"⟩ 100 100 Sample.accounts (by decide)
    Sample.packLib_codec).2.1 Sample.sam rfl
  have h2 := (login_gating Sample.toyEnv Sample.packLib Sample.authConfig
    ⟨"sam@x.com", "guess"⟩ 100 100 Sample.accounts (by decide)
    Sample.packLib_codec).2.1 Sample.sam rfl
  have h3 := (login_gating Sample.toyEnv Sample.packLib Sample.authConfig
    ⟨"uma@x.com", "uma-pw"⟩ 100 100 Sample.accounts (by decide)
    Sample.packLib_codec).2.1 Sample.uma rfl
  exact ⟨h1.2.1 rfl rfl rfl, h2.1 rfl, h3.2.2 rfl (by decide)⟩

/-! ## Approval -/

/-- The row the key lookup returns has that key and is a stored row, and the connection
works. -/
theorem first_key {s : AuthStore} {id : Nat} {u : User} (h : s.first id = .ok u) :
    u.ID = id ∧ s.fault = none ∧ s.users.find? (fun x => x.ID == id) = some u := by
  unfold AuthStore.first at h
  cases hf : s.fault with
  | some e => rw [hf] at h; cases h
  | none =>
    rw [hf] at h
    simp only [] at h
    cases hfind : s.users.find? (fun u => u.ID == id) with
    | none => rw [hfind] at h; cases h
    | some u0 =>
      rw [hfind] at h
      simp only [Except.ok.injEq] at h
      subst h
      have h2 := List.find?_some hfind
      exact ⟨by simpa using h2, rfl, rfl⟩

/-- The lookup by key after the rows with that key were replaced. -/
theorem find_replaced (l : List User) (id : Nat) (u v : User) (hv : v.ID = id)
    (h : l.find? (fun x => x.ID == id) = some u) :
    (l.map (fun x => if x.ID = id then v else x)).find? (fun x => x.ID == id) = some v := by
  induction l with
  | nil => cases h
  | cons a rest ih =>
    by_cases ha : a.ID = id
    · simp [List.find?, ha, hv]
    · have hne : (a.ID == id) = false := by simpa using ha
      simp only [List.find?, hne] at h
      simp only [List.map_cons, if_neg ha, List.find?, hne]
      exact ih h

/-- C25: for a stored `saler` account that is not approved, `ApproveAdmin` without a failing
step answers 200, sets `is_approved` on the rows with that key and adds exactly one
notification for that user, all other rows and notifications staying as they were; with a
failing step it answers 500 and returns the store unchanged.  For an approved `saler` it
answers 200 and returns the store unchanged, so a second approval after a successful one
changes nothing and the store holds the one notification of the first.  For an account
that is absent or not a `saler` the store is returned unchanged. -/
theorem approveAdmin_atomic (idParam : Option Int) (id : Nat) (now : Nat) (s : AuthStore)
    (hid : parseUserID idParam = some id) :
    (∀ u, s.first id = .ok u → u.Role = "saler" → u.IsApproved = false →
      ApproveAdmin idParam ⟨none, none, none⟩ now s =
        (⟨200, .message "admin approved"⟩,
          { s with
            users := s.users.map
              (fun x => if x.ID = u.ID then { u with IsApproved := true } else x)
            notifications := s.notifications ++
              [{ ID := s.lastNotifID + 1, UserID := u.ID,
                 Message := "Your admin account has been approved", IsRead := false,
                 CreatedAt := now }]
            lastNotifID := s.lastNotifID + 1 }) ∧
      (∀ faults : TxFaults, faults ≠ ⟨none, none, none⟩ →
        ApproveAdmin idParam faults now s = (⟨500, .error "failed to approve admin"⟩, s)) ∧
      (∀ (faults : TxFaults) (now2 : Nat),
        ApproveAdmin idParam faults now2 (ApproveAdmin idParam ⟨none, none, none⟩ now s).2 =
          (⟨200, .message "admin already approved"⟩,
            (ApproveAdmin idParam ⟨none, none, none⟩ now s).2))) ∧
    (∀ u, s.first id = .ok u → u.Role = "saler" → u.IsApproved = true →
      ∀ faults : TxFaults,
        ApproveAdmin idParam faults now s = (⟨200, .message "admin already approved"⟩, s)) ∧
    (∀ faults : TxFaults, (∀ u, s.first id = .ok u → u.Role ≠ "saler") →
      (ApproveAdmin idParam faults now s).2 = s ∧
      (ApproveAdmin idParam faults now s).1.status ≠ 200) := by
  have hok : ∀ u, s.first id = .ok u → u.Role = "saler" → u.IsApproved = false →
      ApproveAdmin idParam ⟨none, none, none⟩ now s =
        (⟨200, .message "admin approved"⟩,
          { s with
            users := s.users.map
              (fun x => if x.ID = u.ID then { u with IsApproved := true } else x)
            notifications := s.notifications ++
              [{ ID := s.lastNotifID + 1, UserID := u.ID,
                 Message := "Your admin account has been approved", IsRead := false,
                 CreatedAt := now }]
            lastNotifID := s.lastNotifID + 1 }) := by
    intro u hu hr ha
    simp only [ApproveAdmin, hid, hu, hr, RoleAdmin, ne_eq, not_true_eq_false, if_false, ha,
      Bool.false_eq_true, Transaction, approveAndNotify, AuthStore.saveUser,
      AuthStore.createNotification]
  refine ⟨?_, ?_, ?_⟩
  · intro u hu hr ha
    refine ⟨hok u hu hr ha, ?_, ?_⟩
    · intro faults hne
      rcases faults with ⟨fs, fc, fm⟩
      simp only [ApproveAdmin, hid, hu, hr, RoleAdmin, ne_eq, not_true_eq_false, if_false, ha,
        Bool.false_eq_true, Transaction, approveAndNotify, AuthStore.saveUser,
        AuthStore.createNotification]
      cases fs with
      | some e => rfl
      | none =>
        cases fc with
        | some e => rfl
        | none =>
          cases fm with
          | some e => rfl
          | none => exact absurd rfl hne
    · intro faults now2
      obtain ⟨hk, hf, hfind⟩ := first_key hu
      subst hk
      rw [hok u hu hr ha]
      have hfirst : AuthStore.first
          { s with
            users := s.users.map
              (fun x => if x.ID = u.ID then { u with IsApproved := true } else x)
            notifications := s.notifications ++
              [{ ID := s.lastNotifID + 1, UserID := u.ID,
                 Message := "Your admin account has been approved", IsRead := false,
                 CreatedAt := now }]
            lastNotifID := s.lastNotifID + 1 } u.ID = .ok { u with IsApproved := true } := by
        simp only [AuthStore.first, hf]
        rw [find_replaced s.users u.ID u { u with IsApproved := true } rfl hfind]
      simp only [ApproveAdmin, hid, hfirst]
      simp only [hr, RoleAdmin, ne_eq, not_true_eq_false, if_false, if_true]
  · intro u hu hr ha faults
    simp only [ApproveAdmin, hid, hu, hr, RoleAdmin, ne_eq, not_true_eq_false, if_false, ha,
      if_true]
  · intro faults hall
    unfold ApproveAdmin
    rw [hid]
    simp only []
    cases hu : s.first id with
    | error e => exact ⟨rfl, by simp⟩
    | ok u =>
      have hr : u.Role ≠ RoleAdmin := hall u hu
      simp only []
      rw [if_pos hr]
      exact ⟨rfl, by simp⟩

/-- C25 at a concrete input: the approval of Sam sets the flag and writes notification 1;
when the creation of the notification fails nothing is written; a second approval changes
nothing, so one notification is there. -/
theorem approveAdmin_atomic_witness :
    (ApproveAdmin (some 2) Sample.noFaults 50 Sample.accounts).2.notifications =
      [⟨1, 2, "Your admin account has been approved", false, 50⟩] ∧
    (ApproveAdmin (some 2) Sample.noFaults 50 Sample.accounts).2.users.map
      (fun u => (u.ID, u.IsApproved)) = [(1, true), (2, true), (3, true)] ∧
    ApproveAdmin (some 2) Sample.createFails 50 Sample.accounts =
      (⟨500, .error "failed to approve admin"⟩, Sample.accounts) ∧
    (ApproveAdmin (some 2) Sample.noFaults 60
      (ApproveAdmin (some 2) Sample.noFaults 50 Sample.accounts).2).2.notifications =
      [⟨1, 2, "Your admin account has been approved", false, 50⟩] := by
  have h := (approveAdmin_atomic (some 2) 2 50 Sample.accounts rfl).1 Sample.sam rfl rfl rfl
  refine ⟨?_, ?_, h.2.1 Sample.createFails (by decide), ?_⟩
  · rw [show Sample.noFaults = ⟨none, none, none⟩ from rfl, h.1]
    rfl
  · rw [show Sample.noFaults = ⟨none, none, none⟩ from rfl, h.1]
    rfl
  · rw [show Sample.noFaults = ⟨none, none, none⟩ from rfl, h.2.2 ⟨none, none, none⟩ 60, h.1]
    rfl

/-! ## The seeded account -/

/-- Lower case never gives a capital `A`. -/
theorem toLower_ne_capital (c : Char) : c.toLower ≠ 'A' := by
  intro h
  simp only [Char.toLower] at h
  by_cases h1 : c.toNat ≥ 65 ∧ c.toNat ≤ 90
  · rw [if_pos h1] at h
    have h2 := congrArg Char.toNat h
    have hv : (c.toNat + 32).isValidChar := by
      left
      omega
    have h3 : (Char.ofNat (c.toNat + 32)).toNat = c.toNat + 32 := by
      unfold Char.ofNat
      rw [dif_pos hv]
      simp only [Char.ofNatAux, Char.toNat]
      show (BitVec.ofNatLt _ _).toNat = _
      simp
    rw [h3] at h2
    have h4 : ('A' : Char).toNat = 65 := by decide
    omega
  · rw [if_neg h1] at h
    subst h
    exact h1 (by decide)

/-- No email in the form `Login` looks up is the seeded text `Admin@Example.com`. -/
theorem normalizeEmail_ne_seeded (x : String) :
    normalizeEmail Sample.toyEnv x ≠ "Admin@Example.com" := by
  intro h
  have hd := congrArg String.data h
  simp only [normalizeEmail, Sample.toyEnv] at hd
  cases hx : (Go.TrimSpace x).data with
  | nil => rw [hx] at hd; cases hd
  | cons c cs =>
    rw [hx] at hd
    have hc : c.toLower = 'A' := by
      have := congrArg List.head? hd
      simpa using this
    exact toLower_ne_capital c hc

/-- C27: with `SUPERADMIN_EMAIL` set to `Admin@Example.com`, database initialisation on the
empty database succeeds and stores that text as it is, so a reachable state holds an email
that is not in lower case.  No login request is answered 200 in that state, the one with
the configured email and password is answered 401, and `Register` accepts the same address
in lower case as a second account.  `Register` itself stores every email in the normalised
form. -/
theorem seeded_email_kept_verbatim {Sig : Type} (lib : Jwt.Lib Sig) (cfg : Config)
    (decoded : Except String LoginRequest) (now1 now2 : Int) :
    InitDatabase Sample.toyEnv Sample.rootConfig 0 10 Sample.emptyAuth =
      (none, Sample.seeded) ∧
    Reachable Sample.toyEnv Sample.rootConfig Sample.seeded ∧
    Sample.seeded.users.map (fun u => u.Email) = ["Admin@Example.com"] ∧
    normalizeEmail Sample.toyEnv "Admin@Example.com" = "admin@example.com" ∧
    (Login Sample.toyEnv lib cfg decoded now1 now2 Sample.seeded).status ≠ 200 ∧
    Login Sample.toyEnv lib cfg (.ok ⟨"Admin@Example.com", "root-pw"⟩) now1 now2
      Sample.seeded = ⟨401, .error "invalid email or password"⟩ ∧
    (Register Sample.toyEnv (.ok Sample.eve) 0 20 Sample.seeded).2.users.map
      (fun u => (u.ID, u.Email, u.Role)) =
        [(1, "Admin@Example.com", "superadmin"), (2, "admin@example.com", "user")] ∧
    (∀ (env : Env) (body : Except String RegisterRequest) (salt now : Nat) (s : AuthStore),
      (Register env body salt now s).2 = s ∨
      ∃ req u, body = .ok req ∧
        (Register env body salt now s).2.users = s.users ++ [u] ∧
        u.Email = normalizeEmail env req.Email) := by
  have hfind : ∀ x,
      Sample.seeded.firstByEmail (normalizeEmail Sample.toyEnv x) = .error .recordNotFound := by
    intro x
    have hne : ("Admin@Example.com" == normalizeEmail Sample.toyEnv x) = false := by
      rw [beq_eq_false_iff_ne]
      exact fun h => normalizeEmail_ne_seeded x h.symm
    simp only [AuthStore.firstByEmail, Sample.seeded, List.find?, hne]
  refine ⟨rfl, Reachable.init 0 10 _ rfl, rfl, rfl, ?_, ?_, rfl, ?_⟩
  · unfold Login
    cases bindLoginRequest Sample.toyEnv decoded with
    | error e => simp
    | ok req => simp [hfind]
  · have hb : bindLoginRequest Sample.toyEnv (.ok ⟨"Admin@Example.com", "root-pw"⟩) =
        .ok ⟨"Admin@Example.com", "root-pw"⟩ := rfl
    simp only [Login, hb, hfind]
  · intro env body salt now s
    rcases register_store env body salt now s with h | ⟨req, u, hd, _, _, hs, _, _, _, he⟩
    · exact Or.inl h
    · exact Or.inr ⟨req, u, hd, by rw [hs], he⟩

end AuthService

end Zenqua
